import Mathlib

/-!
xcdevice: wire framing, status mapping and response loops.

A shallow embedding of the Go package `xcdevice` (usbmuxd.go, afc.go,
afc_file.go, installationproxy.go, lockdownd.go, pair.go, install.go).

Conventions of the embedding.

* A byte string is a `List Nat`; every encoder below emits octets (`< 256`).
* Go's fixed-width unsigned integers are `Nat` with an explicit `% 2 ^ w`
  wherever the Go expression can wrap.
* A Go `error` result is an `Option GoError`; `none` is the `nil` error.
* A socket (`net.Conn`) is the record `Conn`: the buffers handed to successful
  `Write` calls, and the bytes the peer will still deliver.
-/

namespace Xcdevice

/-! ## encoding/binary -/

/-- A byte string; each element stands for one octet. -/
abbrev Bytes := List Nat

/-- The `n` low-order octets of `v`, least significant first
(`binary.LittleEndian.PutUintN`, `binary.Write` with `binary.LittleEndian`). -/
def putUintLE : Nat → Nat → Bytes
  | 0, _ => []
  | n + 1, v => (v % 256) :: putUintLE n (v / 256)

/-- The unsigned value of a little-endian octet string
(`binary.LittleEndian.UintN`, `binary.Read` with `binary.LittleEndian`). -/
def uintLE : Bytes → Nat
  | [] => 0
  | b :: bs => b + 256 * uintLE bs

/-- The `n` low-order octets of `v`, most significant first
(`binary.BigEndian.PutUintN`). -/
def putUintBE (n v : Nat) : Bytes := (putUintLE n v).reverse

/-- The unsigned value of a big-endian octet string (`binary.BigEndian.UintN`). -/
def uintBE (bs : Bytes) : Nat := uintLE bs.reverse

/-- The octets of an ASCII string literal (Go `[]byte(s)` for ASCII `s`). -/
def ascii (s : String) : Bytes := s.toList.map Char.toNat

/-! ## errors -/

/-- Go `error` values that the package produces or passes on.  The two
sentinels are compared by identity in Go (`errors.Is`); every other value is
identified with its `Error()` text. -/
inductive GoError where
  /-- The package variable `ErrObjectNotFound` (afc.go line 94). -/
  | ErrObjectNotFound
  /-- The standard library sentinel `io.EOF`. -/
  | EOF
  /-- The standard library sentinel `io.ErrUnexpectedEOF`. -/
  | ErrUnexpectedEOF
  /-- A value made by `errors.New` or `fmt.Errorf` with the given text. -/
  | other (text : String)
  deriving DecidableEq, Repr

/-- The `Error()` text, as printed by the `%v` and `%s` verbs. -/
def GoError.Error : GoError → String
  | .ErrObjectNotFound => "object not found"
  | .EOF => "EOF"
  | .ErrUnexpectedEOF => "unexpected EOF"
  | .other t => t

/-! ## net.Conn -/

/-- A stream socket seen from the client.  `up` tells whether `Write` calls
succeed, `written` lists the buffers of the successful `Write` calls (oldest
first), `incoming` holds the bytes the peer delivers before closing. -/
structure Conn where
  up : Bool
  written : List Bytes
  incoming : Bytes
  deriving DecidableEq, Repr

/-- The method `net.Conn.Write`: by the `io.Writer` contract a call that
returns a nil error has written all of `p`. -/
def Conn.Write (c : Conn) (p : Bytes) : (Nat × Option GoError) × Conn :=
  if c.up then ((p.length, none), { c with written := c.written ++ [p] })
  else ((0, some (.other "write: broken pipe")), c)

/-- The call `io.ReadFull(conn, buf)` with `len(buf) = n`, also the read done by
`binary.Read` for a fixed-size value of `n` bytes: `n` bytes or an error
(`io.EOF` when nothing was read, `io.ErrUnexpectedEOF` after a partial read). -/
def Conn.ReadFull (c : Conn) (n : Nat) : Except GoError Bytes × Conn :=
  if n ≤ c.incoming.length then
    (.ok (c.incoming.take n), { c with incoming := c.incoming.drop n })
  else if c.incoming.length = 0 then (.error .EOF, c)
  else (.error .ErrUnexpectedEOF, { c with incoming := [] })

/-! ## usbmuxd.go -/

/-- The struct `header` of usbmuxd.go, fields in declaration order. -/
structure header where
  Length : Nat
  Version : Nat
  Request : Nat
  Tag : Nat
  deriving DecidableEq, Repr

/-- The call `binary.Write(buf, binary.LittleEndian, h)` for a `header`:
four 32-bit words in declaration order. -/
def header.encode (h : header) : Bytes :=
  putUintLE 4 h.Length ++ putUintLE 4 h.Version ++ putUintLE 4 h.Request ++ putUintLE 4 h.Tag

/-- The call `binary.Read(r, binary.LittleEndian, &h)` applied to the first 16
bytes of a message. -/
def header.decode (bs : Bytes) : header :=
  { Length := uintLE (bs.take 4)
    Version := uintLE ((bs.drop 4).take 4)
    Request := uintLE ((bs.drop 8).take 4)
    Tag := uintLE ((bs.drop 12).take 4) }

/-- The struct `Connection`: the 32-bit message tag and the socket. -/
structure Connection where
  tag : Nat
  conn : Conn
  deriving DecidableEq, Repr

/-- The function `Open`: `dial` is the outcome of `net.Dial`. -/
def Open (dial : Except GoError Conn) : Except GoError Connection :=
  match dial with
  | .error e => .error (.other ("usbmuxd: " ++ e.Error))
  | .ok conn => .ok { tag := 0, conn := conn }

/-- The write loop of `Connection.Send` (usbmuxd.go lines 110-119); `fuel`
bounds the number of iterations, `len(payload) + 1` always suffices. -/
def Connection.sendLoop : Nat → Bytes → Nat → Conn → Option GoError × Conn
  | 0, _, _, c => (none, c)
  | fuel + 1, payload, totalSent, c =>
    if totalSent < payload.length then
      match c.Write (payload.drop totalSent) with
      | ((_, some err), c1) => (some (.other ("usbmuxd: " ++ err.Error)), c1)
      | ((sent, none), c1) =>
        if sent = 0 then (none, c1)
        else Connection.sendLoop fuel payload (totalSent + sent) c1
    else (none, c)

/-- The header literal of `Connection.Send` (usbmuxd.go lines 93-98) for a
marshalled body and the already incremented tag; `uint32(len(body))` and the
addition wrap at 32 bits. -/
def Connection.headerFor (tag : Nat) (body : Bytes) : header :=
  { Length := (16 + body.length % 2 ^ 32) % 2 ^ 32
    Request := 8
    Version := 1
    Tag := tag }

/-- The method `Connection.Send`; `body` is the outcome of
`plist.Marshal(request, plist.XMLFormat)`. -/
def Connection.Send (c : Connection) (body : Except GoError Bytes) :
    Option GoError × Connection :=
  match body with
  | .error e => (some (.other ("usbmuxd: " ++ e.Error)), c)
  | .ok body =>
    let tag := (c.tag + 1) % 2 ^ 32
    let h := Connection.headerFor tag body
    let payload := h.encode ++ body
    let r := Connection.sendLoop (payload.length + 1) payload 0 c.conn
    (r.1, { tag := tag, conn := r.2 })

/-- Successive `Send` calls on one connection, one per marshalled body; the
results are listed in call order. -/
def Connection.sendAll : Connection → List Bytes → List (Option GoError) × Connection
  | c, [] => ([], c)
  | c, b :: bs =>
    let r := c.Send (.ok b)
    let rs := Connection.sendAll r.2 bs
    (r.1 :: rs.1, rs.2)

/-- The messages that successful `Send` calls put on the wire, starting from
the tag value `tag`. -/
def Connection.wire : Nat → List Bytes → List Bytes
  | _, [] => []
  | tag, b :: bs =>
    ((Connection.headerFor ((tag + 1) % 2 ^ 32) b).encode ++ b) ::
      Connection.wire ((tag + 1) % 2 ^ 32) bs

/-! ## afc.go, afc_file.go -/

/-- What a Go call does: it returns its results or it panics. -/
inductive Outcome (α : Type) where
  | ret (a : α)
  | panic (reason : String)
  deriving DecidableEq, Repr

def AfcFileModeWr : Nat := 0x00000004

def AfcOperationStatus : Nat := 0x00000001
def AfcOperationMakeDir : Nat := 0x00000009
def AfcOperationGetFileInfo : Nat := 0x0000000A
def AfcOperationFileOpen : Nat := 0x0000000D
def AfcOperationFileOpenResult : Nat := 0x0000000E
def AfcOperationFileWrite : Nat := 0x00000010
def AfcOperationFileClose : Nat := 0x00000014

def afcESuccess : Nat := 0
def afcEObjectNotFound : Nat := 8
def afcEEndOfData : Nat := 14

/-- The map `errorsToErrors` indexed at `code`: the stored error for the keys
1..23, and the zero value of `error` (nil) for every key that is absent. -/
def errorsToErrors (code : Nat) : Option GoError :=
  match code with
  | 1 => some (.other "unknown error")
  | 2 => some (.other "invalid operation header")
  | 3 => some (.other "no resources")
  | 4 => some (.other "read error")
  | 5 => some (.other "write error")
  | 6 => some (.other "unknown packet type")
  | 7 => some (.other "invalid argument")
  | 8 => some .ErrObjectNotFound
  | 9 => some (.other "object is a directory")
  | 10 => some (.other "permission denied")
  | 11 => some (.other "service not connected")
  | 12 => some (.other "operation timeout")
  | 13 => some (.other "too much data")
  | 14 => some .EOF
  | 15 => some (.other "operation not supported")
  | 16 => some (.other "object exists")
  | 17 => some (.other "object busy")
  | 18 => some (.other "no space left")
  | 19 => some (.other "operation would block")
  | 20 => some (.other "io error")
  | 21 => some (.other "operation interrupted")
  | 22 => some (.other "operation in progress")
  | 23 => some (.other "internal error")
  | _ => none

/-- The struct `afcOperationRequest`, used for requests and for response
headers; `Magic` is the `[8]byte` array. -/
structure afcOperationRequest where
  Magic : Bytes
  EntireLength : Nat
  ThisLength : Nat
  PacketNum : Nat
  Operation : Nat
  deriving DecidableEq, Repr

/-- The constant `AfcMagic`. -/
def AfcMagic : Nat := 0x4141504c36414643

/-- The value of `magic` after `copy(magic[:], "CFA6LPAA")`. -/
def afcMagicBytes : Bytes := ascii "CFA6LPAA"

/-- The call `binary.Write(buf, binary.LittleEndian, req)` for an
`afcOperationRequest`: the 8 magic bytes and four 64-bit words. -/
def afcOperationRequest.encode (r : afcOperationRequest) : Bytes :=
  r.Magic ++ putUintLE 8 r.EntireLength ++ putUintLE 8 r.ThisLength ++
    putUintLE 8 r.PacketNum ++ putUintLE 8 r.Operation

/-- The call `binary.Read(conn, binary.LittleEndian, &respHeader)` applied to the
40 bytes read. -/
def afcOperationRequest.decode (bs : Bytes) : afcOperationRequest :=
  { Magic := bs.take 8
    EntireLength := uintLE ((bs.drop 8).take 8)
    ThisLength := uintLE ((bs.drop 16).take 8)
    PacketNum := uintLE ((bs.drop 24).take 8)
    Operation := uintLE ((bs.drop 32).take 8) }

/-- The struct `AFC`.  Its field `conn` refers to the service socket, whose
state is threaded through the methods as a separate `Conn` argument. -/
structure AFC where
  packetNum : Nat
  deriving DecidableEq, Repr

/-- The struct `afcFile`.  Its field `conn` refers to the same socket as the
`AFC` value that opened it; the socket state is threaded separately. -/
structure afcFile where
  packetNum : Nat
  fd : Nat
  deriving DecidableEq, Repr

/-- A Go `map[string]interface{}` whose values are strings: the key/value pairs,
each key once. -/
abbrev GoMap := List (Bytes × Bytes)

/-- The assignment `m[k] = v`. -/
def GoMap.set (m : GoMap) (k v : Bytes) : GoMap :=
  m.filter (fun kv => kv.1 ≠ k) ++ [(k, v)]

/-- The loop that pairs up the pieces of the payload
(afc.go lines 166-171, with `i` advancing by two). -/
def pairUp : List Bytes → GoMap → GoMap
  | k :: v :: rest, m => pairUp rest (m.set k v)
  | _, m => m

/-- The largest allocation `make` accepts (`runtime.maxAlloc` on 64-bit
platforms); a larger length panics. -/
def maxAlloc : Nat := 2 ^ 48

/-- The call `binary.LittleEndian.Uint64(b)`: the first 8 bytes, and a panic on a
shorter slice. -/
def Uint64LE (b : Bytes) : Outcome Nat :=
  if b.length < 8 then .panic "index out of range [7]" else .ret (uintLE (b.take 8))

/-- The receive prologue shared by `Stat`, `CreateDirectory`, `open`, `Write`
and `Close` (afc.go lines 144-152): read the 40-byte header, allocate
`ThisLength-40` bytes (the subtraction wraps at 64 bits) and fill them. -/
def afcReadHead (c : Conn) : Outcome (Except GoError (afcOperationRequest × Bytes)) × Conn :=
  match c.ReadFull 40 with
  | (.error e, c1) => (.ret (.error e), c1)
  | (.ok hb, c1) =>
    let respHeader := afcOperationRequest.decode hb
    let n := (respHeader.ThisLength + 2 ^ 64 - 40) % 2 ^ 64
    if maxAlloc < n then (.panic "makeslice: len out of range", c1)
    else
      match c1.ReadFull n with
      | (.error e, c2) => (.ret (.error e), c2)
      | (.ok respData, c2) => (.ret (.ok (respHeader, respData)), c2)

/-- What the receive code shared by `Stat`, `CreateDirectory`, `Write` and
`Close` found: a read error, a Status response mapped through `errorsToErrors`,
or the map decoded from the payload of any other response. -/
inductive afcReply where
  | ioError (e : GoError)
  | status (err : Option GoError)
  | info (m : GoMap)
  deriving DecidableEq, Repr

/-- The receive code of afc.go lines 144-171, repeated verbatim in
`CreateDirectory`, `afcFile.Write` and `afcFile.Close`. -/
def afcReceive (c : Conn) : Outcome afcReply × Conn :=
  match afcReadHead c with
  | (.panic r, c1) => (.panic r, c1)
  | (.ret (.error e), c1) => (.ret (.ioError e), c1)
  | (.ret (.ok (respHeader, respData)), c1) =>
    if respHeader.Operation = AfcOperationStatus then
      match Uint64LE respData with
      | .panic r => (.panic r, c1)
      | .ret code => (.ret (.status (errorsToErrors code)), c1)
    else
      let n := (respHeader.EntireLength + 2 ^ 64 - respHeader.ThisLength) % 2 ^ 64
      if maxAlloc < n then (.panic "makeslice: len out of range", c1)
      else
        match c1.ReadFull n with
        | (.error e, c2) => (.ret (.ioError e), c2)
        | (.ok respPayload, c2) => (.ret (.info (pairUp (respPayload.splitOn 0) [])), c2)

/-- The request packet of `AFC.Stat` (afc.go lines 117-136) for the
incremented packet number `pn`. -/
def statPacket (pn : Nat) (filepath : Bytes) : Bytes :=
  let n := filepath.length % 2 ^ 64
  let req : afcOperationRequest :=
    { Magic := afcMagicBytes
      EntireLength := (40 + n) % 2 ^ 64
      ThisLength := (40 + n) % 2 ^ 64
      PacketNum := pn
      Operation := AfcOperationGetFileInfo }
  req.encode ++ filepath

/-- The method `AFC.Stat`; the first result is `none` for a nil map. -/
def AFC.Stat (a : AFC) (c : Conn) (filepath : Bytes) :
    Outcome (Option GoMap × Option GoError) × AFC × Conn :=
  let pn := (a.packetNum + 1) % 2 ^ 64
  let a1 : AFC := { packetNum := pn }
  match c.Write (statPacket pn filepath) with
  | ((_, some err), c1) => (.ret (none, some err), a1, c1)
  | ((_, none), c1) =>
    match afcReceive c1 with
    | (.panic r, c2) => (.panic r, a1, c2)
    | (.ret (.ioError e), c2) => (.ret (none, some e), a1, c2)
    | (.ret (.status err), c2) => (.ret (none, err), a1, c2)
    | (.ret (.info m), c2) => (.ret (some m, none), a1, c2)

/-- The request packet of `AFC.CreateDirectory` (afc.go lines 193-217). -/
def createDirectoryPacket (pn : Nat) (name : Bytes) : Bytes :=
  let dataPayload := name
  let n := dataPayload.length % 2 ^ 64
  let req : afcOperationRequest :=
    { Magic := afcMagicBytes
      EntireLength := (40 + n) % 2 ^ 64
      ThisLength := (40 + n) % 2 ^ 64
      PacketNum := pn
      Operation := AfcOperationMakeDir }
  req.encode ++ dataPayload

/-- The method `AFC.CreateDirectory`. -/
def AFC.CreateDirectory (a : AFC) (c : Conn) (name : Bytes) :
    Outcome (Option GoError) × AFC × Conn :=
  let pn := (a.packetNum + 1) % 2 ^ 64
  let a1 : AFC := { packetNum := pn }
  match c.Write (createDirectoryPacket pn name) with
  | ((_, some err), c1) => (.ret (some err), a1, c1)
  | ((_, none), c1) =>
    match afcReceive c1 with
    | (.panic r, c2) => (.panic r, a1, c2)
    | (.ret (.ioError e), c2) => (.ret (some e), a1, c2)
    | (.ret (.status err), c2) => (.ret err, a1, c2)
    | (.ret (.info _), c2) => (.ret none, a1, c2)

/-- The request packet of `AFC.open` (afc.go lines 260-287); `mode` is an
`AfcFileMode`, a 32-bit value widened to 64 bits. -/
def openPacket (pn : Nat) (filename : Bytes) (mode : Nat) : Bytes :=
  let dataPayload := putUintLE 8 (mode % 2 ^ 32) ++ filename
  let n := dataPayload.length % 2 ^ 64
  let req : afcOperationRequest :=
    { Magic := afcMagicBytes
      EntireLength := (40 + n) % 2 ^ 64
      ThisLength := (40 + n) % 2 ^ 64
      PacketNum := pn
      Operation := AfcOperationFileOpen }
  req.encode ++ dataPayload

/-- The method `AFC.open`.  A failure text is built from `errorsToErrors[code]`
with the `%s` verb, which prints a nil error as `%!s(<nil>)`. -/
def AFC.open (a : AFC) (c : Conn) (filename : Bytes) (mode : Nat) :
    Outcome (Option afcFile × Option GoError) × AFC × Conn :=
  let pn := (a.packetNum + 1) % 2 ^ 64
  let a1 : AFC := { packetNum := pn }
  match c.Write (openPacket pn filename mode) with
  | ((_, some err), c1) => (.ret (none, some err), a1, c1)
  | ((_, none), c1) =>
    match afcReadHead c1 with
    | (.panic r, c2) => (.panic r, a1, c2)
    | (.ret (.error e), c2) => (.ret (none, some e), a1, c2)
    | (.ret (.ok (respHeader, respData)), c2) =>
      match Uint64LE respData with
      | .panic r => (.panic r, a1, c2)
      | .ret v =>
        if respHeader.Operation ≠ AfcOperationFileOpenResult then
          let text := match errorsToErrors v with
            | some e => e.Error
            | none => "%!s(<nil>)"
          (.ret (none, some (.other ("open file: " ++ text))), a1, c2)
        else (.ret (some { packetNum := 0, fd := v }, none), a1, c2)

/-- The request packet of `afcFile.Write` (afc_file.go lines 19-43). -/
def writePacket (pn : Nat) (fd : Nat) (b : Bytes) : Bytes :=
  let dataPayload := putUintLE 8 fd
  let n := dataPayload.length % 2 ^ 64
  let req : afcOperationRequest :=
    { Magic := afcMagicBytes
      EntireLength := (40 + n + b.length % 2 ^ 64) % 2 ^ 64
      ThisLength := (40 + n) % 2 ^ 64
      PacketNum := pn
      Operation := AfcOperationFileWrite }
  req.encode ++ dataPayload ++ b

/-- The method `afcFile.Write`. -/
def afcFile.Write (f : afcFile) (c : Conn) (b : Bytes) :
    Outcome (Nat × Option GoError) × afcFile × Conn :=
  let pn := (f.packetNum + 1) % 2 ^ 64
  let f1 : afcFile := { f with packetNum := pn }
  match c.Write (writePacket pn f.fd b) with
  | ((n, some err), c1) => (.ret (n, some err), f1, c1)
  | ((_, none), c1) =>
    match afcReceive c1 with
    | (.panic r, c2) => (.panic r, f1, c2)
    | (.ret (.ioError e), c2) => (.ret (0, some e), f1, c2)
    | (.ret (.status err), c2) => (.ret (0, err), f1, c2)
    | (.ret (.info _), c2) => (.ret (b.length, none), f1, c2)

/-- The call `binary.Write(buf, binary.LittleEndian, dataBuf)` of
afc_file.go line 109, whose `dataBuf` is a `*bytes.Buffer`: encoding/binary
accepts fixed-size values only, a `bytes.Buffer` holds a slice, so the call
returns an error and appends nothing to `buf` (Go releases before 1.20 word the
error "binary.Write: invalid type *bytes.Buffer"). -/
def binaryWriteBuffer (_dataBuf : Bytes) : Except GoError Bytes :=
  .error (.other "binary.Write: some values are not fixed-sized in type *bytes.Buffer")

/-- The method `afcFile.Close`. -/
def afcFile.Close (f : afcFile) (c : Conn) : Outcome (Option GoError) × afcFile × Conn :=
  let dataPayload := putUintLE 8 f.fd
  let n := dataPayload.length % 2 ^ 64
  let pn := (f.packetNum + 1) % 2 ^ 64
  let f1 : afcFile := { f with packetNum := pn }
  let req : afcOperationRequest :=
    { Magic := afcMagicBytes
      EntireLength := (40 + n) % 2 ^ 64
      ThisLength := (40 + n) % 2 ^ 64
      PacketNum := pn
      Operation := AfcOperationFileClose }
  match binaryWriteBuffer dataPayload with
  | .error err => (.ret (some err), f1, c)
  | .ok tail =>
    match c.Write (req.encode ++ tail) with
    | ((_, some err), c1) => (.ret (some err), f1, c1)
    | ((_, none), c1) =>
      match afcReceive c1 with
      | (.panic r, c2) => (.panic r, f1, c2)
      | (.ret (.ioError e), c2) => (.ret (some e), f1, c2)
      | (.ret (.status err), c2) => (.ret err, f1, c2)
      | (.ret (.info _), c2) => (.ret none, f1, c2)

/-- A call on the file-transfer client (`Stat`, `CreateDirectory`, `open`) or on
a file handle of that client (`Write`). -/
inductive AfcCall where
  | Stat (filepath : Bytes)
  | CreateDirectory (name : Bytes)
  | open (filename : Bytes) (mode : Nat)
  | Write (b : Bytes)
  deriving DecidableEq, Repr

/-- A sequence of calls on one client `a` and one of its file handles `f`, which
share the socket `c`; results are dropped, a panic ends the run. -/
def afcRun : AFC → afcFile → Conn → List AfcCall → AFC × afcFile × Conn
  | a, f, c, [] => (a, f, c)
  | a, f, c, .Stat filepath :: rest =>
    match a.Stat c filepath with
    | (.panic _, a1, c1) => (a1, f, c1)
    | (.ret _, a1, c1) => afcRun a1 f c1 rest
  | a, f, c, .CreateDirectory name :: rest =>
    match a.CreateDirectory c name with
    | (.panic _, a1, c1) => (a1, f, c1)
    | (.ret _, a1, c1) => afcRun a1 f c1 rest
  | a, f, c, .open filename mode :: rest =>
    match a.open c filename mode with
    | (.panic _, a1, c1) => (a1, f, c1)
    | (.ret _, a1, c1) => afcRun a1 f c1 rest
  | a, f, c, .Write b :: rest =>
    match f.Write c b with
    | (.panic _, f1, c1) => (a, f1, c1)
    | (.ret _, f1, c1) => afcRun a f1 c1 rest

/-- The packet-number fields of the packets whose operation code satisfies
`sel`, in the order written. -/
def packetNums (sel : Nat → Bool) (ps : List Bytes) : List Nat :=
  (ps.filter (fun p => sel (afcOperationRequest.decode p).Operation)).map
    (fun p => (afcOperationRequest.decode p).PacketNum)

/-- The successor of a 64-bit counter value: `y` follows `x`. -/
def follows64 (x y : Nat) : Prop := y = (x + 1) % 2 ^ 64

/-- A device answer to `open`: a FileOpenResult response carrying handle 7. -/
def openResultReply : Bytes :=
  afcOperationRequest.encode
    { Magic := afcMagicBytes, EntireLength := 48, ThisLength := 48, PacketNum := 1,
      Operation := AfcOperationFileOpenResult } ++ putUintLE 8 7

/-- A device answer: a Status response carrying the status code `code`. -/
def statusReply (code : Nat) : Bytes :=
  afcOperationRequest.encode
    { Magic := afcMagicBytes, EntireLength := 48, ThisLength := 48, PacketNum := 2,
      Operation := AfcOperationStatus } ++ putUintLE 8 code

/-- The framing property of a file-transfer packet `p` with data section `data`
and payload `payload`: the 40-byte header carries the magic, this-length and
entire-length, and the two sections follow the header. -/
def afcFramed (p data payload : Bytes) : Prop :=
  (afcOperationRequest.decode p).Magic = ascii "CFA6LPAA" ∧
  (afcOperationRequest.decode p).ThisLength = 40 + data.length ∧
  (afcOperationRequest.decode p).EntireLength =
    (afcOperationRequest.decode p).ThisLength + payload.length ∧
  p.drop 40 = data ++ payload

/-! ## lockdownd.go, pair.go

The exchanges of the device-control client are taken at the level of property
lists: a request is the Go struct handed to `plist.Marshal` (which cannot fail on
these structs of strings and integers), a reply is the struct filled by
`plist.Unmarshal`.  The environment (`Env`) answers every interaction as a
function of the requests sent so far. -/

/-- The struct `Device` (device.go). -/
structure Device where
  ConnectionSpeed : Int
  ConnectionType : String
  DeviceID : Int
  LocationID : Int
  ProductID : Int
  SerialNumber : String
  deriving DecidableEq, Repr

/-- The struct `PairRecord` (pair.go). -/
structure PairRecord where
  HostID : String
  SystemBUID : String
  HostCertificate : Bytes
  HostPrivateKey : Bytes
  DeviceCertificate : Bytes
  EscrowBag : Bytes
  WiFiMACAddress : String
  RootCertificate : Bytes
  RootPrivateKey : Bytes
  deriving DecidableEq, Repr

structure readPairRecordRequest where
  MessageType : String
  ProgName : String
  ClientVersionString : String
  PairRecordID : String
  deriving DecidableEq, Repr

/-- The struct `connectRequest`; `PortNumber` is a `uint16`. -/
structure connectRequest where
  MessageType : String
  ProgName : String
  ClientVersionString : String
  DeviceID : Int
  PortNumber : Nat
  deriving DecidableEq, Repr

/-- The struct `connectResponse`; `Number` is a `ReplyCode` (`uint64`). -/
structure connectResponse where
  MessageType : String
  Number : Nat
  deriving DecidableEq, Repr

structure startSessionRequest where
  Label : String
  ProtocolVersion : String
  Request : String
  HostID : String
  SystemBUID : String
  deriving DecidableEq, Repr

structure startSessionResponse where
  Request : String
  Error : String
  EnableSessionSSL : Bool
  SessionID : String
  deriving DecidableEq, Repr

structure stopSessionRequest where
  Label : String
  ProtocolVersion : String
  Request : String
  SessionID : String
  deriving DecidableEq, Repr

structure stopSessionResponse where
  Request : String
  Error : String
  deriving DecidableEq, Repr

structure startServiceRequest where
  Label : String
  ProtocolVersion : String
  Request : String
  Service : String
  deriving DecidableEq, Repr

/-- The struct `startServiceResponse`; `Port` is a Go `int`. -/
structure startServiceResponse where
  Request : String
  Error : String
  EnableServiceSSL : Bool
  Port : Int
  Service : String
  deriving DecidableEq, Repr

/-- A request written to a socket: to the multiplexer (`readPairRecord`,
`connect`) or to the device-control stream (the other three). -/
inductive Msg where
  | readPairRecord (r : readPairRecordRequest)
  | connect (r : connectRequest)
  | startSession (r : startSessionRequest)
  | stopSession (r : stopSessionRequest)
  | startService (r : startServiceRequest)
  deriving DecidableEq, Repr

/-- How a request/response exchange ends: the write fails (nothing is sent),
the request is sent and reading or decoding the reply fails, or a reply is
decoded. -/
inductive Exchange (α : Type) where
  | writeError (e : GoError)
  | readError (e : GoError)
  | reply (a : α)
  deriving DecidableEq, Repr

/-- The environment of the device-control client.  Every field answers one kind
of interaction, given the requests sent so far (for an exchange: including the
request being answered). -/
structure Env where
  /-- The call `net.Dial("unix", "/var/run/usbmuxd")`; `none` is success. -/
  dial : List Msg → Option GoError
  /-- The ReadPairRecord exchange; a reply carries the outcome of unmarshalling
  `PairRecordData`. -/
  readPair : List Msg → Exchange (Except GoError PairRecord)
  connect : List Msg → Exchange connectResponse
  startSession : List Msg → Exchange startSessionResponse
  /-- The call `tls.X509KeyPair` on the root certificate and key. -/
  x509KeyPair : PairRecord → Option GoError
  /-- The TLS handshake on the control stream. -/
  handshake : List Msg → Option GoError
  stopSession : List Msg → Exchange stopSessionResponse
  startService : List Msg → Exchange startServiceResponse

def ReplyCodeOK : Nat := 0

/-- The method `ReplyCode.String`. -/
def ReplyCode.String (rc : Nat) : String :=
  match rc with
  | 0 => "ok"
  | 1 => "bad command"
  | 2 => "bad device"
  | 3 => "connection refused"
  | 6 => "bad version"
  | _ => "unknown reply code: " ++
      (if rc < 2 ^ 63 then toString rc else "-" ++ toString (2 ^ 64 - rc))

/-- The port conversion of lockdownd.go lines 103-105 and 166-168:
`binary.BigEndian.PutUint16(buf, p)` into a 2-byte buffer followed by
`binary.LittleEndian.Uint16(buf)`. -/
def portNumber (p : Nat) : Nat := uintLE (putUintBE 2 p)

/-- The struct `Lockdown`.  The sockets are kept by the environment; `tlsConn`
records whether the field `tlsConn` is non-nil. -/
structure Lockdown where
  tlsConn : Bool
  dev : Device
  sessionID : String
  sslHandshakes : Nat
  deriving DecidableEq, Repr

/-- The Connect request of `LockdownService` (lockdownd.go lines 103-113). -/
def lockdownConnectRequest (device : Device) : connectRequest :=
  { MessageType := "Connect"
    ProgName := "idevice"
    ClientVersionString := "idevice-0.0.1"
    DeviceID := device.DeviceID
    PortNumber := portNumber 62078 }

/-- The function `LockdownService`: the client and the requests sent so far. -/
def LockdownService (env : Env) (t : List Msg) (device : Device) :
    Except GoError Lockdown × List Msg :=
  match env.dial t with
  | some e => (.error (.other ("usbmuxd: " ++ e.Error)), t)
  | none =>
    let req := lockdownConnectRequest device
    match env.connect (t ++ [.connect req]) with
    | .writeError e => (.error (.other ("usbmuxd: " ++ e.Error)), t)
    | .readError e => (.error (.other ("usbmuxd: " ++ e.Error)), t ++ [.connect req])
    | .reply resp =>
      if resp.Number ≠ ReplyCodeOK then
        (.error (.other ("usbmuxd: " ++ ReplyCode.String resp.Number)), t ++ [.connect req])
      else
        (.ok { tlsConn := false, dev := device, sessionID := "", sslHandshakes := 0 },
          t ++ [.connect req])

/-- The request literal of `ReadPairRecord` (pair.go lines 41-46). -/
def readPairRecordRequestFor (device : Device) : readPairRecordRequest :=
  { MessageType := "ReadPairRecord"
    ProgName := "xcdevice"
    ClientVersionString := "xcdevice-0.0.1"
    PairRecordID := device.SerialNumber }

/-- The function `ReadPairRecord` (pair.go). -/
def ReadPairRecord (env : Env) (t : List Msg) (device : Device) :
    Except GoError PairRecord × List Msg :=
  match env.dial t with
  | some e => (.error (.other ("usbmuxd: " ++ e.Error)), t)
  | none =>
    let req := readPairRecordRequestFor device
    match env.readPair (t ++ [.readPairRecord req]) with
    | .writeError e => (.error (.other ("usbmuxd: " ++ e.Error)), t)
    | .readError e => (.error (.other ("usbmuxd: " ++ e.Error)), t ++ [.readPairRecord req])
    | .reply (.error e) => (.error e, t ++ [.readPairRecord req])
    | .reply (.ok record) => (.ok record, t ++ [.readPairRecord req])

/-- The request literal of `stopSession` (lockdownd.go lines 317-322). -/
def stopSessionRequestFor (sessionID : String) : stopSessionRequest :=
  { Label := "com.idevice"
    ProtocolVersion := "2"
    Request := "StopSession"
    SessionID := sessionID }

/-- The method `Lockdown.stopSession`. -/
def Lockdown.stopSession (env : Env) (t : List Msg) (l : Lockdown) :
    Option GoError × Lockdown × List Msg :=
  if l.sessionID = "" then (none, l, t)
  else
    let req := stopSessionRequestFor l.sessionID
    match env.stopSession (t ++ [.stopSession req]) with
    | .writeError e => (some e, l, t)
    | .readError e => (some e, l, t ++ [.stopSession req])
    | .reply _ => (none, { l with sessionID := "" }, t ++ [.stopSession req])

/-- The method `Lockdown.enableSSL`: `l.tlsConn` is assigned before the
handshake. -/
def Lockdown.enableSSL (env : Env) (t : List Msg) (l : Lockdown) (pair : PairRecord) :
    Option GoError × Lockdown :=
  match env.x509KeyPair pair with
  | some e => (some (.other ("x509: " ++ e.Error)), l)
  | none =>
    match env.handshake t with
    | some e => (some (.other ("tls handshake: " ++ e.Error)), { l with tlsConn := true })
    | none => (none, { l with tlsConn := true })

/-- The request literal of `startSession` (lockdownd.go lines 255-261). -/
def startSessionRequestFor (pair : PairRecord) : startSessionRequest :=
  { Label := "com.idevice"
    ProtocolVersion := "2"
    Request := "StartSession"
    HostID := pair.HostID
    SystemBUID := pair.SystemBUID }

/-- The method `Lockdown.startSession`. -/
def Lockdown.startSession (env : Env) (t : List Msg) (l : Lockdown) (pair : PairRecord) :
    Option GoError × Lockdown × List Msg :=
  let stopped : Option GoError × Lockdown × List Msg :=
    if l.sessionID ≠ "" then Lockdown.stopSession env t l else (none, l, t)
  match stopped with
  | (some err, l1, t1) => (some err, l1, t1)
  | (none, l1, t1) =>
    let req := startSessionRequestFor pair
    match env.startSession (t1 ++ [.startSession req]) with
    | .writeError e => (some e, l1, t1)
    | .readError e => (some e, l1, t1 ++ [.startSession req])
    | .reply resp =>
      let t2 := t1 ++ [.startSession req]
      let secured : Option GoError × Lockdown :=
        if resp.EnableSessionSSL then Lockdown.enableSSL env t2 l1 pair else (none, l1)
      match secured with
      | (some err, l2) => (some (.other ("enable ssl: " ++ err.Error)), l2, t2)
      | (none, l2) => (none, { l2 with sessionID := resp.SessionID }, t2)

/-- The request literal of `startDaemon` (lockdownd.go lines 200-205). -/
def startServiceRequestFor (service : String) : startServiceRequest :=
  { Label := "com.idevice"
    ProtocolVersion := "2"
    Request := "StartService"
    Service := service }

/-- The method `Lockdown.startDaemon`: the port and the per-service SSL flag of
the StartService reply. -/
def Lockdown.startDaemon (env : Env) (t : List Msg) (service : String) :
    Except GoError (Int × Bool) × List Msg :=
  let req := startServiceRequestFor service
  match env.startService (t ++ [.startService req]) with
  | .writeError e => (.error e, t)
  | .readError e => (.error e, t ++ [.startService req])
  | .reply resp => (.ok (resp.Port, resp.EnableServiceSSL), t ++ [.startService req])

/-- The Connect request of `Lockdown.startService` (lockdownd.go lines 166-176);
`uint16(dynamicPort)` keeps the low 16 bits. -/
def serviceConnectRequest (dev : Device) (dynamicPort : Int) : connectRequest :=
  { MessageType := "Connect"
    ProgName := "idevice"
    ClientVersionString := "idevice-0.0.1"
    DeviceID := dev.DeviceID
    PortNumber := portNumber (dynamicPort % 65536).toNat }

/-- The method `Lockdown.startService`; `.ok ()` stands for the hijacked service
stream. -/
def Lockdown.startService (env : Env) (t : List Msg) (l : Lockdown) (service : String) :
    Except GoError Unit × Lockdown × List Msg :=
  match ReadPairRecord env t l.dev with
  | (.error err, t1) => (.error (.other ("read pair: " ++ err.Error)), l, t1)
  | (.ok pair, t1) =>
    match Lockdown.startSession env t1 l pair with
    | (some err, l2, t2) => (.error (.other ("start session: " ++ err.Error)), l2, t2)
    | (none, l2, t2) =>
      match Lockdown.startDaemon env t2 service with
      | (.error err, t3) => (.error (.other ("start daemon: " ++ err.Error)), l2, t3)
      | (.ok (dynamicPort, enableSSL), t3) =>
        match Lockdown.stopSession env t3 l2 with
        | (some err, l4, t4) => (.error (.other ("stop session: " ++ err.Error)), l4, t4)
        | (none, l4, t4) =>
          match env.dial t4 with
          | some e => (.error (.other ("usbmuxd: " ++ e.Error)), l4, t4)
          | none =>
            let req := serviceConnectRequest l4.dev dynamicPort
            match env.connect (t4 ++ [.connect req]) with
            | .writeError e => (.error (.other ("usbmuxd: " ++ e.Error)), l4, t4)
            | .readError e =>
              (.error (.other ("usbmuxd: " ++ e.Error)), l4, t4 ++ [.connect req])
            | .reply resp =>
              if resp.Number ≠ ReplyCodeOK then
                (.error (.other ("lockdownd: " ++ ReplyCode.String resp.Number)), l4,
                  t4 ++ [.connect req])
              else if enableSSL then
                (.error (.other "daemon requested ssl is unsupported"), l4,
                  t4 ++ [.connect req])
              else (.ok (), l4, t4 ++ [.connect req])

/-- A pair record used in examples. -/
def examplePair : PairRecord :=
  { HostID := "H", SystemBUID := "B", HostCertificate := [], HostPrivateKey := [],
    DeviceCertificate := [], EscrowBag := [], WiFiMACAddress := "", RootCertificate := [],
    RootPrivateKey := [] }

/-- A device used in examples. -/
def exampleDevice : Device :=
  { ConnectionSpeed := 480000000, ConnectionType := "USB", DeviceID := 3, LocationID := 0,
    ProductID := 4776, SerialNumber := "serial" }

/-- An environment in which every interaction succeeds, the session needs no
TLS, and the StartService reply asks for per-service SSL on port 49152; the
multiplexer answers Connect with the reply code `connectCode`. -/
def serviceSSLEnv (connectCode : Nat) : Env :=
  { dial := fun _ => none
    readPair := fun _ => .reply (.ok examplePair)
    connect := fun _ => .reply { MessageType := "Result", Number := connectCode }
    startSession := fun _ =>
      .reply { Request := "StartSession", Error := "", EnableSessionSSL := false,
               SessionID := "S1" }
    x509KeyPair := fun _ => none
    handshake := fun _ => none
    stopSession := fun _ => .reply { Request := "StopSession", Error := "" }
    startService := fun _ =>
      .reply { Request := "StartService", Error := "", EnableServiceSSL := true, Port := 49152,
               Service := "com.apple.afc" } }

/-- The client that `LockdownService` returns for the example device. -/
def exampleLockdown : Lockdown :=
  { tlsConn := false, dev := exampleDevice, sessionID := "", sslHandshakes := 0 }

/-! ## installationproxy.go

The installation service frames every message as a 4-byte big-endian length
followed by an XML property list.  The property-list codec (howett.net/plist) is
a parameter of the model. -/

structure installationProxyOption where
  ApplicationType : String
  ReturnAttributes : List String
  MetaData : Bool
  BundleIDs : List String
  BundleID : String
  ApplicationIdentifier : String
  deriving DecidableEq, Repr

structure installationProxyInstallRequest where
  Command : String
  ClientOptions : Option installationProxyOption
  PackagePath : String
  deriving DecidableEq, Repr

structure installationProxyUninstallRequest where
  Command : String
  ClientOptions : Option installationProxyOption
  ApplicationIdentifier : String
  deriving DecidableEq, Repr

/-- The struct `installationProxyInstallResponse`. -/
structure installationProxyInstallResponse where
  Status : String
  Error : String
  ErrorDescription : String
  deriving DecidableEq, Repr

/-- The dictionary of a decoded response, restricted to the keys that
`installationProxyInstallResponse` has a field for; `none` is an absent key. -/
structure InstallReplyDict where
  Status : Option String
  Error : Option String
  ErrorDescription : Option String
  deriving DecidableEq, Repr

/-- The property-list codec: `plist.Marshal` on the two request structs and the
parsing half of `plist.Unmarshal` on a response payload. -/
structure PlistCodec where
  marshalInstall : installationProxyInstallRequest → Except GoError Bytes
  marshalUninstall : installationProxyUninstallRequest → Except GoError Bytes
  parseReply : Bytes → Except GoError InstallReplyDict

/-- The storing half of `plist.Unmarshal(respPayload, &resp)` for a struct
target: every field whose key is present in the dictionary is overwritten, a field
whose key is absent keeps the value it had. -/
def unmarshalInto (d : InstallReplyDict) (resp : installationProxyInstallResponse) :
    installationProxyInstallResponse :=
  { Status := d.Status.getD resp.Status
    Error := d.Error.getD resp.Error
    ErrorDescription := d.ErrorDescription.getD resp.ErrorDescription }

/-- The response loop of `InstallApplication` and `UninstallApplication`
(installationproxy.go lines 157-177 and 99-119).  `none` means that `fuel`
iterations did not end the loop. -/
def drainResponses (codec : PlistCodec) :
    Nat → installationProxyInstallResponse → Conn →
      Option (Except GoError installationProxyInstallResponse × Conn)
  | 0, _, _ => none
  | fuel + 1, resp, c =>
    if resp.Error ≠ "" then some (.ok resp, c)
    else
      match c.ReadFull 4 with
      | (.error e, c1) => some (.error e, c1)
      | (.ok respHeader, c1) =>
        match c1.ReadFull (uintBE respHeader) with
        | (.error e, c2) => some (.error e, c2)
        | (.ok respPayload, c2) =>
          match codec.parseReply respPayload with
          | .error e => some (.error e, c2)
          | .ok d =>
            let resp1 := unmarshalInto d resp
            if resp1.Status = "Complete" then some (.ok resp1, c2)
            else drainResponses codec fuel resp1 c2

/-- The length prefix and payload written for a request
(installationproxy.go lines 144-150). -/
def lengthPrefixed (payload : Bytes) : Bytes :=
  putUintBE 4 (payload.length % 2 ^ 32) ++ payload

/-- The request literal of `InstallApplication` (installationproxy.go lines
129-135); fields left out of the literal have their zero value. -/
def installRequest (bundleID path : String) : installationProxyInstallRequest :=
  { Command := "Install"
    ClientOptions := some
      { ApplicationType := "", ReturnAttributes := [], MetaData := false, BundleIDs := [],
        BundleID := bundleID, ApplicationIdentifier := "" }
    PackagePath := path }

/-- The request literal of `UninstallApplication` (installationproxy.go lines
74-77). -/
def uninstallRequest (bundleID : String) : installationProxyUninstallRequest :=
  { Command := "Uninstall"
    ClientOptions := none
    ApplicationIdentifier := bundleID }

/-- The result computed after the response loop (installationproxy.go lines
179-183 and 121-125): `verb` is "install" or "uninstall". -/
def responseError (verb : String) (resp : installationProxyInstallResponse) : Option GoError :=
  if resp.Error ≠ "" then
    some (.other (verb ++ ": " ++ resp.Status ++ " (err: " ++ resp.Error ++ ", desc: " ++
      resp.ErrorDescription ++ ")"))
  else none

/-- The method `InstallationProxy.InstallApplication`.  Every iteration of the
response loop reads at least the 4 header bytes, so `len(incoming) + 1`
iterations always end it (`drainResponses_total`). -/
def InstallationProxy.InstallApplication (codec : PlistCodec) (c : Conn)
    (bundleID path : String) : Option GoError × Conn :=
  match codec.marshalInstall (installRequest bundleID path) with
  | .error err => (some err, c)
  | .ok payload =>
    match c.Write (lengthPrefixed payload) with
    | ((_, some err), c1) => (some err, c1)
    | ((_, none), c1) =>
      match drainResponses codec (c1.incoming.length + 1) ⟨"", "", ""⟩ c1 with
      | none => (none, c1)
      | some (.error err, c2) => (some err, c2)
      | some (.ok resp, c2) => (responseError "install" resp, c2)

/-- The method `InstallationProxy.UninstallApplication`. -/
def InstallationProxy.UninstallApplication (codec : PlistCodec) (c : Conn)
    (bundleID : String) : Option GoError × Conn :=
  match codec.marshalUninstall (uninstallRequest bundleID) with
  | .error err => (some err, c)
  | .ok payload =>
    match c.Write (lengthPrefixed payload) with
    | ((_, some err), c1) => (some err, c1)
    | ((_, none), c1) =>
      match drainResponses codec (c1.incoming.length + 1) ⟨"", "", ""⟩ c1 with
      | none => (none, c1)
      | some (.error err, c2) => (some err, c2)
      | some (.ok resp, c2) => (responseError "uninstall" resp, c2)

/-- A response as the device frames it: the 4-byte big-endian length of the
payload, then the payload. -/
def frame (payload : Bytes) : Bytes := putUintBE 4 payload.length ++ payload

/-- The byte stream of a sequence of framed responses. -/
def frames : List Bytes → Bytes
  | [] => []
  | p :: ps => frame p ++ frames ps

/-- A terminal response: `Status` equal to "Complete" or a non-empty `Error`. -/
def InstallReplyDict.terminal (d : InstallReplyDict) : Bool :=
  d.Status == some "Complete" || (d.Error != none && d.Error != some "")

/-- The response struct after the dictionaries `ds` were unmarshalled into it
one after the other. -/
def unmarshalAll (ds : List InstallReplyDict) (resp : installationProxyInstallResponse) :
    installationProxyInstallResponse :=
  ds.foldl (fun r d => unmarshalInto d r) resp

/-- The text `part` occurs in the text `msg`. -/
def occursIn (part msg : String) : Prop := part.data <:+: msg.data

/-- A progress notification: a property list with the single key `Status`. -/
def progressPayload : Bytes :=
  ascii "<plist><dict><key>Status</key><string>Installing</string></dict></plist>"

/-- A failure report without a `Status` key. -/
def failurePayload : Bytes :=
  ascii ("<plist><dict><key>Error</key><string>APIInternalError</string>" ++
    "<key>ErrorDescription</key><string>Could not install</string></dict></plist>")

/-- The completion report. -/
def completePayload : Bytes :=
  ascii "<plist><dict><key>Status</key><string>Complete</string></dict></plist>"

/-- A failure report that carries all three keys. -/
def errorPayload : Bytes :=
  ascii ("<plist><dict><key>Status</key><string>Error</string>" ++
    "<key>Error</key><string>APIInternalError</string>" ++
    "<key>ErrorDescription</key><string>Could not install</string></dict></plist>")

/-- A codec for examples: requests are marshalled to their command name, and the
four payloads above are parsed to their dictionaries. -/
def exampleCodec : PlistCodec :=
  { marshalInstall := fun r => .ok (ascii r.Command)
    marshalUninstall := fun r => .ok (ascii r.Command)
    parseReply := fun p =>
      if p = progressPayload then .ok ⟨some "Installing", none, none⟩
      else if p = failurePayload then .ok ⟨none, some "APIInternalError", some "Could not install"⟩
      else if p = completePayload then .ok ⟨some "Complete", none, none⟩
      else if p = errorPayload then
        .ok ⟨some "Error", some "APIInternalError", some "Could not install"⟩
      else .error (.other "plist: invalid property list") }

/-! ## afc.go: WriteFile and example responses -/

/-- The method `AFC.WriteFile`.  The deferred `f.Close()` runs when the function
returns and also when `f.Write` panics; its result is dropped. -/
def AFC.WriteFile (a : AFC) (c : Conn) (filename data : Bytes) (mode : Nat) :
    Outcome (Option GoError) × AFC × Conn :=
  match a.open c filename mode with
  | (.panic r, a1, c1) => (.panic r, a1, c1)
  | (.ret (_, some err), a1, c1) => (.ret (some err), a1, c1)
  | (.ret (none, none), a1, c1) => (.panic "nil pointer dereference", a1, c1)
  | (.ret (some f, none), a1, c1) =>
    match f.Write c1 data with
    | (.panic r, f1, c2) => (.panic r, a1, (f1.Close c2).2.2)
    | (.ret (_, werr), f1, c2) =>
      match f1.Close c2 with
      | (.panic r, _, c3) => (.panic r, a1, c3)
      | (.ret _, _, c3) => (.ret werr, a1, c3)

/-- The operation codes of a list of packets, in the order written. -/
def packetOps (ps : List Bytes) : List Nat :=
  ps.map (fun p => (afcOperationRequest.decode p).Operation)

/-- The payload of a file-information response: for every pair the key, a zero
byte, the value, a zero byte. -/
def statPayload : List (Bytes × Bytes) → Bytes
  | [] => []
  | kv :: rest => kv.1 ++ 0 :: (kv.2 ++ 0 :: statPayload rest)

/-- A response that is not a Status (operation code 2) with an empty data
section and the given payload. -/
def infoReply (payload : Bytes) : Bytes :=
  afcOperationRequest.encode
    { Magic := afcMagicBytes, EntireLength := 40 + payload.length, ThisLength := 40,
      PacketNum := 1, Operation := 2 } ++ payload

/-- A response header whose this-length (39) is below the header size. -/
def shortThisLengthHeader : Bytes :=
  afcOperationRequest.encode
    { Magic := afcMagicBytes, EntireLength := 39, ThisLength := 39, PacketNum := 1,
      Operation := AfcOperationStatus }

/-- A non-Status response whose entire-length (40) is below its this-length (48). -/
def shortEntireLengthReply : Bytes :=
  afcOperationRequest.encode
    { Magic := afcMagicBytes, EntireLength := 40, ThisLength := 48, PacketNum := 1,
      Operation := 2 } ++ putUintLE 8 0

/-- A Status response whose data section has 4 bytes. -/
def shortStatusReply : Bytes :=
  afcOperationRequest.encode
    { Magic := afcMagicBytes, EntireLength := 44, ThisLength := 44, PacketNum := 1,
      Operation := AfcOperationStatus } ++ putUintLE 4 8

/-! ## installationproxy.go: LookupApplication -/

/-- A decoded property-list value (`interface{}` as produced by
`plist.Unmarshal`): a dictionary is a `map[string]interface{}`. -/
inductive PlistValue where
  | string (s : String)
  | integer (n : Int)
  | boolean (b : Bool)
  | data (bs : Bytes)
  | array (xs : List PlistValue)
  | dict (kvs : List (String × PlistValue))

def ApplicationTypeAny : String := "Any"

def DefaultLookupAttributes : List String :=
  ["CFBundleDisplayName", "CFBundleExecutable", "CFBundleName", "CFBundleVersion",
   "CFBundleShortVersionString", "CFBundleIdentifier"]

structure installationProxyLookupRequest where
  Command : String
  ClientOptions : Option installationProxyOption

/-- The struct `installationProxyLookupResponse`; `LookupResult` lists the
entries of the map (none for a nil map). -/
structure installationProxyLookupResponse where
  Status : String
  LookupResult : List (String × PlistValue)

/-- The property-list codec for the lookup exchange: `plist.Marshal` on the
request and `plist.Unmarshal` into a fresh response struct. -/
structure LookupCodec where
  marshalLookup : installationProxyLookupRequest → Except GoError Bytes
  unmarshalLookup : Bytes → Except GoError installationProxyLookupResponse

/-- The request literal of `LookupApplication` (installationproxy.go lines
187-198). -/
def lookupRequest (bundleID : String) (attributes : List String) :
    installationProxyLookupRequest :=
  { Command := "Lookup"
    ClientOptions := some
      { ApplicationType := ApplicationTypeAny
        ReturnAttributes := if attributes.length = 0 then DefaultLookupAttributes else attributes
        MetaData := false
        BundleIDs := [bundleID]
        BundleID := ""
        ApplicationIdentifier := "" } }

/-- The method `InstallationProxy.LookupApplication`; the first result is `none`
for a nil map.  The failed type assertion formats the nil `err` of the enclosing
scope. -/
def InstallationProxy.LookupApplication (codec : LookupCodec) (c : Conn) (bundleID : String)
    (attributes : List String) :
    (Option (List (String × PlistValue)) × Option GoError) × Conn :=
  match codec.marshalLookup (lookupRequest bundleID attributes) with
  | .error err => ((none, some err), c)
  | .ok payload =>
    match c.Write (lengthPrefixed payload) with
    | ((_, some err), c1) => ((none, some err), c1)
    | ((_, none), c1) =>
      match c1.ReadFull 4 with
      | (.error e, c2) => ((none, some e), c2)
      | (.ok respHeader, c2) =>
        match c2.ReadFull (uintBE respHeader) with
        | (.error e, c3) => ((none, some e), c3)
        | (.ok respPayload, c3) =>
          match codec.unmarshalLookup respPayload with
          | .error e => ((none, some e), c3)
          | .ok resp =>
            if resp.Status ≠ "Complete" then
              ((none, some (.other ("lookup status: " ++ resp.Status))), c3)
            else
              match resp.LookupResult.lookup bundleID with
              | some (.dict data) => ((some data, none), c3)
              | _ => ((none, some (.other "lookup error: <nil>")), c3)

/-- The payload of a lookup response used in examples. -/
def lookupPayload : Bytes :=
  ascii ("<plist><dict><key>Status</key><string>Complete</string><key>LookupResult</key>" ++
    "<dict><key>com.example.Hello</key><dict><key>CFBundleVersion</key>" ++
    "<string>1.0</string></dict></dict></dict></plist>")

/-- A lookup codec for examples: it parses `lookupPayload` to its dictionary. -/
def exampleLookupCodec : LookupCodec :=
  { marshalLookup := fun r => .ok (ascii r.Command)
    unmarshalLookup := fun p =>
      if p = lookupPayload then
        .ok { Status := "Complete"
              LookupResult :=
                [("com.example.Hello", .dict [("CFBundleVersion", .string "1.0")])] }
      else .error (.other "plist: invalid property list") }

/-- An environment whose StartSession reply reports an error and carries no
session id, as lockdownd answers an unknown host id; everything else succeeds. -/
def invalidHostEnv : Env :=
  { dial := fun _ => none
    readPair := fun _ => .reply (.ok examplePair)
    connect := fun _ => .reply { MessageType := "Result", Number := 0 }
    startSession := fun _ =>
      .reply { Request := "StartSession", Error := "InvalidHostID", EnableSessionSSL := false,
               SessionID := "" }
    x509KeyPair := fun _ => none
    handshake := fun _ => none
    stopSession := fun _ => .reply { Request := "StopSession", Error := "" }
    startService := fun _ =>
      .reply { Request := "StartService", Error := "", EnableServiceSSL := false, Port := 49152,
               Service := "com.apple.afc" } }

/-! ## install.go

`path.Join` and `path.Clean` are modelled by the rules of their documentation,
on the list of `/`-separated path elements. -/

/-- The bytes of a Go string (UTF-8). -/
def utf8 (s : String) : Bytes := (s.data.flatMap String.utf8EncodeChar).map UInt8.toNat

/-- One step of `path.Clean` on the elements kept so far: an empty element and
`.` are dropped; `..` removes the last kept element, is dropped at the root, and
is kept when nothing but `..` elements precede it; any other element is kept. -/
def cleanStep (rooted : Bool) (stack : List (List Char)) (e : List Char) : List (List Char) :=
  if e = [] ∨ e = ['.'] then stack
  else if e = ['.', '.'] then
    match stack.getLast? with
    | none => if rooted then stack else stack ++ [e]
    | some top => if top = ['.', '.'] then stack ++ [e] else stack.dropLast
  else stack ++ [e]

/-- The function `path.Clean` on the characters of a path. -/
def pathClean (cs : List Char) : List Char :=
  if cs = [] then ['.']
  else
    let rooted := cs.head? == some '/'
    let stack := (cs.splitOn '/').foldl (cleanStep rooted) []
    if rooted then '/' :: ['/'].intercalate stack
    else if stack = [] then ['.']
    else ['/'].intercalate stack

/-- The function `path.Join`: elements are appended with a `/` before every
element once the buffer is non-empty, leading empty elements are skipped, and the
result is cleaned; the join of empty elements only is the empty string. -/
def pathJoin (elem : List String) : String :=
  if elem.all (fun e => e == "") then ""
  else
    ⟨pathClean (elem.foldl
      (fun buf e =>
        if buf ≠ [] ∨ e ≠ "" then (if buf ≠ [] then buf ++ ['/'] else buf) ++ e.data else buf)
      [])⟩

/-- The value of `installationPath` (install.go line 56). -/
def installationPath (bundleID : String) : String :=
  pathJoin ["PublicStaging", bundleID ++ ".ipa"]

def ServiceNameInstallationProxy : String := "com.apple.mobile.installation_proxy"
def ServiceNameAFC : String := "com.apple.afc"

/-- The archive on the local disk as `Install` sees it: the error of `os.Stat`,
the result of `infoplist.Stat` and the result of `os.ReadFile`. -/
structure LocalFile where
  stat : Option GoError
  info : Except GoError (List (String × PlistValue))
  content : Except GoError Bytes

/-- What `Install` leaves behind: the requests sent to the multiplexer and the
device-control stream, and the two service streams. -/
structure InstallWorld where
  sent : List Msg
  afcConn : Conn
  proxyConn : Conn

/-- The part of `Install` that follows the staging directory check (install.go
lines 56-75): read the archive, upload it and issue the install command. -/
def Install.upload (env : Env) (codec : PlistCodec) (file : LocalFile)
    (afc : AFC) (afcConn proxyConn : Conn) (t : List Msg) (lockdown : Lockdown)
    (bundleID : String) : Outcome (Option GoError) × InstallWorld :=
  match file.content with
  | .error err => (.ret (some err), ⟨t, afcConn, proxyConn⟩)
  | .ok bytes =>
    match afc.WriteFile afcConn (utf8 (installationPath bundleID)) bytes AfcFileModeWr with
    | (.panic r, _, c3) => (.panic r, ⟨t, c3, proxyConn⟩)
    | (.ret (some err), _, c3) => (.ret (some err), ⟨t, c3, proxyConn⟩)
    | (.ret none, _, c3) =>
      match Lockdown.startService env t lockdown ServiceNameInstallationProxy with
      | (.error err, _, t3) =>
        (.ret (some (.other ("installation proxy: " ++ err.Error))), ⟨t3, c3, proxyConn⟩)
      | (.ok (), _, t3) =>
        let r := InstallationProxy.InstallApplication codec proxyConn bundleID
          (installationPath bundleID)
        (.ret r.1, ⟨t3, c3, r.2⟩)

/-- The directory creation of `Install` (install.go lines 50-54): a MakeDir when
`pathInfo` is nil, nothing otherwise. -/
def Install.makeStaging (afc : AFC) (c : Conn) (pathInfo : Option GoMap) :
    Outcome (Option GoError) × AFC × Conn :=
  match pathInfo with
  | none => afc.CreateDirectory c (utf8 "PublicStaging")
  | some _ => (.ret none, afc, c)

/-- The part of `Install` that follows `lockdown.AFCService()` (install.go lines
42-75), for the client `afc` on the stream `afcConn`; `proxyConn` is the stream
that the installation service is reached on. -/
def Install.staging (env : Env) (codec : PlistCodec) (file : LocalFile)
    (afc : AFC) (afcConn proxyConn : Conn) (t : List Msg) (lockdown : Lockdown)
    (bundleID : String) : Outcome (Option GoError) × InstallWorld :=
  let stagingPath := "PublicStaging"
  match afc.Stat afcConn (utf8 stagingPath) with
  | (.panic r, _, c1) => (.panic r, ⟨t, c1, proxyConn⟩)
  | (.ret (pathInfo, err), afc1, c1) =>
    if err ≠ none ∧ err ≠ some .ErrObjectNotFound then (.ret err, ⟨t, c1, proxyConn⟩)
    else
      match Install.makeStaging afc1 c1 pathInfo with
      | (.panic r, _, c2) => (.panic r, ⟨t, c2, proxyConn⟩)
      | (.ret (some err), _, c2) => (.ret (some err), ⟨t, c2, proxyConn⟩)
      | (.ret none, afc2, c2) =>
        Install.upload env codec file afc2 c2 proxyConn t lockdown bundleID

/-- The function `Install`; `afcConn` and `proxyConn` are the streams that the
two service spawns return. -/
def Install (env : Env) (codec : PlistCodec) (file : LocalFile) (afcConn proxyConn : Conn)
    (t : List Msg) (device : Device) : Outcome (Option GoError) × InstallWorld :=
  match file.stat with
  | some err => (.ret (some err), ⟨t, afcConn, proxyConn⟩)
  | none =>
    match file.info with
    | .error err => (.ret (some err), ⟨t, afcConn, proxyConn⟩)
    | .ok info =>
      match info.lookup "CFBundleIdentifier" with
      | some (.string bundleID) =>
        match LockdownService env t device with
        | (.error err, t1) =>
          (.ret (some (.other ("lockdown: " ++ err.Error))), ⟨t1, afcConn, proxyConn⟩)
        | (.ok lockdown, t1) =>
          match Lockdown.startService env t1 lockdown ServiceNameAFC with
          | (.error err, _, t2) =>
            (.ret (some (.other ("afc: " ++ err.Error))), ⟨t2, afcConn, proxyConn⟩)
          | (.ok (), lockdown2, t2) =>
            Install.staging env codec file ⟨0⟩ afcConn proxyConn t2 lockdown2 bundleID
      | _ => (.ret (some (.other "failed to cast BundleIdentifier")), ⟨t, afcConn, proxyConn⟩)

/-- An environment in which every interaction succeeds and no TLS is asked for. -/
def plainEnv : Env :=
  { dial := fun _ => none
    readPair := fun _ => .reply (.ok examplePair)
    connect := fun _ => .reply { MessageType := "Result", Number := 0 }
    startSession := fun _ =>
      .reply { Request := "StartSession", Error := "", EnableSessionSSL := false,
               SessionID := "S1" }
    x509KeyPair := fun _ => none
    handshake := fun _ => none
    stopSession := fun _ => .reply { Request := "StopSession", Error := "" }
    startService := fun _ =>
      .reply { Request := "StartService", Error := "", EnableServiceSSL := false, Port := 49152,
               Service := "" } }

/-- A working AFC stream on which the device answers the stat of the staging
directory with a Status response of code `statCode`, a directory creation with
success, the open with handle 7 and the write with success. -/
def stagingStream (statCode : Nat) : Conn :=
  ⟨true, [], statusReply statCode ++ statusReply 0 ++ openResultReply ++ statusReply 0⟩

/-- A working AFC stream on which the staging directory exists: the stat is
answered with an (empty) file-information response, the open with handle 7 and
the write with success. -/
def stagedStream : Conn :=
  ⟨true, [], infoReply [] ++ openResultReply ++ statusReply 0⟩

/-- A working installation stream holding the completion report. -/
def proxyStream : Conn := ⟨true, [], frames [completePayload]⟩

/-- An archive of three bytes whose Info.plist names the bundle `bundleID`. -/
def exampleArchive (bundleID : String) : LocalFile :=
  { stat := none
    info := .ok [("CFBundleIdentifier", .string bundleID)]
    content := .ok [80, 75, 3] }

/-- A codec for examples that shows the package path: the install request is
marshalled to the bytes of its `PackagePath`, everything else is as in
`exampleCodec`. -/
def packagePathCodec : PlistCodec :=
  { marshalInstall := fun r => .ok (utf8 r.PackagePath)
    marshalUninstall := exampleCodec.marshalUninstall
    parseReply := exampleCodec.parseReply }

/-! ## Theorems -/

theorem putUintLE_length (n v : Nat) : (putUintLE n v).length = n := by
  induction n generalizing v with
  | zero => rfl
  | succ n ih => simp [putUintLE, ih]

theorem uintLE_putUintLE (n v : Nat) : uintLE (putUintLE n v) = v % 256 ^ n := by
  induction n generalizing v with
  | zero => simp [putUintLE, uintLE, Nat.mod_one]
  | succ n ih =>
    simp only [putUintLE, uintLE, ih]
    rw [pow_succ, Nat.mul_comm (256 ^ n) 256, Nat.mod_mul]

theorem header_decode_encode (h : header) (body : Bytes) :
    header.decode (h.encode ++ body) =
      { Length := h.Length % 2 ^ 32, Version := h.Version % 2 ^ 32,
        Request := h.Request % 2 ^ 32, Tag := h.Tag % 2 ^ 32 } := by
  have e4 : ∀ v, (putUintLE 4 v).length = 4 := fun v => putUintLE_length 4 v
  have t : ∀ (v : Nat) (r : Bytes), uintLE ((putUintLE 4 v ++ r).take 4) = v % 2 ^ 32 := by
    intro v r
    rw [List.take_append_of_le_length (by rw [e4]), List.take_of_length_le (by rw [e4]),
      uintLE_putUintLE]
    norm_num
  have d : ∀ (v : Nat) (r : Bytes), (putUintLE 4 v ++ r).drop 4 = r := by
    intro v r
    rw [List.drop_append_of_le_length (by rw [e4]), List.drop_of_length_le (by rw [e4])]
    rfl
  have d8 : ∀ (r : Bytes), r.drop 8 = (r.drop 4).drop 4 := by intro r; simp
  have d12 : ∀ (r : Bytes), r.drop 12 = ((r.drop 4).drop 4).drop 4 := by intro r; simp
  simp only [header.decode, header.encode, List.append_assoc, d8, d12, t, d]

theorem header_encode_length (h : header) : h.encode.length = 16 := by
  simp [header.encode, putUintLE_length]

theorem Send_up (c : Connection) (body : Bytes) (hup : c.conn.up = true) :
    c.Send (.ok body) =
      (none,
        { tag := (c.tag + 1) % 2 ^ 32
          conn :=
            { up := c.conn.up
              incoming := c.conn.incoming
              written := c.conn.written ++
                [(Connection.headerFor ((c.tag + 1) % 2 ^ 32) body).encode ++ body] } }) := by
  simp only [Connection.Send]
  generalize Connection.headerFor ((c.tag + 1) % 2 ^ 32) body = h
  have hl : (h.encode ++ body).length = 16 + body.length := by
    simp [header_encode_length]
  simp [Connection.sendLoop, hl, Conn.Write, hup]

theorem sendAll_up (bodies : List Bytes) (c : Connection) (hup : c.conn.up = true) :
    (c.sendAll bodies).1 = List.replicate bodies.length none ∧
    (c.sendAll bodies).2.conn.up = true ∧
    (c.sendAll bodies).2.conn.written = c.conn.written ++ Connection.wire c.tag bodies := by
  induction bodies generalizing c with
  | nil => simp [Connection.sendAll, Connection.wire, hup]
  | cons b bs ih =>
    simp only [Connection.sendAll, Send_up c b hup]
    obtain ⟨h1, h2, h3⟩ := ih
      { tag := (c.tag + 1) % 2 ^ 32
        conn :=
          { up := c.conn.up
            incoming := c.conn.incoming
            written := c.conn.written ++
              [(Connection.headerFor ((c.tag + 1) % 2 ^ 32) b).encode ++ b] } } hup
    refine ⟨?_, h2, ?_⟩
    · rw [h1]; rfl
    · rw [h3]
      simp only [Connection.wire, List.append_assoc, List.singleton_append]

theorem wire_getElem_some (bodies : List Bytes) (tag k : Nat) (hk : k < bodies.length) :
    (Connection.wire tag bodies)[k]? =
      some ((Connection.headerFor ((tag + k + 1) % 2 ^ 32) (bodies.get ⟨k, hk⟩)).encode ++
        bodies.get ⟨k, hk⟩) := by
  induction bodies generalizing tag k with
  | nil => simp at hk
  | cons b bs ih =>
    cases k with
    | zero => simp [Connection.wire]
    | succ k =>
      simp only [Connection.wire, List.getElem?_cons_succ, List.get_cons_succ]
      have hk2 : k < bs.length := by simpa using hk
      rw [ih ((tag + 1) % 2 ^ 32) k hk2]
      have : ((tag + 1) % 2 ^ 32 + k + 1) % 2 ^ 32 = (tag + (k + 1) + 1) % 2 ^ 32 := by
        norm_num; omega
      rw [this]

theorem Send_down (c : Connection) (body : Bytes) (hup : c.conn.up = false) :
    (c.Send (.ok body)).1 ≠ none := by
  simp only [Connection.Send]
  generalize Connection.headerFor ((c.tag + 1) % 2 ^ 32) body = h
  have hl : (h.encode ++ body).length = 16 + body.length := by
    simp [header_encode_length]
  simp [Connection.sendLoop, hl, Conn.Write, hup]

theorem sendAll_message (c : Connection) (bodies : List Bytes) (k : Nat)
    (hk : k < bodies.length) (hup : c.conn.up = true) :
    (c.sendAll bodies).2.conn.written[c.conn.written.length + k]? =
      some ((Connection.headerFor ((c.tag + k + 1) % 2 ^ 32) (bodies.get ⟨k, hk⟩)).encode ++
        bodies.get ⟨k, hk⟩) := by
  rw [(sendAll_up bodies c hup).2.2, List.getElem?_append_right (Nat.le_add_right _ _),
    Nat.add_sub_cancel_left, wire_getElem_some bodies c.tag k hk]

theorem message_split (h : header) (body : Bytes) : (h.encode ++ body).drop 16 = body := by
  rw [List.drop_append_of_le_length (by rw [header_encode_length]),
    List.drop_of_length_le (by rw [header_encode_length])]
  rfl

/-- After `n` successful `Send` calls of empty bodies on a connection with tag
0, the last message carries the tag `n % 2 ^ 32`. -/
theorem last_tag_of_many (n : Nat) (hn : 0 < n) (conn : Conn) (hup : conn.up = true)
    (hw : conn.written = []) :
    (((Connection.sendAll { tag := 0, conn := conn } (List.replicate n [])).2.conn.written[n - 1]?).map
      (fun m => (header.decode m).Tag)) = some (n % 2 ^ 32) := by
  have hk : n - 1 < (List.replicate n ([] : Bytes)).length := by
    rw [List.length_replicate]; omega
  have h := sendAll_message { tag := 0, conn := conn } (List.replicate n []) (n - 1) hk hup
  simp only [hw, List.length_nil, Nat.zero_add] at h
  rw [h, Option.map_some', header_decode_encode]
  have : n - 1 + 1 = n := by omega
  simp only [Connection.headerFor, this, Nat.mod_mod]

theorem sendAll_ok_up (c : Connection) (b : Bytes) (bs : List Bytes)
    (hok : ∀ r ∈ (c.sendAll (b :: bs)).1, r = none) : c.conn.up = true := by
  cases hup : c.conn.up with
  | true => rfl
  | false =>
    exfalso
    apply Send_down c b hup
    apply hok
    simp [Connection.sendAll]

/-- C1, counterexample: on a connection freshly returned by `Open`, 2^32
`Send` calls with empty bodies all succeed and the 2^32-th message written
carries Tag 0, not 2^32 (and not the previous tag plus one). -/
theorem send_tag_wraps :
    Open (.ok ⟨true, [], []⟩) = .ok ⟨0, ⟨true, [], []⟩⟩ ∧
    (Connection.sendAll ⟨0, ⟨true, [], []⟩⟩ (List.replicate (2 ^ 32) [])).1 =
      List.replicate (List.replicate (2 ^ 32) ([] : Bytes)).length none ∧
    (((Connection.sendAll ⟨0, ⟨true, [], []⟩⟩
        (List.replicate (2 ^ 32) [])).2.conn.written[2 ^ 32 - 1]?).map
      (fun m => (header.decode m).Tag)) = some 0 := by
  refine ⟨rfl, (sendAll_up _ _ rfl).1, ?_⟩
  rw [last_tag_of_many (2 ^ 32) (by norm_num) ⟨true, [], []⟩ rfl rfl, Nat.mod_self]

/-- C1, amended: on a connection freshly returned by `Open` (tag 0), when the
`Send` calls for the marshalled bodies all succeed and every body is shorter than
2^32 - 16 bytes, the k-th message written (counting from 0) is a 16-byte header
followed by exactly the k-th body, and the header decodes little-endian to
Length = 16 + body length, Version = 1, Request = 8 and
Tag = (k + 1) mod 2^32: the first tag is 1 and each tag is the previous one plus
one until the 32-bit counter wraps. -/
theorem send_header_fields (conn : Conn) (bodies : List Bytes) (k : Nat)
    (hk : k < bodies.length)
    (hok : ∀ r ∈ (Connection.sendAll ⟨0, conn⟩ bodies).1, r = none)
    (hlen : ∀ b ∈ bodies, b.length < 2 ^ 32 - 16) :
    Open (.ok conn) = .ok ⟨0, conn⟩ ∧
    ∃ m, (Connection.sendAll ⟨0, conn⟩ bodies).2.conn.written[conn.written.length + k]? = some m ∧
      header.decode m =
        { Length := 16 + (bodies.get ⟨k, hk⟩).length, Version := 1, Request := 8,
          Tag := (k + 1) % 2 ^ 32 } ∧
      m.drop 16 = bodies.get ⟨k, hk⟩ := by
  have hup : conn.up = true := by
    cases bodies with
    | nil => simp at hk
    | cons b bs => exact sendAll_ok_up ⟨0, conn⟩ b bs hok
  refine ⟨rfl, _, sendAll_message ⟨0, conn⟩ bodies k hk hup, ?_, message_split _ _⟩
  have hb := hlen _ (List.get_mem bodies k hk)
  rw [header_decode_encode]
  simp only [Connection.headerFor, Nat.zero_add, Nat.mod_mod, header.mk.injEq]
  norm_num at hb ⊢
  omega

/-- C1, witness: two sends on a fresh connection, second message. -/
theorem send_header_fields_witness :
    Open (.ok ⟨true, [], []⟩) = .ok ⟨0, ⟨true, [], []⟩⟩ ∧
    ∃ m, (Connection.sendAll ⟨0, ⟨true, [], []⟩⟩ [[60, 62], [63]]).2.conn.written[0 + 1]? = some m ∧
      header.decode m = { Length := 16 + 1, Version := 1, Request := 8, Tag := (1 + 1) % 2 ^ 32 } ∧
      m.drop 16 = [63] :=
  send_header_fields ⟨true, [], []⟩ [[60, 62], [63]] 1 (by decide) (by decide) (by decide)

/-! ### File-transfer request packets -/

theorem afc_decode_encode (r : afcOperationRequest) (rest : Bytes) (hm : r.Magic.length = 8) :
    afcOperationRequest.decode (r.encode ++ rest) =
      { Magic := r.Magic, EntireLength := r.EntireLength % 2 ^ 64,
        ThisLength := r.ThisLength % 2 ^ 64, PacketNum := r.PacketNum % 2 ^ 64,
        Operation := r.Operation % 2 ^ 64 } := by
  have e8 : ∀ v, (putUintLE 8 v).length = 8 := fun v => putUintLE_length 8 v
  have t : ∀ (v : Nat) (r : Bytes), uintLE ((putUintLE 8 v ++ r).take 8) = v % 2 ^ 64 := by
    intro v r
    rw [List.take_append_of_le_length (by rw [e8]), List.take_of_length_le (by rw [e8]),
      uintLE_putUintLE]
    norm_num
  have d : ∀ (v : Nat) (r : Bytes), (putUintLE 8 v ++ r).drop 8 = r := by
    intro v r
    rw [List.drop_append_of_le_length (by rw [e8]), List.drop_of_length_le (by rw [e8])]
    rfl
  have tm : ∀ (r' : Bytes), (r.Magic ++ r').take 8 = r.Magic := by
    intro r'
    rw [List.take_append_of_le_length (by rw [hm]), List.take_of_length_le (by rw [hm])]
  have dm : ∀ (r' : Bytes), (r.Magic ++ r').drop 8 = r' := by
    intro r'
    rw [List.drop_append_of_le_length (by rw [hm]), List.drop_of_length_le (by rw [hm])]
    rfl
  have d16 : ∀ (r : Bytes), r.drop 16 = (r.drop 8).drop 8 := by intro r; simp
  have d24 : ∀ (r : Bytes), r.drop 24 = ((r.drop 8).drop 8).drop 8 := by intro r; simp
  have d32 : ∀ (r : Bytes), r.drop 32 = (((r.drop 8).drop 8).drop 8).drop 8 := by intro r; simp
  simp only [afcOperationRequest.decode, afcOperationRequest.encode, List.append_assoc, d16, d24,
    d32, tm, dm, t, d]

theorem afc_encode_length (r : afcOperationRequest) (hm : r.Magic.length = 8) :
    r.encode.length = 40 := by
  simp [afcOperationRequest.encode, putUintLE_length, hm]

theorem afc_drop_encode (r : afcOperationRequest) (rest : Bytes) (hm : r.Magic.length = 8) :
    (r.encode ++ rest).drop 40 = rest := by
  rw [List.drop_append_of_le_length (by rw [afc_encode_length r hm]),
    List.drop_of_length_le (by rw [afc_encode_length r hm])]
  rfl

theorem afcMagicBytes_length : afcMagicBytes.length = 8 := by decide

theorem afcFramed_of_encode (r : afcOperationRequest) (data payload : Bytes)
    (hm : r.Magic = afcMagicBytes)
    (ht : r.ThisLength = 40 + data.length) (he : r.EntireLength = 40 + data.length + payload.length)
    (hlt : 40 + data.length + payload.length < 2 ^ 64) :
    afcFramed (r.encode ++ (data ++ payload)) data payload := by
  have hm8 : r.Magic.length = 8 := by rw [hm]; exact afcMagicBytes_length
  unfold afcFramed
  rw [afc_decode_encode r _ hm8, afc_drop_encode r _ hm8]
  refine ⟨by simp only [hm]; rfl, ?_, ?_, rfl⟩
  · simp only [ht]; apply Nat.mod_eq_of_lt; omega
  · simp only [ht, he]
    rw [Nat.mod_eq_of_lt hlt, Nat.mod_eq_of_lt (by omega)]

theorem ReadFull_written (c : Conn) (n : Nat) :
    (c.ReadFull n).2.written = c.written ∧ (c.ReadFull n).2.up = c.up := by
  unfold Conn.ReadFull
  split_ifs <;> simp

theorem afcReadHead_written (c : Conn) :
    (afcReadHead c).2.written = c.written ∧ (afcReadHead c).2.up = c.up := by
  unfold afcReadHead
  have h1 := ReadFull_written c 40
  rcases hr : c.ReadFull 40 with ⟨r, c1⟩
  rw [hr] at h1
  cases r with
  | error e => exact h1
  | ok hb =>
    simp only
    split_ifs
    · exact h1
    · have h2 := ReadFull_written c1
        (((afcOperationRequest.decode hb).ThisLength + 2 ^ 64 - 40) % 2 ^ 64)
      rcases hr2 : c1.ReadFull
        (((afcOperationRequest.decode hb).ThisLength + 2 ^ 64 - 40) % 2 ^ 64) with ⟨r2, c2⟩
      rw [hr2] at h2
      cases r2 <;> exact ⟨h2.1.trans h1.1, h2.2.trans h1.2⟩

theorem afcReceive_written (c : Conn) :
    (afcReceive c).2.written = c.written ∧ (afcReceive c).2.up = c.up := by
  unfold afcReceive
  have h1 := afcReadHead_written c
  rcases hr : afcReadHead c with ⟨r, c1⟩
  rw [hr] at h1
  rcases r with (e | ⟨hd, dat⟩) | r
  · exact h1
  · simp only
    split_ifs
    · cases Uint64LE dat <;> exact h1
    · exact h1
    · have h2 := ReadFull_written c1 ((hd.EntireLength + 2 ^ 64 - hd.ThisLength) % 2 ^ 64)
      rcases hr2 : c1.ReadFull ((hd.EntireLength + 2 ^ 64 - hd.ThisLength) % 2 ^ 64) with ⟨r2, c2⟩
      rw [hr2] at h2
      cases r2 <;> exact ⟨h2.1.trans h1.1, h2.2.trans h1.2⟩
  · exact h1

theorem Write_up (c : Conn) (p : Bytes) (hup : c.up = true) :
    c.Write p = ((p.length, none), { up := c.up, written := c.written ++ [p], incoming := c.incoming }) := by
  simp [Conn.Write, hup]

theorem Stat_written (a : AFC) (c : Conn) (path : Bytes) (hup : c.up = true) :
    (a.Stat c path).2.2.written = c.written ++ [statPacket ((a.packetNum + 1) % 2 ^ 64) path] := by
  simp only [AFC.Stat, Write_up c _ hup]
  have h := (afcReceive_written
    { up := c.up, written := c.written ++ [statPacket ((a.packetNum + 1) % 2 ^ 64) path],
      incoming := c.incoming }).1
  revert h
  rcases afcReceive _ with ⟨r | r, c2⟩
  · cases r <;> exact id
  · exact id

theorem CreateDirectory_written (a : AFC) (c : Conn) (name : Bytes) (hup : c.up = true) :
    (a.CreateDirectory c name).2.2.written =
      c.written ++ [createDirectoryPacket ((a.packetNum + 1) % 2 ^ 64) name] := by
  simp only [AFC.CreateDirectory, Write_up c _ hup]
  have h := (afcReceive_written
    { up := c.up, written := c.written ++ [createDirectoryPacket ((a.packetNum + 1) % 2 ^ 64) name],
      incoming := c.incoming }).1
  revert h
  rcases afcReceive _ with ⟨r | r, c2⟩
  · cases r <;> exact id
  · exact id

theorem open_written (a : AFC) (c : Conn) (name : Bytes) (mode : Nat) (hup : c.up = true) :
    (a.open c name mode).2.2.written =
      c.written ++ [openPacket ((a.packetNum + 1) % 2 ^ 64) name mode] := by
  simp only [AFC.open, Write_up c _ hup]
  have h := (afcReadHead_written
    { up := c.up, written := c.written ++ [openPacket ((a.packetNum + 1) % 2 ^ 64) name mode],
      incoming := c.incoming }).1
  revert h
  rcases afcReadHead _ with ⟨(e | ⟨hd, dat⟩) | r, c2⟩
  · exact id
  · simp only
    cases Uint64LE dat with
    | panic r => exact id
    | ret v => simp only; split_ifs <;> exact id
  · exact id

theorem fileWrite_written (f : afcFile) (c : Conn) (b : Bytes) (hup : c.up = true) :
    (f.Write c b).2.2.written = c.written ++ [writePacket ((f.packetNum + 1) % 2 ^ 64) f.fd b] := by
  simp only [afcFile.Write, Write_up c _ hup]
  have h := (afcReceive_written
    { up := c.up, written := c.written ++ [writePacket ((f.packetNum + 1) % 2 ^ 64) f.fd b],
      incoming := c.incoming }).1
  revert h
  rcases afcReceive _ with ⟨r | r, c2⟩
  · cases r <;> exact id
  · exact id

/-- C2: the request packets that `AFC.Stat`, `AFC.CreateDirectory`, `AFC.open`
and `afcFile.Write` hand to the socket are framed: the first 40 bytes decode
little-endian to the magic `CFA6LPAA`, this-length = 40 + data bytes and
entire-length = this-length + payload bytes, where the data section is the path
(Stat, CreateDirectory), the 8-byte little-endian mode followed by the name
(open) or the 8-byte little-endian handle (Write), and the payload is empty
except for Write, where it is the bytes being written; read as a little-endian
word the magic is the constant `AfcMagic`.  Lengths are Go slice lengths, hence
below 2^63. -/
theorem afc_request_framing (a : AFC) (f : afcFile) (c : Conn) (path name b : Bytes)
    (mode : Nat) (hup : c.up = true) (hpath : path.length < 2 ^ 63)
    (hname : name.length < 2 ^ 63) (hb : b.length < 2 ^ 63) :
    (∃ p, (a.Stat c path).2.2.written = c.written ++ [p] ∧ afcFramed p path []) ∧
    (∃ p, (a.CreateDirectory c path).2.2.written = c.written ++ [p] ∧ afcFramed p path []) ∧
    (∃ p, (a.open c name mode).2.2.written = c.written ++ [p] ∧
      afcFramed p (putUintLE 8 (mode % 2 ^ 32) ++ name) []) ∧
    (∃ p, (f.Write c b).2.2.written = c.written ++ [p] ∧ afcFramed p (putUintLE 8 f.fd) b) ∧
    uintLE (ascii "CFA6LPAA") = AfcMagic := by
  have e8 : ∀ v, (putUintLE 8 v).length = 8 := fun v => putUintLE_length 8 v
  have m64 : ∀ n, n < 2 ^ 64 → n % 2 ^ 64 = n := fun n h => Nat.mod_eq_of_lt h
  refine ⟨⟨_, Stat_written a c path hup, ?_⟩, ⟨_, CreateDirectory_written a c path hup, ?_⟩,
    ⟨_, open_written a c name mode hup, ?_⟩, ⟨_, fileWrite_written f c b hup, ?_⟩, by decide⟩
  · have := afcFramed_of_encode
      { Magic := afcMagicBytes, EntireLength := (40 + path.length % 2 ^ 64) % 2 ^ 64,
        ThisLength := (40 + path.length % 2 ^ 64) % 2 ^ 64,
        PacketNum := (a.packetNum + 1) % 2 ^ 64, Operation := AfcOperationGetFileInfo }
      path [] rfl (by simp only; rw [m64 _ (by omega), m64 _ (by omega)])
      (by simp only [List.length_nil]; rw [m64 _ (by omega), m64 _ (by omega)]; rfl)
      (by simp only [List.length_nil]; omega)
    simpa [statPacket] using this
  · have := afcFramed_of_encode
      { Magic := afcMagicBytes, EntireLength := (40 + path.length % 2 ^ 64) % 2 ^ 64,
        ThisLength := (40 + path.length % 2 ^ 64) % 2 ^ 64,
        PacketNum := (a.packetNum + 1) % 2 ^ 64, Operation := AfcOperationMakeDir }
      path [] rfl (by simp only; rw [m64 _ (by omega), m64 _ (by omega)])
      (by simp only [List.length_nil]; rw [m64 _ (by omega), m64 _ (by omega)]; rfl)
      (by simp only [List.length_nil]; omega)
    simpa [createDirectoryPacket] using this
  · have hl : (putUintLE 8 (mode % 2 ^ 32) ++ name).length = 8 + name.length := by
      rw [List.length_append, e8]
    have := afcFramed_of_encode
      { Magic := afcMagicBytes,
        EntireLength := (40 + (putUintLE 8 (mode % 2 ^ 32) ++ name).length % 2 ^ 64) % 2 ^ 64,
        ThisLength := (40 + (putUintLE 8 (mode % 2 ^ 32) ++ name).length % 2 ^ 64) % 2 ^ 64,
        PacketNum := (a.packetNum + 1) % 2 ^ 64, Operation := AfcOperationFileOpen }
      (putUintLE 8 (mode % 2 ^ 32) ++ name) [] rfl
      (by simp only [hl]; rw [m64 _ (by omega), m64 _ (by omega)])
      (by simp only [hl, List.length_nil]; rw [m64 _ (by omega), m64 _ (by omega)]; rfl)
      (by simp only [hl, List.length_nil]; omega)
    simpa [openPacket] using this
  · have := afcFramed_of_encode
      { Magic := afcMagicBytes,
        EntireLength := (40 + (putUintLE 8 f.fd).length % 2 ^ 64 + b.length % 2 ^ 64) % 2 ^ 64,
        ThisLength := (40 + (putUintLE 8 f.fd).length % 2 ^ 64) % 2 ^ 64,
        PacketNum := (f.packetNum + 1) % 2 ^ 64, Operation := AfcOperationFileWrite }
      (putUintLE 8 f.fd) b rfl
      (by simp only [e8]; norm_num)
      (by simp only [e8]; rw [m64 b.length (by omega)]; norm_num; omega)
      (by simp only [e8]; omega)
    simpa [writePacket] using this

/-- C2, witness: a fresh client and a handle with descriptor 7 on a working
socket, path `PS`, name `a`, mode 4 and three bytes written. -/
theorem afc_request_framing_witness :
    (∃ p, ((AFC.mk 0).Stat ⟨true, [], []⟩ [80, 83]).2.2.written = [] ++ [p] ∧
      afcFramed p [80, 83] []) ∧
    (∃ p, ((AFC.mk 0).CreateDirectory ⟨true, [], []⟩ [80, 83]).2.2.written = [] ++ [p] ∧
      afcFramed p [80, 83] []) ∧
    (∃ p, ((AFC.mk 0).open ⟨true, [], []⟩ [97] 4).2.2.written = [] ++ [p] ∧
      afcFramed p (putUintLE 8 (4 % 2 ^ 32) ++ [97]) []) ∧
    (∃ p, ((afcFile.mk 0 7).Write ⟨true, [], []⟩ [1, 2, 3]).2.2.written = [] ++ [p] ∧
      afcFramed p (putUintLE 8 (afcFile.mk 0 7).fd) [1, 2, 3]) ∧
    uintLE (ascii "CFA6LPAA") = AfcMagic :=
  afc_request_framing ⟨0⟩ ⟨0, 7⟩ ⟨true, [], []⟩ [80, 83] [97] [1, 2, 3] 4 rfl
    (by decide) (by decide) (by decide)

/-! ### Packet counters -/

/-- C3, counterexample: a fresh client opens a file (packet number 1) and the
handle it gets writes one byte; the FileWrite packet, the second packet on the
stream, carries packet number 1 again, not 2. -/
theorem file_write_restarts_numbering :
    ((AFC.mk 0).open ⟨true, [], openResultReply ++ statusReply 0⟩ [97] AfcFileModeWr).1 =
      .ret (some ⟨0, 7⟩, none) ∧
    (((afcFile.mk 0 7).Write
        ((AFC.mk 0).open ⟨true, [], openResultReply ++ statusReply 0⟩ [97] AfcFileModeWr).2.2
        [1]).2.2.written.map
      (fun p => ((afcOperationRequest.decode p).Operation, (afcOperationRequest.decode p).PacketNum))) =
      [(AfcOperationFileOpen, 1), (AfcOperationFileWrite, 1)] := by
  decide

theorem Stat_state (a : AFC) (c : Conn) (path : Bytes) :
    (a.Stat c path).2.1 = ⟨(a.packetNum + 1) % 2 ^ 64⟩ ∧ (a.Stat c path).2.2.up = c.up := by
  rcases Bool.eq_false_or_eq_true c.up with hup | hup
  · simp only [AFC.Stat, Write_up c _ hup]
    have h := (afcReceive_written
      { up := c.up, written := c.written ++ [statPacket ((a.packetNum + 1) % 2 ^ 64) path],
        incoming := c.incoming }).2
    revert h
    rcases afcReceive _ with ⟨r | r, c2⟩
    · cases r <;> exact fun h => ⟨rfl, h⟩
    · exact fun h => ⟨rfl, h⟩
  · simp [AFC.Stat, Conn.Write, hup]

theorem CreateDirectory_state (a : AFC) (c : Conn) (name : Bytes) :
    (a.CreateDirectory c name).2.1 = ⟨(a.packetNum + 1) % 2 ^ 64⟩ ∧ (a.CreateDirectory c name).2.2.up = c.up := by
  rcases Bool.eq_false_or_eq_true c.up with hup | hup
  · simp only [AFC.CreateDirectory, Write_up c _ hup]
    have h := (afcReceive_written
      { up := c.up, written := c.written ++ [createDirectoryPacket ((a.packetNum + 1) % 2 ^ 64) name],
        incoming := c.incoming }).2
    revert h
    rcases afcReceive _ with ⟨r | r, c2⟩
    · cases r <;> exact fun h => ⟨rfl, h⟩
    · exact fun h => ⟨rfl, h⟩
  · simp [AFC.CreateDirectory, Conn.Write, hup]

theorem open_state (a : AFC) (c : Conn) (name : Bytes) (mode : Nat) :
    (a.open c name mode).2.1 = ⟨(a.packetNum + 1) % 2 ^ 64⟩ ∧ (a.open c name mode).2.2.up = c.up := by
  rcases Bool.eq_false_or_eq_true c.up with hup | hup
  · simp only [AFC.open, Write_up c _ hup]
    have h := (afcReadHead_written
      { up := c.up, written := c.written ++ [openPacket ((a.packetNum + 1) % 2 ^ 64) name mode],
        incoming := c.incoming }).2
    revert h
    rcases afcReadHead _ with ⟨(e | ⟨hd, dat⟩) | r, c2⟩
    · exact fun h => ⟨rfl, h⟩
    · simp only
      cases Uint64LE dat with
      | panic r => exact fun h => ⟨rfl, h⟩
      | ret v => simp only; split_ifs <;> exact fun h => ⟨rfl, h⟩
    · exact fun h => ⟨rfl, h⟩
  · simp [AFC.open, Conn.Write, hup]

theorem fileWrite_state (f : afcFile) (c : Conn) (b : Bytes) :
    (f.Write c b).2.1 = ⟨(f.packetNum + 1) % 2 ^ 64, f.fd⟩ ∧ (f.Write c b).2.2.up = c.up := by
  rcases Bool.eq_false_or_eq_true c.up with hup | hup
  · simp only [afcFile.Write, Write_up c _ hup]
    have h := (afcReceive_written
      { up := c.up, written := c.written ++ [writePacket ((f.packetNum + 1) % 2 ^ 64) f.fd b],
        incoming := c.incoming }).2
    revert h
    rcases afcReceive _ with ⟨r | r, c2⟩
    · cases r <;> exact fun h => ⟨rfl, h⟩
    · exact fun h => ⟨rfl, h⟩
  · simp [afcFile.Write, Conn.Write, hup]

theorem packet_fields (r : afcOperationRequest) (rest : Bytes) (hm : r.Magic = afcMagicBytes)
    (hp : r.PacketNum < 2 ^ 64) (ho : r.Operation < 2 ^ 64) :
    (afcOperationRequest.decode (r.encode ++ rest)).Operation = r.Operation ∧
    (afcOperationRequest.decode (r.encode ++ rest)).PacketNum = r.PacketNum := by
  rw [afc_decode_encode r rest (by rw [hm]; exact afcMagicBytes_length)]
  exact ⟨Nat.mod_eq_of_lt ho, Nat.mod_eq_of_lt hp⟩

theorem statPacket_fields (pn : Nat) (path : Bytes) :
    (afcOperationRequest.decode (statPacket (pn % 2 ^ 64) path)).Operation =
      AfcOperationGetFileInfo ∧
    (afcOperationRequest.decode (statPacket (pn % 2 ^ 64) path)).PacketNum = pn % 2 ^ 64 :=
  packet_fields _ _ rfl (Nat.mod_lt _ (by norm_num)) (by norm_num [AfcOperationGetFileInfo])

theorem createDirectoryPacket_fields (pn : Nat) (name : Bytes) :
    (afcOperationRequest.decode (createDirectoryPacket (pn % 2 ^ 64) name)).Operation =
      AfcOperationMakeDir ∧
    (afcOperationRequest.decode (createDirectoryPacket (pn % 2 ^ 64) name)).PacketNum =
      pn % 2 ^ 64 :=
  packet_fields _ _ rfl (Nat.mod_lt _ (by norm_num)) (by norm_num [AfcOperationMakeDir])

theorem openPacket_fields (pn : Nat) (name : Bytes) (mode : Nat) :
    (afcOperationRequest.decode (openPacket (pn % 2 ^ 64) name mode)).Operation =
      AfcOperationFileOpen ∧
    (afcOperationRequest.decode (openPacket (pn % 2 ^ 64) name mode)).PacketNum = pn % 2 ^ 64 :=
  packet_fields _ _ rfl (Nat.mod_lt _ (by norm_num)) (by norm_num [AfcOperationFileOpen])

theorem writePacket_fields (pn fd : Nat) (b : Bytes) :
    (afcOperationRequest.decode (writePacket (pn % 2 ^ 64) fd b)).Operation =
      AfcOperationFileWrite ∧
    (afcOperationRequest.decode (writePacket (pn % 2 ^ 64) fd b)).PacketNum = pn % 2 ^ 64 := by
  unfold writePacket
  simp only [List.append_assoc]
  exact packet_fields _ _ rfl (Nat.mod_lt _ (by norm_num)) (by norm_num [AfcOperationFileWrite])

theorem chain_step_client (pkt : Bytes) (ps : List Bytes) (n0 f0 : Nat)
    (hop : (afcOperationRequest.decode pkt).Operation ≠ AfcOperationFileWrite)
    (hpn : (afcOperationRequest.decode pkt).PacketNum = (n0 + 1) % 2 ^ 64)
    (h1 : List.Chain follows64 ((n0 + 1) % 2 ^ 64)
      (packetNums (fun op => op != AfcOperationFileWrite) ps))
    (h2 : List.Chain follows64 f0 (packetNums (fun op => op == AfcOperationFileWrite) ps)) :
    List.Chain follows64 n0 (packetNums (fun op => op != AfcOperationFileWrite) (pkt :: ps)) ∧
    List.Chain follows64 f0 (packetNums (fun op => op == AfcOperationFileWrite) (pkt :: ps)) := by
  constructor
  · have : packetNums (fun op => op != AfcOperationFileWrite) (pkt :: ps) =
        ((n0 + 1) % 2 ^ 64) :: packetNums (fun op => op != AfcOperationFileWrite) ps := by
      simp [packetNums, List.filter_cons, hop, hpn]
    rw [this]
    exact List.Chain.cons rfl h1
  · have : packetNums (fun op => op == AfcOperationFileWrite) (pkt :: ps) =
        packetNums (fun op => op == AfcOperationFileWrite) ps := by
      simp [packetNums, List.filter_cons, hop]
    rw [this]
    exact h2

theorem chain_step_file (pkt : Bytes) (ps : List Bytes) (n0 f0 : Nat)
    (hop : (afcOperationRequest.decode pkt).Operation = AfcOperationFileWrite)
    (hpn : (afcOperationRequest.decode pkt).PacketNum = (f0 + 1) % 2 ^ 64)
    (h1 : List.Chain follows64 n0 (packetNums (fun op => op != AfcOperationFileWrite) ps))
    (h2 : List.Chain follows64 ((f0 + 1) % 2 ^ 64)
      (packetNums (fun op => op == AfcOperationFileWrite) ps)) :
    List.Chain follows64 n0 (packetNums (fun op => op != AfcOperationFileWrite) (pkt :: ps)) ∧
    List.Chain follows64 f0 (packetNums (fun op => op == AfcOperationFileWrite) (pkt :: ps)) := by
  constructor
  · have : packetNums (fun op => op != AfcOperationFileWrite) (pkt :: ps) =
        packetNums (fun op => op != AfcOperationFileWrite) ps := by
      simp [packetNums, List.filter_cons, hop]
    rw [this]
    exact h1
  · have : packetNums (fun op => op == AfcOperationFileWrite) (pkt :: ps) =
        ((f0 + 1) % 2 ^ 64) :: packetNums (fun op => op == AfcOperationFileWrite) ps := by
      simp [packetNums, List.filter_cons, hop, hpn]
    rw [this]
    exact List.Chain.cons rfl h2

theorem afcRun_packets (calls : List AfcCall) : ∀ (a : AFC) (f : afcFile) (c : Conn),
    c.up = true →
    ∃ ps, (afcRun a f c calls).2.2.written = c.written ++ ps ∧
      List.Chain follows64 a.packetNum (packetNums (fun op => op != AfcOperationFileWrite) ps) ∧
      List.Chain follows64 f.packetNum (packetNums (fun op => op == AfcOperationFileWrite) ps) := by
  induction calls with
  | nil =>
    intro a f c _
    exact ⟨[], by simp [afcRun], List.Chain.nil, List.Chain.nil⟩
  | cons call rest ih =>
    intro a f c hup
    cases call with
    | Stat path =>
      have hs := Stat_state a c path
      have hw := Stat_written a c path hup
      have hf := statPacket_fields (a.packetNum + 1) path
      simp only [afcRun]
      rcases hr : a.Stat c path with ⟨o, a1, c1⟩
      rw [hr] at hs hw
      simp only at hs hw
      obtain ⟨ha, hu⟩ := hs
      subst ha
      cases o with
      | panic r =>
        refine ⟨[_], hw, ?_⟩
        exact chain_step_client _ [] _ _ (by rw [hf.1]; decide) hf.2 List.Chain.nil List.Chain.nil
      | ret v =>
        obtain ⟨ps, h1, h2, h3⟩ := ih ⟨(a.packetNum + 1) % 2 ^ 64⟩ f c1 (hu.trans hup)
        refine ⟨_ :: ps, ?_, chain_step_client _ ps _ _ (by rw [hf.1]; decide) hf.2 h2 h3⟩
        simp only [h1, hw, List.append_assoc, List.singleton_append]
    | CreateDirectory name =>
      have hs := CreateDirectory_state a c name
      have hw := CreateDirectory_written a c name hup
      have hf := createDirectoryPacket_fields (a.packetNum + 1) name
      simp only [afcRun]
      rcases hr : a.CreateDirectory c name with ⟨o, a1, c1⟩
      rw [hr] at hs hw
      simp only at hs hw
      obtain ⟨ha, hu⟩ := hs
      subst ha
      cases o with
      | panic r =>
        refine ⟨[_], hw, ?_⟩
        exact chain_step_client _ [] _ _ (by rw [hf.1]; decide) hf.2 List.Chain.nil List.Chain.nil
      | ret v =>
        obtain ⟨ps, h1, h2, h3⟩ := ih ⟨(a.packetNum + 1) % 2 ^ 64⟩ f c1 (hu.trans hup)
        refine ⟨_ :: ps, ?_, chain_step_client _ ps _ _ (by rw [hf.1]; decide) hf.2 h2 h3⟩
        simp only [h1, hw, List.append_assoc, List.singleton_append]
    | «open» name mode =>
      have hs := open_state a c name mode
      have hw := open_written a c name mode hup
      have hf := openPacket_fields (a.packetNum + 1) name mode
      simp only [afcRun]
      rcases hr : a.open c name mode with ⟨o, a1, c1⟩
      rw [hr] at hs hw
      simp only at hs hw
      obtain ⟨ha, hu⟩ := hs
      subst ha
      cases o with
      | panic r =>
        refine ⟨[_], hw, ?_⟩
        exact chain_step_client _ [] _ _ (by rw [hf.1]; decide) hf.2 List.Chain.nil List.Chain.nil
      | ret v =>
        obtain ⟨ps, h1, h2, h3⟩ := ih ⟨(a.packetNum + 1) % 2 ^ 64⟩ f c1 (hu.trans hup)
        refine ⟨_ :: ps, ?_, chain_step_client _ ps _ _ (by rw [hf.1]; decide) hf.2 h2 h3⟩
        simp only [h1, hw, List.append_assoc, List.singleton_append]
    | Write b =>
      have hs := fileWrite_state f c b
      have hw := fileWrite_written f c b hup
      have hf := writePacket_fields (f.packetNum + 1) f.fd b
      simp only [afcRun]
      rcases hr : f.Write c b with ⟨o, f1, c1⟩
      rw [hr] at hs hw
      simp only at hs hw
      obtain ⟨ha, hu⟩ := hs
      subst ha
      cases o with
      | panic r =>
        refine ⟨[_], hw, ?_⟩
        exact chain_step_file _ [] _ _ hf.1 hf.2 List.Chain.nil List.Chain.nil
      | ret v =>
        obtain ⟨ps, h1, h2, h3⟩ := ih a ⟨(f.packetNum + 1) % 2 ^ 64, f.fd⟩ c1 (hu.trans hup)
        refine ⟨_ :: ps, ?_, chain_step_file _ ps _ _ hf.1 hf.2 h2 h3⟩
        simp only [h1, hw, List.append_assoc, List.singleton_append]

theorem open_handle_counter (a : AFC) (c : Conn) (name : Bytes) (mode : Nat) (f1 : afcFile)
    (h : (a.open c name mode).1 = .ret (some f1, none)) : f1.packetNum = 0 := by
  unfold AFC.open at h
  simp only at h
  split at h
  · simp at h
  · split at h
    · simp at h
    · simp at h
    · split at h
      · simp at h
      · split at h
        · simp at h
        · simp only [Outcome.ret.injEq, Prod.mk.injEq, Option.some.injEq, and_true] at h
          rw [← h]

/-- C3, amended: the packet counter is kept per sender.  In every run of calls
on a client and on one of its file handles over a working socket, the packets the
client itself sends (Stat, CreateDirectory, open) carry consecutive packet
numbers (the first is the client counter plus one, each next one the previous
plus one, modulo 2^64), the FileWrite packets sent through the handle carry
consecutive packet numbers of the handle counter, and a handle returned by
`open` starts with its own counter at 0, so its first FileWrite packet carries
packet number 1 whatever the client has sent. -/
theorem packet_counter_per_sender (a : AFC) (f : afcFile) (c : Conn) (calls : List AfcCall)
    (hup : c.up = true) :
    (∃ ps, (afcRun a f c calls).2.2.written = c.written ++ ps ∧
      List.Chain follows64 a.packetNum (packetNums (fun op => op != AfcOperationFileWrite) ps) ∧
      List.Chain follows64 f.packetNum (packetNums (fun op => op == AfcOperationFileWrite) ps)) ∧
    (∀ name mode f1, (a.open c name mode).1 = .ret (some f1, none) → f1.packetNum = 0) :=
  ⟨afcRun_packets calls a f c hup, fun name mode f1 h => open_handle_counter a c name mode f1 h⟩

/-- C3, witness: a fresh client opens a file, writes through the handle and
stats a path. -/
theorem packet_counter_per_sender_witness :
    (∃ ps, (afcRun ⟨0⟩ ⟨0, 7⟩ ⟨true, [], openResultReply ++ statusReply 0⟩
        [.open [97] 4, .Write [1], .Stat [80]]).2.2.written = [] ++ ps ∧
      List.Chain follows64 (AFC.mk 0).packetNum
        (packetNums (fun op => op != AfcOperationFileWrite) ps) ∧
      List.Chain follows64 (afcFile.mk 0 7).packetNum
        (packetNums (fun op => op == AfcOperationFileWrite) ps)) ∧
    (∀ name mode f1,
      ((AFC.mk 0).open ⟨true, [], openResultReply ++ statusReply 0⟩ name mode).1 =
        .ret (some f1, none) → f1.packetNum = 0) :=
  packet_counter_per_sender ⟨0⟩ ⟨0, 7⟩ ⟨true, [], openResultReply ++ statusReply 0⟩
    [.open [97] 4, .Write [1], .Stat [80]] rfl

/-! ### Status responses -/

theorem ReadFull_append (c : Conn) (xs rest : Bytes) (h : c.incoming = xs ++ rest) :
    c.ReadFull xs.length =
      (.ok xs, { up := c.up, written := c.written, incoming := rest }) := by
  unfold Conn.ReadFull
  rw [h]
  simp

theorem afcReadHead_reply (c : Conn) (hd : afcOperationRequest) (data rest : Bytes)
    (hm : hd.Magic.length = 8) (hlen : hd.ThisLength = 40 + data.length)
    (hsz : data.length ≤ maxAlloc) (hinc : c.incoming = hd.encode ++ data ++ rest) :
    afcReadHead c =
      (.ret (.ok (afcOperationRequest.decode hd.encode, data)),
        { up := c.up, written := c.written, incoming := rest }) := by
  have h40 := afc_encode_length hd hm
  have hr := ReadFull_append c hd.encode (data ++ rest) (by rw [hinc, List.append_assoc])
  rw [h40] at hr
  have hdl : (afcOperationRequest.decode hd.encode).ThisLength = 40 + data.length := by
    have := afc_decode_encode hd [] hm
    rw [List.append_nil] at this
    rw [this]
    simp only [hlen]
    apply Nat.mod_eq_of_lt
    unfold maxAlloc at hsz
    omega
  have hn : ((afcOperationRequest.decode hd.encode).ThisLength + 2 ^ 64 - 40) % 2 ^ 64 =
      data.length := by
    rw [hdl]
    unfold maxAlloc at hsz
    omega
  unfold afcReadHead
  rw [hr]
  simp only [hn]
  rw [if_neg (by omega)]
  rw [ReadFull_append { up := c.up, written := c.written, incoming := data ++ rest } data rest rfl]

theorem afcReceive_status (c : Conn) (hd : afcOperationRequest) (data rest : Bytes)
    (hm : hd.Magic.length = 8) (hop : hd.Operation = AfcOperationStatus)
    (hlen : hd.ThisLength = 40 + data.length) (h8 : 8 ≤ data.length)
    (hsz : data.length ≤ maxAlloc) (hinc : c.incoming = hd.encode ++ data ++ rest) :
    afcReceive c =
      (.ret (.status (errorsToErrors (uintLE (data.take 8)))),
        { up := c.up, written := c.written, incoming := rest }) := by
  have hdo : (afcOperationRequest.decode hd.encode).Operation = AfcOperationStatus := by
    have := afc_decode_encode hd [] hm
    rw [List.append_nil] at this
    rw [this]
    simp only [hop]
    decide
  unfold afcReceive
  rw [afcReadHead_reply c hd data rest hm hlen hsz hinc]
  simp only [hdo, if_true, Uint64LE]
  rw [if_neg (by omega)]

theorem errorsToErrors_large (k : Nat) : errorsToErrors (k + 24) = none := by
  rfl

theorem errorsToErrors_sentinels (code : Nat) :
    (errorsToErrors code = some .ErrObjectNotFound ↔ code = 8) ∧
    (errorsToErrors code = some .EOF ↔ code = 14) := by
  by_cases h : code < 24
  · interval_cases code <;> simp [errorsToErrors]
  · obtain ⟨k, rfl⟩ : ∃ k, code = k + 24 := ⟨code - 24, by omega⟩
    rw [errorsToErrors_large]
    constructor <;> constructor <;> intro h' <;> cases h'

theorem errorsToErrors_nil (code : Nat) : errorsToErrors code = none ↔ code = 0 ∨ 24 ≤ code := by
  by_cases h : code < 24
  · interval_cases code <;> simp [errorsToErrors]
  · obtain ⟨k, rfl⟩ : ∃ k, code = k + 24 := ⟨code - 24, by omega⟩
    rw [errorsToErrors_large]
    simp

/-- A Status response carrying `code` makes `Stat`, `CreateDirectory` and
`afcFile.Write` return `errorsToErrors[code]` (with a nil map, respectively a
zero count): in particular exactly `ErrObjectNotFound` for code 8, exactly
`io.EOF` for code 14, and neither sentinel for any other code. -/
theorem status_reply_results (a : AFC) (f : afcFile) (c : Conn) (path b : Bytes)
    (hd : afcOperationRequest) (data rest : Bytes)
    (hup : c.up = true) (hm : hd.Magic.length = 8) (hop : hd.Operation = AfcOperationStatus)
    (hlen : hd.ThisLength = 40 + data.length) (h8 : 8 ≤ data.length)
    (hsz : data.length ≤ maxAlloc) (hinc : c.incoming = hd.encode ++ data ++ rest) :
    (a.Stat c path).1 = .ret (none, errorsToErrors (uintLE (data.take 8))) ∧
    (a.CreateDirectory c path).1 = .ret (errorsToErrors (uintLE (data.take 8))) ∧
    (f.Write c b).1 = .ret (0, errorsToErrors (uintLE (data.take 8))) ∧
    (errorsToErrors (uintLE (data.take 8)) = some .ErrObjectNotFound ↔
      uintLE (data.take 8) = 8) ∧
    (errorsToErrors (uintLE (data.take 8)) = some .EOF ↔ uintLE (data.take 8) = 14) := by
  have key : ∀ p : Bytes,
      afcReceive { up := c.up, written := c.written ++ [p], incoming := c.incoming } =
        (.ret (.status (errorsToErrors (uintLE (data.take 8)))),
          { up := c.up, written := c.written ++ [p], incoming := rest }) :=
    fun p => afcReceive_status _ hd data rest hm hop hlen h8 hsz hinc
  refine ⟨?_, ?_, ?_, (errorsToErrors_sentinels _).1, (errorsToErrors_sentinels _).2⟩
  · simp only [AFC.Stat, Write_up c _ hup, key]
  · simp only [AFC.CreateDirectory, Write_up c _ hup, key]
  · simp only [afcFile.Write, Write_up c _ hup, key]

/-- C7, failing input: `Close` on a handle whose socket works and holds a
Status response with code 8 (and likewise code 14) returns the error of the
`binary.Write` call on the `*bytes.Buffer`; it writes no FileClose packet, leaves
the response unread and returns neither `ErrObjectNotFound` nor `io.EOF`. -/
theorem close_never_reads_status :
    (afcFile.mk 0 7).Close ⟨true, [], statusReply 8⟩ =
      (.ret (some (.other
          "binary.Write: some values are not fixed-sized in type *bytes.Buffer")),
        ⟨1, 7⟩, ⟨true, [], statusReply 8⟩) ∧
    ((afcFile.mk 0 7).Close ⟨true, [], statusReply 14⟩).1 ≠ .ret (some .EOF) ∧
    ((AFC.mk 0).Stat ⟨true, [], statusReply 8⟩ [80]).1 = .ret (none, some .ErrObjectNotFound) ∧
    ((AFC.mk 0).Stat ⟨true, [], statusReply 14⟩ [80]).1 = .ret (none, some .EOF) := by
  refine ⟨by decide, by decide, by decide, by decide⟩

/-- C8, failing input: a Status response carrying the code 24, which is not the
success code, makes `CreateDirectory`, `Stat` and `afcFile.Write` return a nil
error, because `errorsToErrors` has no entry for 24. -/
theorem unknown_status_code_is_nil :
    ((AFC.mk 0).CreateDirectory ⟨true, [], statusReply 24⟩ [80, 83]).1 = .ret none ∧
    ((AFC.mk 0).Stat ⟨true, [], statusReply 24⟩ [80, 83]).1 = .ret (none, none) ∧
    ((afcFile.mk 0 7).Write ⟨true, [], statusReply 24⟩ [1]).1 = .ret (0, none) ∧
    errorsToErrors 24 = none := by
  decide

/-! ### Port encoding -/

theorem portNumber_eq (p : Nat) : portNumber p = p / 256 % 256 + 256 * (p % 256) := by
  simp [portNumber, putUintBE, putUintLE, uintLE]

/-- C9: for every logical port p in 0..65535 the port conversion (write p
big-endian into two bytes, read them little-endian) yields the 16-bit byte swap
(p mod 256) * 256 + (p div 256); the conversion is its own inverse; the control
port 62078 becomes 32498, which is the PortNumber of the Connect request of
`LockdownService`; and the Connect request of `startService` carries the byte
swap of the dynamic port p. -/
theorem port_byte_swap (p : Nat) (device : Device) (hp : p < 65536) :
    portNumber p = (p % 256) * 256 + p / 256 ∧
    portNumber (portNumber p) = p ∧
    portNumber 62078 = 32498 ∧
    (lockdownConnectRequest device).PortNumber = 32498 ∧
    (serviceConnectRequest device (p : Int)).PortNumber = (p % 256) * 256 + p / 256 := by
  have h1 : portNumber p = (p % 256) * 256 + p / 256 := by
    rw [portNumber_eq]; omega
  have e1 : (p % 256 * 256 + p / 256) / 256 = p % 256 := by omega
  have e2 : (p % 256 * 256 + p / 256) % 256 = p / 256 := by omega
  refine ⟨h1, ?_, by decide, by show portNumber 62078 = 32498; decide, ?_⟩
  · rw [h1, portNumber_eq, e1, e2]; omega
  · have : ((p : Int) % 65536).toNat = p := by omega
    simp only [serviceConnectRequest, this, h1]

/-- C9, witness: the dynamic port 49152 (bytes C0 00) becomes 192. -/
theorem port_byte_swap_witness :
    portNumber 49152 = (49152 % 256) * 256 + 49152 / 256 ∧
    portNumber (portNumber 49152) = 49152 ∧
    portNumber 62078 = 32498 ∧
    (lockdownConnectRequest ⟨0, "USB", 3, 0, 0, "serial"⟩).PortNumber = 32498 ∧
    (serviceConnectRequest ⟨0, "USB", 3, 0, 0, "serial"⟩ ((49152 : Nat) : Int)).PortNumber =
      (49152 % 256) * 256 + 49152 / 256 :=
  port_byte_swap 49152 ⟨0, "USB", 3, 0, 0, "serial"⟩ (by decide)

/-- C10, counterexample: the big-endian encoding of 62078 is not the byte pair
0x32 0x7E, and the pair 0x32 0x7E is the big-endian encoding of 12926, which the
port conversion would turn into 32306. -/
theorem control_port_bytes_not_32_7E :
    putUintBE 2 62078 ≠ [0x32, 0x7E] ∧ uintBE [0x32, 0x7E] = 12926 ∧
    putUintBE 2 12926 = [0x32, 0x7E] ∧ portNumber 12926 = 32306 := by
  decide

/-- C10, amended: the port conversion computed by `LockdownService` for the
logical port 62078 yields the two bytes 0xF2 0x7E, the big-endian encoding of
62078, which are carried as the little-endian 16-bit PortNumber value
0x7EF2 = 32498 of the Connect request. -/
theorem control_port_bytes (device : Device) :
    putUintBE 2 62078 = [0xF2, 0x7E] ∧ uintBE [0xF2, 0x7E] = 62078 ∧
    uintLE [0xF2, 0x7E] = 0x7EF2 ∧
    (lockdownConnectRequest device).PortNumber = uintLE (putUintBE 2 62078) ∧
    (lockdownConnectRequest device).PortNumber = 32498 ∧
    putUintLE 2 (lockdownConnectRequest device).PortNumber = [0xF2, 0x7E] := by
  refine ⟨by decide, by decide, by decide, rfl, ?_, ?_⟩
  · show portNumber 62078 = 32498
    decide
  · show putUintLE 2 (portNumber 62078) = [0xF2, 0x7E]
    decide

/-! ### Service spawn with per-service SSL -/

/-- C6, counterexample: the StartService reply has EnableServiceSSL = true and
every later step succeeds.  The spawn fails with the unsupported-SSL error only
after a StopSession request and a multiplexer Connect request were sent; and
when the multiplexer refuses the Connect (reply code 3) the spawn fails with
that error instead. -/
theorem service_ssl_checked_after_connect :
    Lockdown.startService (serviceSSLEnv 0) [] exampleLockdown "com.apple.afc" =
      (.error (.other "daemon requested ssl is unsupported"), exampleLockdown,
        [.readPairRecord (readPairRecordRequestFor exampleDevice),
         .startSession (startSessionRequestFor examplePair),
         .startService (startServiceRequestFor "com.apple.afc"),
         .stopSession (stopSessionRequestFor "S1"),
         .connect (serviceConnectRequest exampleDevice 49152)]) ∧
    (Lockdown.startService (serviceSSLEnv 3) [] exampleLockdown "com.apple.afc").1 =
      .error (.other "lockdownd: connection refused") := by
  constructor <;> rfl

theorem startDaemon_ok (env : Env) (t t3 : List Msg) (service : String) (port : Int)
    (flag : Bool) (h : Lockdown.startDaemon env t service = (.ok (port, flag), t3)) :
    ∃ r, env.startService (t ++ [.startService (startServiceRequestFor service)]) = .reply r ∧
      r.EnableServiceSSL = flag := by
  unfold Lockdown.startDaemon at h
  simp only at h
  split at h
  · simp at h
  · simp at h
  · next resp hresp =>
    simp only [Prod.mk.injEq, Except.ok.injEq] at h
    exact ⟨resp, hresp, h.1.2⟩

theorem startService_ssl_fails (env : Env) (t : List Msg) (l : Lockdown) (service : String)
    (hflag : ∀ t1 r, env.startService t1 = .reply r → r.EnableServiceSSL = true) :
    ∃ e, (Lockdown.startService env t l service).1 = .error e := by
  unfold Lockdown.startService
  rcases ReadPairRecord env t l.dev with ⟨r1 | pair, t1⟩
  · exact ⟨_, rfl⟩
  simp only
  rcases Lockdown.startSession env t1 l pair with ⟨e2 | e2, l2, t2⟩
  swap
  · exact ⟨_, rfl⟩
  simp only
  rcases h3 : Lockdown.startDaemon env t2 service with ⟨e3 | ⟨port, flag⟩, t3⟩
  · exact ⟨_, rfl⟩
  obtain ⟨r, hr, hf⟩ := startDaemon_ok env t2 t3 service port flag h3
  have hflag2 : flag = true := by rw [← hf]; exact hflag _ r hr
  subst hflag2
  simp only
  rcases Lockdown.stopSession env t3 l2 with ⟨e4 | e4, l4, t4⟩
  swap
  · exact ⟨_, rfl⟩
  simp only
  cases env.dial t4 with
  | some e => exact ⟨_, rfl⟩
  | none =>
    simp only
    cases env.connect (t4 ++ [.connect (serviceConnectRequest l4.dev port)]) with
    | writeError e => exact ⟨_, rfl⟩
    | readError e => exact ⟨_, rfl⟩
    | reply resp =>
      simp only
      split_ifs
      · exact ⟨_, rfl⟩
      · exact ⟨_, rfl⟩

theorem startService_ssl_path (env : Env) (t : List Msg) (l : Lockdown) (service : String)
    (pair : PairRecord) (ss : startSessionResponse) (sv : startServiceResponse)
    (st : stopSessionResponse) (cr : connectResponse)
    (hsid : l.sessionID = "")
    (hd1 : env.dial t = none)
    (hrp : env.readPair (t ++ [.readPairRecord (readPairRecordRequestFor l.dev)]) =
      .reply (.ok pair))
    (hss : env.startSession (t ++ [.readPairRecord (readPairRecordRequestFor l.dev)] ++
      [.startSession (startSessionRequestFor pair)]) = .reply ss)
    (hnossl : ss.EnableSessionSSL = false) (hid : ss.SessionID ≠ "")
    (hsv : env.startService (t ++ [.readPairRecord (readPairRecordRequestFor l.dev)] ++
      [.startSession (startSessionRequestFor pair)] ++
      [.startService (startServiceRequestFor service)]) = .reply sv)
    (hflag : sv.EnableServiceSSL = true)
    (hst : env.stopSession (t ++ [.readPairRecord (readPairRecordRequestFor l.dev)] ++
      [.startSession (startSessionRequestFor pair)] ++
      [.startService (startServiceRequestFor service)] ++
      [.stopSession (stopSessionRequestFor ss.SessionID)]) = .reply st)
    (hd2 : env.dial (t ++ [.readPairRecord (readPairRecordRequestFor l.dev)] ++
      [.startSession (startSessionRequestFor pair)] ++
      [.startService (startServiceRequestFor service)] ++
      [.stopSession (stopSessionRequestFor ss.SessionID)]) = none)
    (hc : env.connect (t ++ [.readPairRecord (readPairRecordRequestFor l.dev)] ++
      [.startSession (startSessionRequestFor pair)] ++
      [.startService (startServiceRequestFor service)] ++
      [.stopSession (stopSessionRequestFor ss.SessionID)] ++
      [.connect (serviceConnectRequest l.dev sv.Port)]) = .reply cr)
    (hok : cr.Number = ReplyCodeOK) :
    Lockdown.startService env t l service =
      (.error (.other "daemon requested ssl is unsupported"),
        { tlsConn := l.tlsConn, dev := l.dev, sessionID := "", sslHandshakes := l.sslHandshakes },
        t ++ [.readPairRecord (readPairRecordRequestFor l.dev)] ++
          [.startSession (startSessionRequestFor pair)] ++
          [.startService (startServiceRequestFor service)] ++
          [.stopSession (stopSessionRequestFor ss.SessionID)] ++
          [.connect (serviceConnectRequest l.dev sv.Port)]) := by
  have h1 : ReadPairRecord env t l.dev =
      (.ok pair, t ++ [.readPairRecord (readPairRecordRequestFor l.dev)]) := by
    simp only [ReadPairRecord, hd1, hrp]
  have h2 : Lockdown.startSession env (t ++ [.readPairRecord (readPairRecordRequestFor l.dev)])
      l pair =
      (none, { tlsConn := l.tlsConn, dev := l.dev, sessionID := ss.SessionID,
               sslHandshakes := l.sslHandshakes },
        t ++ [.readPairRecord (readPairRecordRequestFor l.dev)] ++
          [.startSession (startSessionRequestFor pair)]) := by
    simp only [Lockdown.startSession, hsid, ne_eq, not_true_eq_false, if_false, hss, hnossl,
      Bool.false_eq_true]
  have h3 : Lockdown.startDaemon env (t ++ [.readPairRecord (readPairRecordRequestFor l.dev)] ++
      [.startSession (startSessionRequestFor pair)]) service =
      (.ok (sv.Port, true), t ++ [.readPairRecord (readPairRecordRequestFor l.dev)] ++
        [.startSession (startSessionRequestFor pair)] ++
        [.startService (startServiceRequestFor service)]) := by
    simp only [Lockdown.startDaemon, hsv, hflag]
  have h4 : Lockdown.stopSession env (t ++ [.readPairRecord (readPairRecordRequestFor l.dev)] ++
      [.startSession (startSessionRequestFor pair)] ++
      [.startService (startServiceRequestFor service)])
      { tlsConn := l.tlsConn, dev := l.dev, sessionID := ss.SessionID,
        sslHandshakes := l.sslHandshakes } =
      (none, { tlsConn := l.tlsConn, dev := l.dev, sessionID := "",
               sslHandshakes := l.sslHandshakes },
        t ++ [.readPairRecord (readPairRecordRequestFor l.dev)] ++
          [.startSession (startSessionRequestFor pair)] ++
          [.startService (startServiceRequestFor service)] ++
          [.stopSession (stopSessionRequestFor ss.SessionID)]) := by
    simp only [Lockdown.stopSession, hid, if_false, hst]
  simp only [Lockdown.startService, h1, h2, h3, h4, hd2, hc, hok]
  simp

/-- C6, amended: for every service spawn in which the StartService reply has
EnableServiceSSL = true the spawn fails, and it never returns a service stream.
The flag is tested last: when the spawn starts without a session, the session
needs no TLS and every step succeeds, the spawn returns the error "daemon
requested ssl is unsupported" after the StopSession request for the non-empty
session id and the multiplexer Connect request for the byte-swapped dynamic port
have both been sent following the StartService request. -/
theorem spawn_with_service_ssl (env : Env) (t : List Msg) (l : Lockdown) (service : String)
    (hflag : ∀ t1 r, env.startService t1 = .reply r → r.EnableServiceSSL = true) :
    (∃ e, (Lockdown.startService env t l service).1 = .error e) ∧
    (∀ (pair : PairRecord) (ss : startSessionResponse) (sv : startServiceResponse)
      (st : stopSessionResponse) (cr : connectResponse),
      l.sessionID = "" →
      env.dial t = none →
      env.readPair (t ++ [.readPairRecord (readPairRecordRequestFor l.dev)]) =
        .reply (.ok pair) →
      env.startSession (t ++ [.readPairRecord (readPairRecordRequestFor l.dev)] ++
        [.startSession (startSessionRequestFor pair)]) = .reply ss →
      ss.EnableSessionSSL = false → ss.SessionID ≠ "" →
      env.startService (t ++ [.readPairRecord (readPairRecordRequestFor l.dev)] ++
        [.startSession (startSessionRequestFor pair)] ++
        [.startService (startServiceRequestFor service)]) = .reply sv →
      env.stopSession (t ++ [.readPairRecord (readPairRecordRequestFor l.dev)] ++
        [.startSession (startSessionRequestFor pair)] ++
        [.startService (startServiceRequestFor service)] ++
        [.stopSession (stopSessionRequestFor ss.SessionID)]) = .reply st →
      env.dial (t ++ [.readPairRecord (readPairRecordRequestFor l.dev)] ++
        [.startSession (startSessionRequestFor pair)] ++
        [.startService (startServiceRequestFor service)] ++
        [.stopSession (stopSessionRequestFor ss.SessionID)]) = none →
      env.connect (t ++ [.readPairRecord (readPairRecordRequestFor l.dev)] ++
        [.startSession (startSessionRequestFor pair)] ++
        [.startService (startServiceRequestFor service)] ++
        [.stopSession (stopSessionRequestFor ss.SessionID)] ++
        [.connect (serviceConnectRequest l.dev sv.Port)]) = .reply cr →
      cr.Number = ReplyCodeOK →
      Lockdown.startService env t l service =
        (.error (.other "daemon requested ssl is unsupported"),
          { tlsConn := l.tlsConn, dev := l.dev, sessionID := "",
            sslHandshakes := l.sslHandshakes },
          t ++ [.readPairRecord (readPairRecordRequestFor l.dev)] ++
            [.startSession (startSessionRequestFor pair)] ++
            [.startService (startServiceRequestFor service)] ++
            [.stopSession (stopSessionRequestFor ss.SessionID)] ++
            [.connect (serviceConnectRequest l.dev sv.Port)])) :=
  ⟨startService_ssl_fails env t l service hflag,
    fun pair ss sv st cr hsid hd1 hrp hss hnossl hid hsv hst hd2 hc hok =>
      startService_ssl_path env t l service pair ss sv st cr hsid hd1 hrp hss hnossl hid hsv
        (hflag _ sv hsv) hst hd2 hc hok⟩

/-! ### Installation responses -/

theorem uintBE_putUintBE (n v : Nat) : uintBE (putUintBE n v) = v % 256 ^ n := by
  simp [uintBE, putUintBE, uintLE_putUintLE]

theorem ReadFull_length (c c1 : Conn) (n : Nat) (bs : Bytes)
    (h : c.ReadFull n = (.ok bs, c1)) : c1.incoming.length + n = c.incoming.length := by
  unfold Conn.ReadFull at h
  split_ifs at h with h1 h2
  · simp only [Prod.mk.injEq, Except.ok.injEq] at h
    rw [← h.2]
    simp only [List.length_drop]
    omega
  · simp at h
  · simp at h

theorem drainResponses_total (codec : PlistCodec) :
    ∀ (fuel : Nat) (resp : installationProxyInstallResponse) (c : Conn),
      c.incoming.length < fuel → (drainResponses codec fuel resp c).isSome = true := by
  intro fuel
  induction fuel with
  | zero => intro resp c h; omega
  | succ fuel ih =>
    intro resp c h
    unfold drainResponses
    split_ifs
    · rfl
    · rcases h1 : c.ReadFull 4 with ⟨r1, c1⟩
      cases r1 with
      | error e => rfl
      | ok hb =>
        simp only
        rcases h2 : c1.ReadFull (uintBE hb) with ⟨r2, c2⟩
        cases r2 with
        | error e => rfl
        | ok pl =>
          simp only
          cases codec.parseReply pl with
          | error e => rfl
          | ok d =>
            simp only
            split_ifs
            · rfl
            · apply ih
              have := ReadFull_length c c1 4 hb h1
              have := ReadFull_length c1 c2 _ pl h2
              omega

theorem read_frame (c : Conn) (p rest : Bytes) (hp : p.length < 2 ^ 32)
    (h : c.incoming = frame p ++ rest) :
    ∃ hb, c.ReadFull 4 = (.ok hb, { up := c.up, written := c.written, incoming := p ++ rest }) ∧
      uintBE hb = p.length ∧
      Conn.ReadFull { up := c.up, written := c.written, incoming := p ++ rest } p.length =
        (.ok p, { up := c.up, written := c.written, incoming := rest }) := by
  refine ⟨putUintBE 4 p.length, ?_, ?_, ?_⟩
  · have hl : (putUintBE 4 p.length).length = 4 := by simp [putUintBE, putUintLE_length]
    have := ReadFull_append c (putUintBE 4 p.length) (p ++ rest)
      (by rw [h, frame, List.append_assoc])
    rw [hl] at this
    exact this
  · rw [uintBE_putUintBE]
    apply Nat.mod_eq_of_lt
    norm_num at hp ⊢
    exact hp
  · exact ReadFull_append _ p rest rfl

theorem terminal_false (d : InstallReplyDict) (h : d.terminal = false) :
    d.Status ≠ some "Complete" ∧ (d.Error = none ∨ d.Error = some "") := by
  unfold InstallReplyDict.terminal at h
  simp only [Bool.or_eq_false_iff, beq_eq_false_iff_ne, ne_eq, Bool.and_eq_false_imp,
    bne_iff_ne, bne_eq_false_iff_eq] at h
  refine ⟨h.1, ?_⟩
  by_cases hn : d.Error = none
  · exact Or.inl hn
  · exact Or.inr (h.2 hn)

theorem terminal_true (d : InstallReplyDict) (h : d.terminal = true) :
    d.Status = some "Complete" ∨ (∃ e, d.Error = some e ∧ e ≠ "") := by
  unfold InstallReplyDict.terminal at h
  simp only [Bool.or_eq_true, beq_iff_eq, Bool.and_eq_true, bne_iff_ne, ne_eq] at h
  rcases h with h | ⟨h1, h2⟩
  · exact Or.inl h
  · right
    cases hE : d.Error with
    | none => exact absurd hE h1
    | some e => exact ⟨e, rfl, fun he => h2 (by rw [hE, he])⟩

theorem drain_step (codec : PlistCodec) (fuel : Nat) (resp : installationProxyInstallResponse)
    (c : Conn) (p rest : Bytes) (d : InstallReplyDict) (he : resp.Error = "")
    (hp : p.length < 2 ^ 32) (hd : codec.parseReply p = .ok d)
    (h : c.incoming = frame p ++ rest) :
    drainResponses codec (fuel + 1) resp c =
      if (unmarshalInto d resp).Status = "Complete" then
        some (.ok (unmarshalInto d resp), { up := c.up, written := c.written, incoming := rest })
      else drainResponses codec fuel (unmarshalInto d resp)
        { up := c.up, written := c.written, incoming := rest } := by
  obtain ⟨hb, h1, h2, h3⟩ := read_frame c p rest hp h
  rw [drainResponses]
  simp only [he, ne_eq, not_true_eq_false, if_false, h1, h2, h3, hd]

theorem drain_terminal (codec : PlistCodec) (fuel : Nat) (resp : installationProxyInstallResponse)
    (c : Conn) (p rest : Bytes) (d : InstallReplyDict) (he : resp.Error = "")
    (hp : p.length < 2 ^ 32) (hd : codec.parseReply p = .ok d) (ht : d.terminal = true)
    (h : c.incoming = frame p ++ rest) :
    drainResponses codec (fuel + 2) resp c =
      some (.ok (unmarshalInto d resp), { up := c.up, written := c.written, incoming := rest }) := by
  rw [drain_step codec (fuel + 1) resp c p rest d he hp hd h]
  split_ifs with hs
  · rfl
  · rcases terminal_true d ht with h1 | ⟨e, h1, h2⟩
    · exfalso; apply hs; simp [unmarshalInto, h1]
    · rw [drainResponses]
      have : (unmarshalInto d resp).Error ≠ "" := by simp [unmarshalInto, h1, h2]
      simp only [this, ne_eq, not_false_eq_true, if_true]

theorem drain_stream (codec : PlistCodec) (rs : List (Bytes × InstallReplyDict)) :
    ∀ (fuel : Nat) (resp : installationProxyInstallResponse) (c : Conn) (term rest : Bytes)
      (dterm : InstallReplyDict),
      rs.length + 1 < fuel → resp.Error = "" → resp.Status ≠ "Complete" →
      (∀ r ∈ rs, r.1.length < 2 ^ 32 ∧ codec.parseReply r.1 = .ok r.2 ∧ r.2.terminal = false) →
      term.length < 2 ^ 32 → codec.parseReply term = .ok dterm → dterm.terminal = true →
      c.incoming = frames (rs.map Prod.fst) ++ (frame term ++ rest) →
      drainResponses codec fuel resp c =
        some (.ok (unmarshalInto dterm (unmarshalAll (rs.map Prod.snd) resp)),
          { up := c.up, written := c.written, incoming := rest }) := by
  induction rs with
  | nil =>
    intro fuel resp c term rest dterm hf he _ _ hp hd ht h
    obtain ⟨f, rfl⟩ : ∃ f, fuel = f + 2 := ⟨fuel - 2, by simp at hf; omega⟩
    simp only [List.map_nil, frames, List.nil_append] at h
    simpa [unmarshalAll] using drain_terminal codec f resp c term rest dterm he hp hd ht h
  | cons r rs ih =>
    intro fuel resp c term rest dterm hf he hs hall hp hd ht h
    obtain ⟨f, rfl⟩ : ∃ f, fuel = f + 1 := ⟨fuel - 1, by omega⟩
    have hr := hall r (List.mem_cons_self _ _)
    obtain ⟨hs1, he1⟩ := terminal_false r.2 hr.2.2
    simp only [List.map_cons, frames, List.append_assoc] at h
    rw [drain_step codec f resp c r.1 _ r.2 he hr.1 hr.2.1 h]
    have hE : (unmarshalInto r.2 resp).Error = "" := by
      rcases he1 with h0 | h0 <;> simp [unmarshalInto, h0, he]
    have hS : (unmarshalInto r.2 resp).Status ≠ "Complete" := by
      cases hst : r.2.Status with
      | none => simpa [unmarshalInto, hst] using hs
      | some v =>
        simp only [unmarshalInto, hst, Option.getD_some]
        intro hv
        exact hs1 (by rw [hst, hv])
    rw [if_neg hS]
    rw [ih f (unmarshalInto r.2 resp) _ term rest dterm (by simp at hf; omega) hE hS
      (fun r' hr' => hall r' (List.mem_cons_of_mem _ hr')) hp hd ht rfl]
    simp [unmarshalAll]

theorem frames_length (ps : List Bytes) : 4 * ps.length ≤ (frames ps).length := by
  induction ps with
  | nil => simp [frames]
  | cons p ps ih =>
    simp only [frames, frame, List.length_append, List.length_cons, putUintBE,
      List.length_reverse, putUintLE_length]
    omega

theorem drain_on_stream (codec : PlistCodec) (c : Conn) (rs : List (Bytes × InstallReplyDict))
    (term rest : Bytes) (dterm : InstallReplyDict)
    (hall : ∀ r ∈ rs, r.1.length < 2 ^ 32 ∧ codec.parseReply r.1 = .ok r.2 ∧
      r.2.terminal = false)
    (hp : term.length < 2 ^ 32) (hd : codec.parseReply term = .ok dterm)
    (ht : dterm.terminal = true)
    (hinc : c.incoming = frames (rs.map Prod.fst) ++ (frame term ++ rest)) :
    drainResponses codec (c.incoming.length + 1) ⟨"", "", ""⟩ c =
      some (.ok (unmarshalInto dterm (unmarshalAll (rs.map Prod.snd) ⟨"", "", ""⟩)),
        { up := c.up, written := c.written, incoming := rest }) := by
  apply drain_stream codec rs _ _ c term rest dterm _ rfl (by decide) hall hp hd ht hinc
  have h1 := frames_length (rs.map Prod.fst)
  have h2 : 4 ≤ (frame term).length := by
    simp [frame, putUintBE, putUintLE_length]
  rw [hinc]
  simp only [List.length_append, List.length_map] at h1 ⊢
  omega

theorem install_on_stream (codec : PlistCodec) (c : Conn) (bundleID path : String)
    (pI : Bytes) (rs : List (Bytes × InstallReplyDict)) (term rest : Bytes)
    (dterm : InstallReplyDict) (hup : c.up = true)
    (hm : codec.marshalInstall (installRequest bundleID path) = .ok pI)
    (hall : ∀ r ∈ rs, r.1.length < 2 ^ 32 ∧ codec.parseReply r.1 = .ok r.2 ∧
      r.2.terminal = false)
    (hp : term.length < 2 ^ 32) (hd : codec.parseReply term = .ok dterm)
    (ht : dterm.terminal = true)
    (hinc : c.incoming = frames (rs.map Prod.fst) ++ (frame term ++ rest)) :
    InstallationProxy.InstallApplication codec c bundleID path =
      (responseError "install"
          (unmarshalInto dterm (unmarshalAll (rs.map Prod.snd) ⟨"", "", ""⟩)),
        { up := c.up, written := c.written ++ [lengthPrefixed pI], incoming := rest }) := by
  have := drain_on_stream codec
    { up := c.up, written := c.written ++ [lengthPrefixed pI], incoming := c.incoming }
    rs term rest dterm hall hp hd ht hinc
  simp only at this
  simp only [InstallationProxy.InstallApplication, hm, Write_up c _ hup, this]

theorem uninstall_on_stream (codec : PlistCodec) (c : Conn) (bundleID : String)
    (pU : Bytes) (rs : List (Bytes × InstallReplyDict)) (term rest : Bytes)
    (dterm : InstallReplyDict) (hup : c.up = true)
    (hm : codec.marshalUninstall (uninstallRequest bundleID) = .ok pU)
    (hall : ∀ r ∈ rs, r.1.length < 2 ^ 32 ∧ codec.parseReply r.1 = .ok r.2 ∧
      r.2.terminal = false)
    (hp : term.length < 2 ^ 32) (hd : codec.parseReply term = .ok dterm)
    (ht : dterm.terminal = true)
    (hinc : c.incoming = frames (rs.map Prod.fst) ++ (frame term ++ rest)) :
    InstallationProxy.UninstallApplication codec c bundleID =
      (responseError "uninstall"
          (unmarshalInto dterm (unmarshalAll (rs.map Prod.snd) ⟨"", "", ""⟩)),
        { up := c.up, written := c.written ++ [lengthPrefixed pU], incoming := rest }) := by
  have := drain_on_stream codec
    { up := c.up, written := c.written ++ [lengthPrefixed pU], incoming := c.incoming }
    rs term rest dterm hall hp hd ht hinc
  simp only at this
  simp only [InstallationProxy.UninstallApplication, hm, Write_up c _ hup, this]

theorem unmarshalAll_nonterminal (rs : List (Bytes × InstallReplyDict)) :
    ∀ (resp : installationProxyInstallResponse), resp.Error = "" →
      (∀ r ∈ rs, r.2.terminal = false) →
      (unmarshalAll (rs.map Prod.snd) resp).Error = "" := by
  induction rs with
  | nil => intro resp he _; simpa [unmarshalAll] using he
  | cons r rs ih =>
    intro resp he hall
    have h0 := (terminal_false r.2 (hall r (List.mem_cons_self _ _))).2
    have : (unmarshalInto r.2 resp).Error = "" := by
      rcases h0 with h0 | h0 <;> simp [unmarshalInto, h0, he]
    simpa [unmarshalAll] using
      ih (unmarshalInto r.2 resp) this (fun r' hr' => hall r' (List.mem_cons_of_mem _ hr'))

theorem final_error (rs : List (Bytes × InstallReplyDict)) (dterm : InstallReplyDict)
    (hall : ∀ r ∈ rs, r.2.terminal = false) :
    (unmarshalInto dterm (unmarshalAll (rs.map Prod.snd) ⟨"", "", ""⟩)).Error =
      dterm.Error.getD "" := by
  have := unmarshalAll_nonterminal rs ⟨"", "", ""⟩ rfl hall
  simp [unmarshalInto, this]

theorem responseError_none (verb : String) (resp : installationProxyInstallResponse) :
    responseError verb resp = none ↔ resp.Error = "" := by
  unfold responseError
  split_ifs with h
  · simp only [ne_eq] at h
    simp [h]
  · simp only [ne_eq, not_not] at h
    simp [h]

set_option maxRecDepth 100000 in
/-- C4, counterexample: a progress notification followed by a failure report
without a `Status` key.  The failure text names the status "Installing" of the
earlier, non-terminal response; on the failure report alone it names the empty
status. -/
theorem earlier_response_changes_outcome :
    (InstallationProxy.InstallApplication exampleCodec
        ⟨true, [], frames [progressPayload, failurePayload]⟩ "com.example.Hello"
        "PublicStaging/com.example.Hello.ipa").1 =
      some (.other "install: Installing (err: APIInternalError, desc: Could not install)") ∧
    (InstallationProxy.InstallApplication exampleCodec
        ⟨true, [], frames [failurePayload]⟩ "com.example.Hello"
        "PublicStaging/com.example.Hello.ipa").1 =
      some (.other "install:  (err: APIInternalError, desc: Could not install)") ∧
    (InstallationProxy.UninstallApplication exampleCodec
        ⟨true, [], frames [progressPayload, failurePayload]⟩ "com.example.Hello").1 =
      some (.other "uninstall: Installing (err: APIInternalError, desc: Could not install)") := by
  refine ⟨by decide, by decide, by decide⟩

theorem message_parts (verb S E D : String) :
    occursIn S (verb ++ ": " ++ S ++ " (err: " ++ E ++ ", desc: " ++ D ++ ")") ∧
    occursIn E (verb ++ ": " ++ S ++ " (err: " ++ E ++ ", desc: " ++ D ++ ")") ∧
    occursIn D (verb ++ ": " ++ S ++ " (err: " ++ E ++ ", desc: " ++ D ++ ")") := by
  unfold occursIn
  refine ⟨⟨(verb ++ ": ").data, (" (err: " ++ E ++ ", desc: " ++ D ++ ")").data, ?_⟩,
    ⟨(verb ++ ": " ++ S ++ " (err: ").data, (", desc: " ++ D ++ ")").data, ?_⟩,
    ⟨(verb ++ ": " ++ S ++ " (err: " ++ E ++ ", desc: ").data, (")" : String).data, ?_⟩⟩ <;>
  simp only [String.data_append, List.append_assoc]

theorem occursIn_getD (o : Option String) (prev msg : String)
    (h : occursIn (o.getD prev) msg) : occursIn (o.getD "") msg := by
  cases o with
  | some v => exact h
  | none => exact List.nil_infix

theorem responseError_parts (verb : String) (dterm : InstallReplyDict)
    (prev : installationProxyInstallResponse) (err : GoError)
    (h : responseError verb (unmarshalInto dterm prev) = some err) :
    occursIn (dterm.Status.getD "") err.Error ∧ occursIn (dterm.Error.getD "") err.Error ∧
    occursIn (dterm.ErrorDescription.getD "") err.Error := by
  unfold responseError at h
  split_ifs at h
  simp only [Option.some.injEq] at h
  subst h
  have := message_parts verb (unmarshalInto dterm prev).Status (unmarshalInto dterm prev).Error
    (unmarshalInto dterm prev).ErrorDescription
  exact ⟨occursIn_getD _ prev.Status _ this.1, occursIn_getD _ prev.Error _ this.2.1,
    occursIn_getD _ prev.ErrorDescription _ this.2.2⟩

theorem unmarshalInto_full (dterm : InstallReplyDict) (x y : installationProxyInstallResponse)
    (hs : dterm.Status ≠ none) (hd : dterm.ErrorDescription ≠ none) (he : x.Error = y.Error) :
    unmarshalInto dterm x = unmarshalInto dterm y := by
  rcases dterm with ⟨s, e, d⟩
  cases s with
  | none => exact absurd rfl hs
  | some s =>
    cases d with
    | none => exact absurd rfl hd
    | some d => simp [unmarshalInto, he]

/-- C4, amended: for every stream of well-formed framed responses whose first
terminal response (Status = "Complete" or non-empty Error) is preceded by
non-terminal ones, `InstallApplication` and `UninstallApplication` read the
responses in order up to and including the terminal one and leave everything
after it unread; the earlier responses never change whether the call fails, and
they do not change the result at all when the terminal response carries its own
Status and ErrorDescription keys. -/
theorem responses_read_until_terminal (codec : PlistCodec) (c : Conn)
    (bundleID path : String) (pI pU : Bytes) (rs : List (Bytes × InstallReplyDict))
    (term rest : Bytes) (dterm : InstallReplyDict) (hup : c.up = true)
    (hmI : codec.marshalInstall (installRequest bundleID path) = .ok pI)
    (hmU : codec.marshalUninstall (uninstallRequest bundleID) = .ok pU)
    (hall : ∀ r ∈ rs, r.1.length < 2 ^ 32 ∧ codec.parseReply r.1 = .ok r.2 ∧
      r.2.terminal = false)
    (hp : term.length < 2 ^ 32) (hd : codec.parseReply term = .ok dterm)
    (ht : dterm.terminal = true)
    (hinc : c.incoming = frames (rs.map Prod.fst) ++ (frame term ++ rest)) :
    (InstallationProxy.InstallApplication codec c bundleID path).2.incoming = rest ∧
    (InstallationProxy.UninstallApplication codec c bundleID).2.incoming = rest ∧
    ((InstallationProxy.InstallApplication codec c bundleID path).1 = none ↔
      dterm.Error.getD "" = "") ∧
    ((InstallationProxy.UninstallApplication codec c bundleID).1 = none ↔
      dterm.Error.getD "" = "") ∧
    (dterm.Status ≠ none → dterm.ErrorDescription ≠ none →
      (InstallationProxy.InstallApplication codec c bundleID path).1 =
        (InstallationProxy.InstallApplication codec
          { up := c.up, written := c.written, incoming := frame term ++ rest }
          bundleID path).1 ∧
      (InstallationProxy.UninstallApplication codec c bundleID).1 =
        (InstallationProxy.UninstallApplication codec
          { up := c.up, written := c.written, incoming := frame term ++ rest } bundleID).1) := by
  have hnt : ∀ r ∈ rs, r.2.terminal = false := fun r hr => (hall r hr).2.2
  have hI := install_on_stream codec c bundleID path pI rs term rest dterm hup hmI hall hp hd
    ht hinc
  have hU := uninstall_on_stream codec c bundleID pU rs term rest dterm hup hmU hall hp hd ht
    hinc
  have hI0 := install_on_stream codec
    { up := c.up, written := c.written, incoming := frame term ++ rest } bundleID path pI []
    term rest dterm hup hmI (by simp) hp hd ht (by simp [frames])
  have hU0 := uninstall_on_stream codec
    { up := c.up, written := c.written, incoming := frame term ++ rest } bundleID pU []
    term rest dterm hup hmU (by simp) hp hd ht (by simp [frames])
  rw [hI, hU, hI0, hU0]
  refine ⟨rfl, rfl, ?_, ?_, ?_⟩
  · rw [responseError_none, final_error rs dterm hnt]
  · rw [responseError_none, final_error rs dterm hnt]
  · intro hs hde
    have := unmarshalInto_full dterm (unmarshalAll (rs.map Prod.snd) ⟨"", "", ""⟩)
      (unmarshalAll (([] : List (Bytes × InstallReplyDict)).map Prod.snd) ⟨"", "", ""⟩) hs hde
      (by rw [unmarshalAll_nonterminal rs _ rfl hnt]; rfl)
    simp only [this, and_self]

/-- C5: on a well-formed stream with a terminal response, `InstallApplication`
returns an error exactly when the terminal response has a non-empty Error; the
text of that error contains the Status, Error and ErrorDescription strings of the
terminal response; it returns nil when the terminal response has
Status = "Complete" and an empty Error; and for Status = "Error",
Error = "APIInternalError", ErrorDescription = "Could not install" the text is
"install: Error (err: APIInternalError, desc: Could not install)". -/
theorem install_error_report (codec : PlistCodec) (c : Conn) (bundleID path : String)
    (pI : Bytes) (rs : List (Bytes × InstallReplyDict)) (term rest : Bytes)
    (dterm : InstallReplyDict) (hup : c.up = true)
    (hmI : codec.marshalInstall (installRequest bundleID path) = .ok pI)
    (hall : ∀ r ∈ rs, r.1.length < 2 ^ 32 ∧ codec.parseReply r.1 = .ok r.2 ∧
      r.2.terminal = false)
    (hp : term.length < 2 ^ 32) (hd : codec.parseReply term = .ok dterm)
    (ht : dterm.terminal = true)
    (hinc : c.incoming = frames (rs.map Prod.fst) ++ (frame term ++ rest)) :
    ((InstallationProxy.InstallApplication codec c bundleID path).1 ≠ none ↔
      ∃ e, dterm.Error = some e ∧ e ≠ "") ∧
    (∀ err, (InstallationProxy.InstallApplication codec c bundleID path).1 = some err →
      occursIn (dterm.Status.getD "") err.Error ∧ occursIn (dterm.Error.getD "") err.Error ∧
      occursIn (dterm.ErrorDescription.getD "") err.Error) ∧
    (dterm.Status = some "Complete" → dterm.Error.getD "" = "" →
      (InstallationProxy.InstallApplication codec c bundleID path).1 = none) ∧
    (dterm = ⟨some "Error", some "APIInternalError", some "Could not install"⟩ →
      (InstallationProxy.InstallApplication codec c bundleID path).1 =
        some (.other "install: Error (err: APIInternalError, desc: Could not install)")) := by
  have hnt : ∀ r ∈ rs, r.2.terminal = false := fun r hr => (hall r hr).2.2
  rw [install_on_stream codec c bundleID path pI rs term rest dterm hup hmI hall hp hd ht hinc]
  refine ⟨?_, ?_, ?_, ?_⟩
  · rw [ne_eq, responseError_none, final_error rs dterm hnt]
    cases dterm.Error with
    | none => simp
    | some e => simp
  · intro err h
    exact responseError_parts "install" dterm _ err h
  · intro _ he
    rw [responseError_none, final_error rs dterm hnt]
    exact he
  · intro hdt
    subst hdt
    rfl

set_option maxRecDepth 100000 in
/-- C4, witness: a progress notification, the completion report, and four
further bytes that stay unread. -/
theorem responses_read_until_terminal_witness :
    (InstallationProxy.InstallApplication exampleCodec
      ⟨true, [], frames [progressPayload] ++ (frame completePayload ++ [0, 0, 0, 9])⟩
      "com.example.Hello" "PublicStaging/com.example.Hello.ipa").2.incoming = [0, 0, 0, 9] ∧
    (InstallationProxy.UninstallApplication exampleCodec
      ⟨true, [], frames [progressPayload] ++ (frame completePayload ++ [0, 0, 0, 9])⟩
      "com.example.Hello").2.incoming = [0, 0, 0, 9] :=
  let h := responses_read_until_terminal exampleCodec
    ⟨true, [], frames [progressPayload] ++ (frame completePayload ++ [0, 0, 0, 9])⟩
    "com.example.Hello" "PublicStaging/com.example.Hello.ipa" (ascii "Install")
    (ascii "Uninstall") [(progressPayload, ⟨some "Installing", none, none⟩)] completePayload
    [0, 0, 0, 9] ⟨some "Complete", none, none⟩ rfl rfl rfl
    (by
      intro r hr
      rw [List.mem_singleton] at hr
      subst hr
      exact ⟨by decide, rfl, rfl⟩)
    (by decide) rfl rfl rfl
  ⟨h.1, h.2.1⟩

set_option maxRecDepth 100000 in
/-- C5, witness: a progress notification followed by the failure report with
Status = "Error", Error = "APIInternalError" and
ErrorDescription = "Could not install". -/
theorem install_error_report_witness :
    (InstallationProxy.InstallApplication exampleCodec
      ⟨true, [], frames [progressPayload] ++ (frame errorPayload ++ [])⟩
      "com.example.Hello" "PublicStaging/com.example.Hello.ipa").1 =
        some (.other "install: Error (err: APIInternalError, desc: Could not install)") :=
  (install_error_report exampleCodec
    ⟨true, [], frames [progressPayload] ++ (frame errorPayload ++ [])⟩
    "com.example.Hello" "PublicStaging/com.example.Hello.ipa" (ascii "Install")
    [(progressPayload, ⟨some "Installing", none, none⟩)] errorPayload []
    ⟨some "Error", some "APIInternalError", some "Could not install"⟩ rfl rfl
    (by
      intro r hr
      rw [List.mem_singleton] at hr
      subst hr
      exact ⟨by decide, rfl, rfl⟩)
    (by decide) rfl rfl rfl).2.2.2 rfl

/-- C6, witness: the environment in which every step succeeds and the
StartService reply asks for per-service SSL. -/
theorem spawn_with_service_ssl_witness :
    (∃ e, (Lockdown.startService (serviceSSLEnv 0) [] exampleLockdown "com.apple.afc").1 =
      .error e) ∧
    (Lockdown.startService (serviceSSLEnv 0) [] exampleLockdown "com.apple.afc").2.2 =
      [.readPairRecord (readPairRecordRequestFor exampleDevice),
       .startSession (startSessionRequestFor examplePair),
       .startService (startServiceRequestFor "com.apple.afc"),
       .stopSession (stopSessionRequestFor "S1"),
       .connect (serviceConnectRequest exampleDevice 49152)] :=
  let h := spawn_with_service_ssl (serviceSSLEnv 0) [] exampleLockdown "com.apple.afc"
    (by
      intro t1 r hr
      simp only [serviceSSLEnv, Exchange.reply.injEq] at hr
      rw [← hr])
  ⟨h.1, congrArg (fun x => x.2.2)
    (h.2 examplePair
      { Request := "StartSession", Error := "", EnableSessionSSL := false, SessionID := "S1" }
      { Request := "StartService", Error := "", EnableServiceSSL := true, Port := 49152,
        Service := "com.apple.afc" }
      { Request := "StopSession", Error := "" } { MessageType := "Result", Number := 0 }
      rfl rfl rfl rfl rfl (by decide) rfl rfl rfl rfl rfl)⟩

/-! ### File handles -/

theorem afcReadHead_raw (c : Conn) (hb data rest : Bytes) (h40 : hb.length = 40)
    (hlen : (afcOperationRequest.decode hb).ThisLength = 40 + data.length)
    (hsz : data.length ≤ maxAlloc) (hinc : c.incoming = hb ++ data ++ rest) :
    afcReadHead c =
      (.ret (.ok (afcOperationRequest.decode hb, data)),
        { up := c.up, written := c.written, incoming := rest }) := by
  have hr := ReadFull_append c hb (data ++ rest) (by rw [hinc, List.append_assoc])
  rw [h40] at hr
  have hn : ((afcOperationRequest.decode hb).ThisLength + 2 ^ 64 - 40) % 2 ^ 64 =
      data.length := by
    rw [hlen]
    unfold maxAlloc at hsz
    omega
  unfold afcReadHead
  rw [hr]
  simp only [hn]
  rw [if_neg (by omega)]
  rw [ReadFull_append { up := c.up, written := c.written, incoming := data ++ rest } data rest rfl]

/-- C11: for every response to a FileOpen request whose data section has at
least 8 bytes, `AFC.open` succeeds exactly when the operation code of the response
is FileOpenResult (0x0E), and then the handle is the little-endian 64-bit value of
the first 8 data bytes (with a handle counter of 0); for every other operation
code, a Status response with the success code included, it returns no handle and
a non-nil error. -/
theorem open_result (a : AFC) (c : Conn) (name : Bytes) (mode : Nat) (hb data rest : Bytes)
    (hup : c.up = true) (h40 : hb.length = 40)
    (hlen : (afcOperationRequest.decode hb).ThisLength = 40 + data.length)
    (h8 : 8 ≤ data.length) (hsz : data.length ≤ maxAlloc)
    (hinc : c.incoming = hb ++ data ++ rest) :
    ((afcOperationRequest.decode hb).Operation = AfcOperationFileOpenResult →
      (a.open c name mode).1 = .ret (some ⟨0, uintLE (data.take 8)⟩, none)) ∧
    ((afcOperationRequest.decode hb).Operation ≠ AfcOperationFileOpenResult →
      ∃ e, (a.open c name mode).1 = .ret (none, some e)) ∧
    ((∃ f, (a.open c name mode).1 = .ret (some f, none)) ↔
      (afcOperationRequest.decode hb).Operation = AfcOperationFileOpenResult) := by
  have hr := afcReadHead_raw
    { up := c.up, written := c.written ++ [openPacket ((a.packetNum + 1) % 2 ^ 64) name mode],
      incoming := c.incoming } hb data rest h40 hlen hsz hinc
  have hu : Uint64LE data = .ret (uintLE (data.take 8)) := by
    unfold Uint64LE
    rw [if_neg (by omega)]
  by_cases hop : (afcOperationRequest.decode hb).Operation = AfcOperationFileOpenResult
  · have he : (a.open c name mode).1 = .ret (some ⟨0, uintLE (data.take 8)⟩, none) := by
      simp only [AFC.open, Write_up c _ hup, hr, hu, hop, ne_eq, not_true_eq_false, if_false]
    exact ⟨fun _ => he, fun h => absurd hop h, fun _ => hop, fun _ => ⟨_, he⟩⟩
  · have he : ∃ e, (a.open c name mode).1 = .ret (none, some e) := by
      simp only [AFC.open, Write_up c _ hup, hr, hu, hop, ne_eq, not_false_eq_true, if_true]
      exact ⟨_, rfl⟩
    refine ⟨fun h => absurd h hop, fun _ => he, fun h => ?_, fun h => absurd h hop⟩
    obtain ⟨f, hf⟩ := h
    obtain ⟨e, he⟩ := he
    rw [he] at hf
    simp at hf

/-- C11, witness: the FileOpenResult response carrying handle 7. -/
theorem open_result_witness :
    ((AFC.mk 0).open ⟨true, [], openResultReply⟩ [97] 4).1 = .ret (some ⟨0, 7⟩, none) :=
  (open_result ⟨0⟩ ⟨true, [], openResultReply⟩ [97] 4
    (afcOperationRequest.encode
      { Magic := afcMagicBytes, EntireLength := 48, ThisLength := 48, PacketNum := 1,
        Operation := AfcOperationFileOpenResult })
    (putUintLE 8 7) [] rfl (by decide) (by decide) (by decide) (by decide)
    (by decide)).1 (by decide)

theorem Close_effect (f : afcFile) (c : Conn) :
    f.Close c =
      (.ret (some (.other
          "binary.Write: some values are not fixed-sized in type *bytes.Buffer")),
        ⟨(f.packetNum + 1) % 2 ^ 64, f.fd⟩, c) := by
  rfl

/-- C12, failing input: `WriteFile` on a fresh client whose open is answered by
FileOpenResult with handle 7 and whose FileWrite is answered by the success
status.  The call returns nil and exactly two packets reach the stream, FileOpen
and FileWrite; no FileClose packet (0x14) is written, neither here nor by any
other `Close` call, which leaves every socket untouched. -/
theorem writeFile_sends_no_close :
    ((AFC.mk 0).WriteFile ⟨true, [], openResultReply ++ statusReply 0⟩ [97] [1, 2, 3]
        AfcFileModeWr).1 = .ret none ∧
    packetOps ((AFC.mk 0).WriteFile ⟨true, [], openResultReply ++ statusReply 0⟩ [97] [1, 2, 3]
        AfcFileModeWr).2.2.written = [AfcOperationFileOpen, AfcOperationFileWrite] ∧
    (∀ (f : afcFile) (c : Conn), (f.Close c).2.2 = c ∧ (f.Close c).1 ≠ .ret none) := by
  refine ⟨by decide, by decide, fun f c => ?_⟩
  rw [Close_effect]
  exact ⟨rfl, by simp⟩

/-- C13, counterexample: after `Close` on the handle 7, a `Write` on the same
handle is not rejected: it sends a FileWrite packet carrying the handle and, the
device answering with the success status, returns a nil error. -/
theorem write_after_close_is_sent :
    ((afcFile.mk 0 7).Close ⟨true, [], statusReply 0⟩).2 =
      (⟨1, 7⟩, ⟨true, [], statusReply 0⟩) ∧
    ((afcFile.mk 1 7).Write ⟨true, [], statusReply 0⟩ [1]).1 = .ret (0, none) ∧
    ((afcFile.mk 1 7).Write ⟨true, [], statusReply 0⟩ [1]).2.2.written =
      [writePacket 2 7 [1]] ∧
    packetOps ((afcFile.mk 1 7).Write ⟨true, [], statusReply 0⟩ [1]).2.2.written =
      [AfcOperationFileWrite] := by
  refine ⟨by decide, by decide, by decide, by decide⟩

theorem writePacket_framed (pn fd : Nat) (b : Bytes) (hb : b.length < 2 ^ 63) :
    afcFramed (writePacket pn fd b) (putUintLE 8 fd) b := by
  have e8 : ∀ v, (putUintLE 8 v).length = 8 := fun v => putUintLE_length 8 v
  have := afcFramed_of_encode
    { Magic := afcMagicBytes,
      EntireLength := (40 + (putUintLE 8 fd).length % 2 ^ 64 + b.length % 2 ^ 64) % 2 ^ 64,
      ThisLength := (40 + (putUintLE 8 fd).length % 2 ^ 64) % 2 ^ 64,
      PacketNum := pn, Operation := AfcOperationFileWrite }
    (putUintLE 8 fd) b rfl
    (by simp only [e8]; norm_num)
    (by simp only [e8]; rw [Nat.mod_eq_of_lt (show b.length < 2 ^ 64 by omega)]; norm_num; omega)
    (by simp only [e8]; omega)
  simpa [writePacket] using this

theorem ReadFull_congr (c d : Conn) (n : Nat) (h : c.incoming = d.incoming) :
    (c.ReadFull n).1 = (d.ReadFull n).1 ∧
      (c.ReadFull n).2.incoming = (d.ReadFull n).2.incoming := by
  unfold Conn.ReadFull
  rw [h]
  split_ifs <;> simp [h]

theorem afcReadHead_congr (c d : Conn) (h : c.incoming = d.incoming) :
    (afcReadHead c).1 = (afcReadHead d).1 ∧
      (afcReadHead c).2.incoming = (afcReadHead d).2.incoming := by
  unfold afcReadHead
  have h1 := ReadFull_congr c d 40 h
  rcases hc : c.ReadFull 40 with ⟨r1, c1⟩
  rcases hd : d.ReadFull 40 with ⟨r2, d1⟩
  rw [hc, hd] at h1
  simp only at h1
  obtain ⟨h1a, h1b⟩ := h1
  subst h1a
  cases r1 with
  | error e => exact ⟨rfl, h1b⟩
  | ok hb =>
    simp only
    split_ifs
    · exact ⟨rfl, h1b⟩
    · have h2 := ReadFull_congr c1 d1
        (((afcOperationRequest.decode hb).ThisLength + 2 ^ 64 - 40) % 2 ^ 64) h1b
      rcases hc2 : c1.ReadFull
        (((afcOperationRequest.decode hb).ThisLength + 2 ^ 64 - 40) % 2 ^ 64) with ⟨r3, c2⟩
      rcases hd2 : d1.ReadFull
        (((afcOperationRequest.decode hb).ThisLength + 2 ^ 64 - 40) % 2 ^ 64) with ⟨r4, d2⟩
      rw [hc2, hd2] at h2
      simp only at h2
      obtain ⟨h2a, h2b⟩ := h2
      subst h2a
      cases r3 <;> exact ⟨rfl, h2b⟩

theorem afcReceive_congr (c d : Conn) (h : c.incoming = d.incoming) :
    (afcReceive c).1 = (afcReceive d).1 := by
  unfold afcReceive
  have h1 := afcReadHead_congr c d h
  rcases hc : afcReadHead c with ⟨r1, c1⟩
  rcases hd : afcReadHead d with ⟨r2, d1⟩
  rw [hc, hd] at h1
  simp only at h1
  obtain ⟨h1a, h1b⟩ := h1
  subst h1a
  rcases r1 with (e | ⟨hdr, dat⟩) | r
  · rfl
  · simp only
    split_ifs
    · cases Uint64LE dat <;> rfl
    · rfl
    · have h2 := ReadFull_congr c1 d1
        ((hdr.EntireLength + 2 ^ 64 - hdr.ThisLength) % 2 ^ 64) h1b
      rcases hc2 : c1.ReadFull ((hdr.EntireLength + 2 ^ 64 - hdr.ThisLength) % 2 ^ 64)
        with ⟨r3, c2⟩
      rcases hd2 : d1.ReadFull ((hdr.EntireLength + 2 ^ 64 - hdr.ThisLength) % 2 ^ 64)
        with ⟨r4, d2⟩
      rw [hc2, hd2] at h2
      simp only at h2
      obtain ⟨h2a, _⟩ := h2
      subst h2a
      cases r3 <;> rfl
  · rfl

theorem fileWrite_result_congr (f g : afcFile) (c : Conn) (b : Bytes) (hup : c.up = true) :
    (f.Write c b).1 = (g.Write c b).1 := by
  simp only [afcFile.Write, Write_up c _ hup]
  have h := afcReceive_congr
    { up := c.up, written := c.written ++ [writePacket ((f.packetNum + 1) % 2 ^ 64) f.fd b],
      incoming := c.incoming }
    { up := c.up, written := c.written ++ [writePacket ((g.packetNum + 1) % 2 ^ 64) g.fd b],
      incoming := c.incoming } rfl
  revert h
  rcases afcReceive
    { up := c.up, written := c.written ++ [writePacket ((f.packetNum + 1) % 2 ^ 64) f.fd b],
      incoming := c.incoming } with ⟨r1, c1⟩
  rcases afcReceive
    { up := c.up, written := c.written ++ [writePacket ((g.packetNum + 1) % 2 ^ 64) g.fd b],
      incoming := c.incoming } with ⟨r2, c2⟩
  intro h
  simp only at h
  subst h
  rcases r1 with r | r
  · cases r <;> rfl
  · rfl

theorem Close_state (f : afcFile) (c : Conn) :
    (f.Close c).2.1 = ⟨(f.packetNum + 1) % 2 ^ 64, f.fd⟩ ∧ (f.Close c).2.2.up = c.up := by
  unfold afcFile.Close
  simp only
  rcases binaryWriteBuffer (putUintLE 8 f.fd) with e | tail
  · exact ⟨rfl, rfl⟩
  · simp only
    rcases Bool.eq_false_or_eq_true c.up with hup | hup
    · simp only [Write_up c _ hup]
      generalize hc1 : ({ up := c.up, written := c.written ++ _, incoming := c.incoming } : Conn)
        = c1
      have hu1 : c1.up = c.up := by rw [← hc1]
      have h := (afcReceive_written c1).2
      revert h
      rcases afcReceive c1 with ⟨r | r, c2⟩
      · cases r <;> exact fun h => ⟨rfl, h.trans hu1⟩
      · exact fun h => ⟨rfl, h.trans hu1⟩
    · simp [Conn.Write, hup]

/-- C13, amended: a file handle keeps no record of `Close`, so a `Write` that
follows `Close` on the same handle is not rejected locally.  For every handle
with descriptor H on a working socket, after `Close` the handle still carries H
and the socket still works, and the later `Write` sends one more packet: a
FileWrite packet whose data section is the 8-byte little-endian H and whose
payload is the bytes written.  Its result does not depend on the handle at all:
it is the result that `Write` on any handle `g`, closed or not, gives on that
socket, that is, it is decided by the response the device sends. -/
theorem write_after_close (f : afcFile) (c : Conn) (b : Bytes) (hup : c.up = true)
    (hb : b.length < 2 ^ 63) :
    (f.Close c).2.1.fd = f.fd ∧ (f.Close c).2.2.up = true ∧
    (∃ p, ((f.Close c).2.1.Write (f.Close c).2.2 b).2.2.written =
        (f.Close c).2.2.written ++ [p] ∧
      afcFramed p (putUintLE 8 f.fd) b ∧
      (afcOperationRequest.decode p).Operation = AfcOperationFileWrite) ∧
    (∀ g : afcFile,
      ((f.Close c).2.1.Write (f.Close c).2.2 b).1 = (g.Write (f.Close c).2.2 b).1) := by
  have hs := Close_state f c
  have hu : (f.Close c).2.2.up = true := hs.2.trans hup
  have hfd : (f.Close c).2.1.fd = f.fd := by rw [hs.1]
  refine ⟨hfd, hu, ⟨_, fileWrite_written _ _ b hu, ?_, (writePacket_fields _ _ _).1⟩,
    fun g => fileWrite_result_congr _ g _ b hu⟩
  rw [hfd]
  exact writePacket_framed _ _ _ hb

/-- C13, witness: handle 7 is closed on a working socket that holds the success
status, then one byte is written through it. -/
theorem write_after_close_witness :
    (afcFile.mk 0 7).fd = 7 ∧
    (∃ p, (((afcFile.mk 0 7).Close ⟨true, [], statusReply 0⟩).2.1.Write
        ((afcFile.mk 0 7).Close ⟨true, [], statusReply 0⟩).2.2 [1]).2.2.written =
        ((afcFile.mk 0 7).Close ⟨true, [], statusReply 0⟩).2.2.written ++ [p] ∧
      afcFramed p (putUintLE 8 (afcFile.mk 0 7).fd) [1] ∧
      (afcOperationRequest.decode p).Operation = AfcOperationFileWrite) ∧
    (((afcFile.mk 0 7).Close ⟨true, [], statusReply 0⟩).2.1.Write
        ((afcFile.mk 0 7).Close ⟨true, [], statusReply 0⟩).2.2 [1]).1 =
      ((afcFile.mk 0 7).Write ((afcFile.mk 0 7).Close ⟨true, [], statusReply 0⟩).2.2 [1]).1 :=
  let h := write_after_close ⟨0, 7⟩ ⟨true, [], statusReply 0⟩ [1] rfl (by decide)
  ⟨rfl, h.2.2.1, h.2.2.2 ⟨0, 7⟩⟩

/-- C19, failing input: `Write` of three bytes, answered by a Status response
with the success code 0, returns the count 0 together with a nil error, although
the three bytes were sent; only a non-Status answer makes it return the length of
`b`. -/
theorem write_returns_zero_on_success :
    ((afcFile.mk 0 7).Write ⟨true, [], statusReply 0⟩ [1, 2, 3]).1 = .ret (0, none) ∧
    ((afcFile.mk 0 7).Write ⟨true, [], statusReply 0⟩ [1, 2, 3]).2.2.written =
      [writePacket 1 7 [1, 2, 3]] ∧
    ((afcFile.mk 0 7).Write ⟨true, [], infoReply []⟩ [1, 2, 3]).1 = .ret (3, none) := by
  refine ⟨by decide, by decide, by decide⟩

/-- C20, failing inputs: `Stat` panics on a response header whose this-length is
39 (the buffer size 39 - 40 wraps to 2^64 - 1), on a non-Status response whose
entire-length 40 is below its this-length 48 (the payload size wraps), and on a
Status response with a 4-byte data section (`Uint64` indexes byte 7). -/
theorem stat_panics_on_malformed_response :
    ((AFC.mk 0).Stat ⟨true, [], shortThisLengthHeader⟩ [80]).1 =
      .panic "makeslice: len out of range" ∧
    ((39 + 2 ^ 64 - 40) % 2 ^ 64 = 2 ^ 64 - 1) ∧
    ((AFC.mk 0).Stat ⟨true, [], shortEntireLengthReply⟩ [80]).1 =
      .panic "makeslice: len out of range" ∧
    ((AFC.mk 0).Stat ⟨true, [], shortStatusReply⟩ [80]).1 =
      .panic "index out of range [7]" := by
  refine ⟨by decide, by decide, by decide, by decide⟩

/-! ### File information -/

theorem afcReceive_info (c : Conn) (hb data payload rest : Bytes) (h40 : hb.length = 40)
    (hop : (afcOperationRequest.decode hb).Operation ≠ AfcOperationStatus)
    (hlen : (afcOperationRequest.decode hb).ThisLength = 40 + data.length)
    (hent : (afcOperationRequest.decode hb).EntireLength =
      (afcOperationRequest.decode hb).ThisLength + payload.length)
    (hsz : data.length ≤ maxAlloc) (hpsz : payload.length ≤ maxAlloc)
    (hinc : c.incoming = hb ++ data ++ payload ++ rest) :
    afcReceive c =
      (.ret (.info (pairUp (payload.splitOn 0) [])),
        { up := c.up, written := c.written, incoming := rest }) := by
  have hr := afcReadHead_raw c hb data (payload ++ rest) h40 hlen hsz
    (by rw [hinc]; simp only [List.append_assoc])
  have hn : ((afcOperationRequest.decode hb).EntireLength + 2 ^ 64 -
      (afcOperationRequest.decode hb).ThisLength) % 2 ^ 64 = payload.length := by
    rw [hent, hlen]
    unfold maxAlloc at hsz hpsz
    omega
  unfold afcReceive
  rw [hr]
  simp only [hop, if_false, hn]
  rw [if_neg (by omega)]
  rw [ReadFull_append { up := c.up, written := c.written, incoming := payload ++ rest }
    payload rest rfl]

theorem pairUp_statPayload (pairs : List (Bytes × Bytes))
    (hnul : ∀ kv ∈ pairs, 0 ∉ kv.1 ∧ 0 ∉ kv.2) :
    ∀ m : GoMap, pairUp ((statPayload pairs).splitOn 0) m =
      pairs.foldl (fun m kv => m.set kv.1 kv.2) m := by
  induction pairs with
  | nil => intro m; rfl
  | cons kv rest ih =>
    intro m
    have h1 := hnul kv (List.mem_cons_self _ _)
    have hk : ∀ x ∈ kv.1, ¬ ((x == 0) = true) := by
      intro x hx h
      rw [beq_iff_eq] at h
      exact h1.1 (h ▸ hx)
    have hv : ∀ x ∈ kv.2, ¬ ((x == 0) = true) := by
      intro x hx h
      rw [beq_iff_eq] at h
      exact h1.2 (h ▸ hx)
    have hs : (statPayload (kv :: rest)).splitOn 0 =
        kv.1 :: kv.2 :: (statPayload rest).splitOn 0 := by
      simp only [statPayload, List.splitOn]
      rw [List.splitOnP_first _ _ hk 0 (by simp), List.splitOnP_first _ _ hv 0 (by simp)]
    rw [hs, pairUp, List.foldl_cons]
    exact ih (fun kv' h' => hnul kv' (List.mem_cons_of_mem _ h')) _

theorem foldl_set_fresh (pairs : List (Bytes × Bytes)) :
    ∀ m : GoMap, (pairs.map Prod.fst).Nodup →
      (∀ kv ∈ m, kv.1 ∉ pairs.map Prod.fst) →
      pairs.foldl (fun m kv => m.set kv.1 kv.2) m = m ++ pairs := by
  induction pairs with
  | nil => intro m _ _; simp
  | cons kv rest ih =>
    intro m hnd hm
    rw [List.map_cons, List.nodup_cons] at hnd
    have hset : m.set kv.1 kv.2 = m ++ [kv] := by
      unfold GoMap.set
      rw [List.filter_eq_self.mpr]
      intro x hx
      have := hm x hx
      simp only [List.map_cons, List.mem_cons, not_or] at this
      simpa using this.1
    rw [List.foldl_cons, hset, ih (m ++ [kv]) hnd.2]
    · simp
    · intro x hx
      rw [List.mem_append, List.mem_singleton] at hx
      rcases hx with hx | hx
      · have := hm x hx
        simp only [List.map_cons, List.mem_cons, not_or] at this
        exact this.2
      · rw [hx]; exact hnd.1

/-- C18: for every list of key/value pairs of NUL-free byte strings with
pairwise distinct keys, a response that is not a Status and whose payload is the
concatenation of key, 0x00, value, 0x00 for each pair in order makes `AFC.Stat`
return a nil error and exactly the mapping of the pairs, each key bound to its
value; for the empty list the mapping is empty and not nil. -/
theorem stat_returns_mapping (a : AFC) (c : Conn) (path hb data rest : Bytes)
    (pairs : List (Bytes × Bytes)) (hup : c.up = true) (h40 : hb.length = 40)
    (hop : (afcOperationRequest.decode hb).Operation ≠ AfcOperationStatus)
    (hlen : (afcOperationRequest.decode hb).ThisLength = 40 + data.length)
    (hent : (afcOperationRequest.decode hb).EntireLength =
      (afcOperationRequest.decode hb).ThisLength + (statPayload pairs).length)
    (hsz : data.length ≤ maxAlloc) (hpsz : (statPayload pairs).length ≤ maxAlloc)
    (hnul : ∀ kv ∈ pairs, 0 ∉ kv.1 ∧ 0 ∉ kv.2) (hkeys : (pairs.map Prod.fst).Nodup)
    (hinc : c.incoming = hb ++ data ++ statPayload pairs ++ rest) :
    (a.Stat c path).1 = .ret (some pairs, none) ∧
    (∀ kv ∈ pairs, pairs.lookup kv.1 = some kv.2) ∧
    (pairs = [] → (a.Stat c path).1 = .ret (some [], none)) := by
  have key : ∀ p : Bytes,
      afcReceive { up := c.up, written := c.written ++ [p], incoming := c.incoming } =
        (.ret (.info pairs), { up := c.up, written := c.written ++ [p], incoming := rest }) := by
    intro p
    rw [afcReceive_info
      { up := c.up, written := c.written ++ [p], incoming := c.incoming } hb data
      (statPayload pairs) rest h40 hop hlen hent hsz hpsz hinc,
      pairUp_statPayload pairs hnul, foldl_set_fresh pairs [] hkeys (by simp)]
    rfl
  have h1 : (a.Stat c path).1 = .ret (some pairs, none) := by
    simp only [AFC.Stat, Write_up c _ hup, key]
  refine ⟨h1, ?_, fun h => by rw [h1, h]⟩
  intro kv hkv
  clear h1 key hinc hpsz hent hnul
  induction pairs with
  | nil => simp at hkv
  | cons x xs ih =>
    rw [List.map_cons, List.nodup_cons] at hkeys
    rw [List.mem_cons] at hkv
    rcases hkv with h | h
    · subst h; simp [List.lookup]
    · have hne : kv.1 ≠ x.1 := by
        intro he
        exact hkeys.1 (he ▸ List.mem_map_of_mem Prod.fst h)
      rw [List.lookup_cons]
      simp only [beq_eq_false_iff_ne.mpr hne]
      exact ih hkeys.2 h

/-- C18, witness: the pairs st_size = 4096 and st_ifmt = S_IFDIR, written as
byte strings. -/
theorem stat_returns_mapping_witness :
    ((AFC.mk 0).Stat ⟨true, [], infoReply (statPayload [([115], [52, 48]), ([105], [68])])⟩
      [80]).1 = .ret (some [([115], [52, 48]), ([105], [68])], none) :=
  (stat_returns_mapping ⟨0⟩
    ⟨true, [], infoReply (statPayload [([115], [52, 48]), ([105], [68])])⟩ [80]
    (afcOperationRequest.encode
      { Magic := afcMagicBytes,
        EntireLength := 40 + (statPayload [([115], [52, 48]), ([105], [68])]).length,
        ThisLength := 40, PacketNum := 1, Operation := 2 })
    [] [] [([115], [52, 48]), ([105], [68])] rfl (by decide) (by decide) (by decide)
    (by decide) (by decide) (by decide) (by decide) (by decide) (by decide)).1

/-! ### Lookup -/

theorem lookup_on_frame (codec : LookupCodec) (c : Conn) (bundleID : String)
    (attributes : List String) (pL p rest : Bytes) (resp : installationProxyLookupResponse)
    (hup : c.up = true)
    (hm : codec.marshalLookup (lookupRequest bundleID attributes) = .ok pL)
    (hp : p.length < 2 ^ 32) (hd : codec.unmarshalLookup p = .ok resp)
    (hinc : c.incoming = frame p ++ rest) :
    InstallationProxy.LookupApplication codec c bundleID attributes =
      (if resp.Status ≠ "Complete" then
          (none, some (.other ("lookup status: " ++ resp.Status)))
        else
          match resp.LookupResult.lookup bundleID with
          | some (.dict data) => (some data, none)
          | _ => (none, some (.other "lookup error: <nil>")),
        { up := c.up, written := c.written ++ [lengthPrefixed pL], incoming := rest }) := by
  obtain ⟨hb, h1, h2, h3⟩ := read_frame
    { up := c.up, written := c.written ++ [lengthPrefixed pL], incoming := c.incoming }
    p rest hp hinc
  simp only at h1 h3
  simp only [InstallationProxy.LookupApplication, hm, Write_up c _ hup, h1, h2, h3, hd]
  split_ifs
  · rfl
  · split <;> rfl

/-- C14: on a working socket holding one well-formed framed response,
`LookupApplication` reads exactly that response and returns (m, nil) exactly when
the response has Status = "Complete" and LookupResult[bundleID] is present and is
a mapping m; otherwise (status other than "Complete", bundle id absent, entry not
a mapping) it returns no mapping and a non-nil error. -/
theorem lookup_result (codec : LookupCodec) (c : Conn) (bundleID : String)
    (attributes : List String) (pL p rest : Bytes) (resp : installationProxyLookupResponse)
    (hup : c.up = true)
    (hm : codec.marshalLookup (lookupRequest bundleID attributes) = .ok pL)
    (hp : p.length < 2 ^ 32) (hd : codec.unmarshalLookup p = .ok resp)
    (hinc : c.incoming = frame p ++ rest) :
    (InstallationProxy.LookupApplication codec c bundleID attributes).2.incoming = rest ∧
    (∀ m, (InstallationProxy.LookupApplication codec c bundleID attributes).1 = (some m, none) ↔
      resp.Status = "Complete" ∧ resp.LookupResult.lookup bundleID = some (.dict m)) ∧
    (¬ (resp.Status = "Complete" ∧ ∃ m, resp.LookupResult.lookup bundleID = some (.dict m)) →
      ∃ e, (InstallationProxy.LookupApplication codec c bundleID attributes).1 =
        (none, some e)) := by
  rw [lookup_on_frame codec c bundleID attributes pL p rest resp hup hm hp hd hinc]
  refine ⟨rfl, ?_, ?_⟩
  · intro m
    simp only
    split_ifs with hs
    · simp only [ne_eq] at hs
      simp [hs]
    · simp only [ne_eq, not_not] at hs
      split
      · next data hl => simp [hs, hl]
      · next hl =>
        simp only [Prod.mk.injEq, reduceCtorEq, false_and, hs, true_and, false_iff]
        intro h
        exact hl m h
  · intro hn
    simp only
    split_ifs with hs
    · exact ⟨_, rfl⟩
    · simp only [ne_eq, not_not] at hs
      split
      · next data hl => exact absurd ⟨hs, data, hl⟩ hn
      · exact ⟨_, rfl⟩

set_option maxRecDepth 100000 in
/-- C14, witness: the response of scenario S3, whose LookupResult binds
com.example.Hello to the mapping CFBundleVersion = 1.0. -/
theorem lookup_result_witness :
    (InstallationProxy.LookupApplication exampleLookupCodec
      ⟨true, [], frame lookupPayload ++ []⟩ "com.example.Hello" []).1 =
        (some [("CFBundleVersion", .string "1.0")], none) :=
  ((lookup_result exampleLookupCodec ⟨true, [], frame lookupPayload ++ []⟩
    "com.example.Hello" [] (ascii "Lookup") lookupPayload []
    { Status := "Complete"
      LookupResult := [("com.example.Hello", .dict [("CFBundleVersion", .string "1.0")])] }
    rfl rfl (by decide) rfl rfl).2.1 _).2 ⟨rfl, rfl⟩

/-! ### Session identifier -/

theorem stopSession_ok (env : Env) (t : List Msg) (l : Lockdown)
    (h : (Lockdown.stopSession env t l).1 = none) :
    (Lockdown.stopSession env t l).2.1.sessionID = "" := by
  unfold Lockdown.stopSession at h ⊢
  split_ifs at h ⊢ with hs
  · exact hs
  · simp only at h ⊢
    split at h
    · simp at h
    · simp at h
    · next heq => simp only [heq]

theorem startSession_ok (env : Env) (t : List Msg) (l : Lockdown) (pair : PairRecord)
    (h : (Lockdown.startSession env t l pair).1 = none) :
    ∃ t1 resp, env.startSession t1 = .reply resp ∧
      (Lockdown.startSession env t l pair).2.1.sessionID = resp.SessionID := by
  unfold Lockdown.startSession at h ⊢
  simp only at h ⊢
  rcases hst : (if l.sessionID ≠ "" then Lockdown.stopSession env t l else (none, l, t))
    with ⟨e, l1, t1⟩
  rw [hst] at h
  cases e with
  | some err => simp at h
  | none =>
    simp only at h ⊢
    cases hresp : env.startSession (t1 ++ [.startSession (startSessionRequestFor pair)]) with
    | writeError e => rw [hresp] at h; simp at h
    | readError e => rw [hresp] at h; simp at h
    | reply resp =>
      rw [hresp] at h
      simp only at h ⊢
      rcases hsec : (if resp.EnableSessionSSL = true then
          Lockdown.enableSSL env (t1 ++ [.startSession (startSessionRequestFor pair)]) l1 pair
        else (none, l1)) with ⟨e2, l2⟩
      rw [hsec] at h
      cases e2 with
      | some err => simp at h
      | none =>
        refine ⟨_, resp, hresp, ?_⟩
        rw [hsec]

/-- C17, counterexample: a client created by `LockdownService` (empty session
id) calls `startSession`; lockdownd answers with Error = "InvalidHostID" and no
session id.  `startSession` does not look at the Error field and returns nil, and
the session id is still empty after this successful call. -/
theorem session_id_empty_after_start :
    (LockdownService invalidHostEnv [] exampleDevice).1 = .ok exampleLockdown ∧
    (Lockdown.startSession invalidHostEnv [] exampleLockdown examplePair).1 = none ∧
    (Lockdown.startSession invalidHostEnv [] exampleLockdown examplePair).2.1.sessionID = "" := by
  refine ⟨rfl, rfl, rfl⟩

/-- C17, amended: a client created by `LockdownService` starts with an empty
session id; in every state of the client the session id is empty after every
successful `stopSession`, and after every successful `startSession` it is the
SessionID field of the StartSession reply, hence non-empty exactly when the reply
carried a non-empty SessionID. -/
theorem session_id_tracks_reply (env : Env) (t : List Msg) (l : Lockdown) (pair : PairRecord)
    (device : Device) :
    (∀ l0, (LockdownService env t device).1 = .ok l0 → l0.sessionID = "") ∧
    ((Lockdown.stopSession env t l).1 = none →
      (Lockdown.stopSession env t l).2.1.sessionID = "") ∧
    ((Lockdown.startSession env t l pair).1 = none →
      ∃ t1 resp, env.startSession t1 = .reply resp ∧
        (Lockdown.startSession env t l pair).2.1.sessionID = resp.SessionID ∧
        ((Lockdown.startSession env t l pair).2.1.sessionID ≠ "" ↔ resp.SessionID ≠ "")) := by
  refine ⟨?_, stopSession_ok env t l, ?_⟩
  · intro l0 h
    unfold LockdownService at h
    split at h
    · simp at h
    · simp only at h
      split at h
      · simp at h
      · simp at h
      · split_ifs at h
        simp only [Except.ok.injEq] at h
        rw [← h]
  · intro h
    obtain ⟨t1, resp, h1, h2⟩ := startSession_ok env t l pair h
    exact ⟨t1, resp, h1, h2, by rw [h2]⟩

/-- C17, witness: a session with id S1 is started and stopped. -/
theorem session_id_tracks_reply_witness :
    (Lockdown.stopSession (serviceSSLEnv 0) []
      { tlsConn := false, dev := exampleDevice, sessionID := "S1", sslHandshakes := 0 }
      ).2.1.sessionID = "" ∧
    (∃ t1 resp, (serviceSSLEnv 0).startSession t1 = .reply resp ∧
      (Lockdown.startSession (serviceSSLEnv 0) [] exampleLockdown examplePair).2.1.sessionID =
        resp.SessionID ∧
      ((Lockdown.startSession (serviceSSLEnv 0) [] exampleLockdown examplePair).2.1.sessionID ≠ ""
        ↔ resp.SessionID ≠ "")) :=
  ⟨(session_id_tracks_reply (serviceSSLEnv 0) []
      { tlsConn := false, dev := exampleDevice, sessionID := "S1", sslHandshakes := 0 }
      examplePair exampleDevice).2.1 rfl,
    (session_id_tracks_reply (serviceSSLEnv 0) [] exampleLockdown examplePair
      exampleDevice).2.2 rfl⟩

/-! ### Install -/

theorem installationPath_plain (b : String) (hb : '/' ∉ b.data) :
    installationPath b = "PublicStaging/" ++ b ++ ".ipa" := by
  have hPS : ∀ x ∈ "PublicStaging".data, ¬ ((x == '/') = true) := by decide
  have hx : ∀ x ∈ b.data ++ ".ipa".data, ¬ ((x == '/') = true) := by
    intro x hx h
    rw [beq_iff_eq] at h
    subst h
    rw [List.mem_append] at hx
    rcases hx with h | h
    · exact hb h
    · revert h; decide
  have hsplit : ("PublicStaging".data ++ '/' :: (b.data ++ ".ipa".data)).splitOn '/' =
      ["PublicStaging".data, b.data ++ ".ipa".data] := by
    simp only [List.splitOn]
    rw [List.splitOnP_first _ _ hPS '/' (by decide), List.splitOnP_eq_single _ _ hx]
  have hne1 : b.data ++ ".ipa".data ≠ [] := by
    intro h; have := congrArg List.length h; simp at this
  have hne2 : b.data ++ ".ipa".data ≠ ['.'] := by
    intro h; have := congrArg List.length h; simp at this
  have hne3 : b.data ++ ".ipa".data ≠ ['.', '.'] := by
    intro h; have := congrArg List.length h; simp at this
  have hbuf : (["PublicStaging", b ++ ".ipa"].foldl
      (fun buf e =>
        if buf ≠ [] ∨ e ≠ "" then (if buf ≠ [] then buf ++ ['/'] else buf) ++ e.data else buf)
      ([] : List Char)) = "PublicStaging".data ++ '/' :: (b.data ++ ".ipa".data) := by
    simp [String.data_append]
  have hall : (["PublicStaging", b ++ ".ipa"].all (fun e => e == "")) = false := by
    simp
  apply String.ext
  unfold installationPath pathJoin
  rw [hall]
  simp only [Bool.false_eq_true, if_false, hbuf]
  unfold pathClean
  rw [if_neg (by simp)]
  simp only [hsplit, List.foldl_cons, List.foldl_nil]
  have hst1 : cleanStep false [] "PublicStaging".data = ["PublicStaging".data] := by decide
  have hst2 : cleanStep false ["PublicStaging".data] (b.data ++ ".ipa".data) =
      ["PublicStaging".data, b.data ++ ".ipa".data] := by
    unfold cleanStep
    rw [if_neg (by simp [hne1, hne2]), if_neg hne3]
    rfl
  have hroot : (("PublicStaging".data ++ '/' :: (b.data ++ ".ipa".data)).head? == some '/') =
      false := by
    rfl
  simp only [hroot, hst1, hst2, Bool.false_eq_true, if_false]
  simp [List.intercalate, String.data_append]

set_option maxRecDepth 100000 in
/-- C15, counterexample: for the bundle identifier "../evil" the upload path is
"evil.ipa", outside the staging directory, and not "PublicStaging/../evil.ipa":
`Install` stats PublicStaging, opens "evil.ipa" with mode 4 and writes the
archive to the handle; for "a//b" the path is "PublicStaging/a/b.ipa". -/
theorem installation_path_is_cleaned :
    installationPath "../evil" = "evil.ipa" ∧
    installationPath "../evil" ≠ "PublicStaging/" ++ "../evil" ++ ".ipa" ∧
    installationPath "a//b" = "PublicStaging/a/b.ipa" ∧
    (Install plainEnv exampleCodec (exampleArchive "../evil") stagedStream proxyStream []
      exampleDevice).1 = .ret none ∧
    (Install plainEnv exampleCodec (exampleArchive "../evil") stagedStream proxyStream []
      exampleDevice).2.afcConn.written.map (fun p => p.drop 40) =
      [utf8 "PublicStaging", putUintLE 8 4 ++ utf8 "evil.ipa", putUintLE 8 7 ++ [80, 75, 3]] := by
  refine ⟨by decide, by decide, by decide, by decide, by decide⟩

theorem WriteFile_written (a : AFC) (c : Conn) (name data : Bytes) (mode : Nat)
    (hup : c.up = true) :
    ∃ tail, (a.WriteFile c name data mode).2.2.written =
        c.written ++ openPacket ((a.packetNum + 1) % 2 ^ 64) name mode :: tail ∧
      (tail = [] ∨ ∃ pn fd, tail = [writePacket pn fd data]) := by
  unfold AFC.WriteFile
  have ho := open_written a c name mode hup
  have hs := (open_state a c name mode).2
  rcases hopen : a.open c name mode with ⟨o, a1, c1⟩
  rw [hopen] at ho hs
  simp only at ho hs
  rcases o with ⟨fo, eo⟩ | r
  · cases eo with
    | some err => exact ⟨[], by simpa using ho, Or.inl rfl⟩
    | none =>
      cases fo with
      | none => exact ⟨[], by simpa using ho, Or.inl rfl⟩
      | some f =>
        simp only
        have hw := fileWrite_written f c1 data (hs.trans hup)
        rcases hwr : f.Write c1 data with ⟨o2, f1, c2⟩
        rw [hwr] at hw
        simp only at hw
        refine ⟨[writePacket ((f.packetNum + 1) % 2 ^ 64) f.fd data], ?_, Or.inr ⟨_, _, rfl⟩⟩
        rcases o2 with ⟨n, werr⟩ | r
        · simp only [Close_effect]
          rw [hw, ho]
          simp
        · simp only [Close_effect]
          rw [hw, ho]
          simp
  · exact ⟨[], by simpa using ho, Or.inl rfl⟩

theorem upload_packets (env : Env) (codec : PlistCodec) (file : LocalFile) (afc : AFC)
    (afcConn proxyConn : Conn) (t : List Msg) (lockdown : Lockdown) (b : String)
    (hup : afcConn.up = true) :
    ∃ wr, (Install.upload env codec file afc afcConn proxyConn t lockdown b).2.afcConn.written =
        afcConn.written ++ wr ∧
      (wr = [] ∨ ∃ pn tail,
        wr = openPacket pn (utf8 (installationPath b)) AfcFileModeWr :: tail ∧
        (tail = [] ∨ ∃ pn2 fd bytes, tail = [writePacket pn2 fd bytes])) := by
  unfold Install.upload
  cases file.content with
  | error err => exact ⟨[], by simp, Or.inl rfl⟩
  | ok bytes =>
    simp only
    obtain ⟨tail, hw, ht⟩ := WriteFile_written afc afcConn (utf8 (installationPath b)) bytes
      AfcFileModeWr hup
    have htail : tail = [] ∨ ∃ pn2 fd bytes', tail = [writePacket pn2 fd bytes'] := by
      rcases ht with h | ⟨pn, fd, h⟩
      · exact Or.inl h
      · exact Or.inr ⟨pn, fd, bytes, h⟩
    rcases hwf : afc.WriteFile afcConn (utf8 (installationPath b)) bytes AfcFileModeWr
      with ⟨o, a3, c3⟩
    rw [hwf] at hw
    simp only at hw
    refine ⟨openPacket ((afc.packetNum + 1) % 2 ^ 64) (utf8 (installationPath b))
      AfcFileModeWr :: tail, ?_, Or.inr ⟨_, tail, rfl, htail⟩⟩
    rcases o with e | r
    · cases e with
      | some err => exact hw
      | none =>
        simp only
        rcases Lockdown.startService env t lockdown ServiceNameInstallationProxy
          with ⟨r3 | u, l3, t3⟩
        · exact hw
        · exact hw
    · exact hw

theorem upload_proxy (env : Env) (codec : PlistCodec) (file : LocalFile) (afc : AFC)
    (afcConn proxyConn : Conn) (t : List Msg) (lockdown : Lockdown) (b : String) :
    (Install.upload env codec file afc afcConn proxyConn t lockdown b).2.proxyConn = proxyConn ∨
    (Install.upload env codec file afc afcConn proxyConn t lockdown b).2.proxyConn =
      (InstallationProxy.InstallApplication codec proxyConn b (installationPath b)).2 := by
  unfold Install.upload
  cases file.content with
  | error err => exact Or.inl rfl
  | ok bytes =>
    simp only
    rcases afc.WriteFile afcConn (utf8 (installationPath b)) bytes AfcFileModeWr
      with ⟨o, a3, c3⟩
    rcases o with e | r
    · cases e with
      | some err => exact Or.inl rfl
      | none =>
        simp only
        rcases Lockdown.startService env t lockdown ServiceNameInstallationProxy
          with ⟨r3 | u, l3, t3⟩
        · exact Or.inl rfl
        · exact Or.inr rfl
    · exact Or.inl rfl

theorem staging_packets (env : Env) (codec : PlistCodec) (file : LocalFile) (afc : AFC)
    (afcConn proxyConn : Conn) (t : List Msg) (lockdown : Lockdown) (b : String)
    (hup : afcConn.up = true) :
    ∃ mk wr,
      (Install.staging env codec file afc afcConn proxyConn t lockdown b).2.afcConn.written =
        afcConn.written ++
          statPacket ((afc.packetNum + 1) % 2 ^ 64) (utf8 "PublicStaging") :: (mk ++ wr) ∧
      (mk = [] ∨ mk = [createDirectoryPacket (((afc.packetNum + 1) % 2 ^ 64 + 1) % 2 ^ 64)
        (utf8 "PublicStaging")]) ∧
      (mk ≠ [] ↔ ((afc.Stat afcConn (utf8 "PublicStaging")).1 = .ret (none, none) ∨
        (afc.Stat afcConn (utf8 "PublicStaging")).1 = .ret (none, some .ErrObjectNotFound))) ∧
      (wr = [] ∨ ∃ pn tail,
        wr = openPacket pn (utf8 (installationPath b)) AfcFileModeWr :: tail ∧
        (tail = [] ∨ ∃ pn2 fd bytes, tail = [writePacket pn2 fd bytes])) := by
  unfold Install.staging
  simp only
  have hsw := Stat_written afc afcConn (utf8 "PublicStaging") hup
  have hss := Stat_state afc afcConn (utf8 "PublicStaging")
  rcases hst : afc.Stat afcConn (utf8 "PublicStaging") with ⟨o, afc1, c1⟩
  rw [hst] at hsw hss
  simp only at hsw hss
  obtain ⟨ha, hu⟩ := hss
  subst ha
  rcases o with ⟨pathInfo, err⟩ | r
  swap
  · exact ⟨[], [], by simpa using hsw, Or.inl rfl, by simp, Or.inl rfl⟩
  simp only
  split_ifs with herr
  · refine ⟨[], [], by simpa using hsw, Or.inl rfl, ?_, Or.inl rfl⟩
    simp only [ne_eq, not_true_eq_false, Outcome.ret.injEq, Prod.mk.injEq, false_iff, not_or,
      not_and]
    exact ⟨fun _ => herr.1, fun _ => herr.2⟩
  · have herr2 : err = none ∨ err = some .ErrObjectNotFound := by
      by_cases h1 : err = none
      · exact Or.inl h1
      · by_cases h2 : err = some .ErrObjectNotFound
        · exact Or.inr h2
        · exact absurd ⟨h1, h2⟩ herr
    cases pathInfo with
    | some m =>
      simp only [Install.makeStaging]
      obtain ⟨wr, hw, hwr⟩ := upload_packets env codec file
        ⟨(afc.packetNum + 1) % 2 ^ 64⟩ c1 proxyConn t lockdown b (hu.trans hup)
      refine ⟨[], wr, ?_, Or.inl rfl, by simp, hwr⟩
      rw [hw, hsw]
      simp
    | none =>
      simp only [Install.makeStaging]
      have hcw := CreateDirectory_written ⟨(afc.packetNum + 1) % 2 ^ 64⟩ c1
        (utf8 "PublicStaging") (hu.trans hup)
      have hcs := CreateDirectory_state ⟨(afc.packetNum + 1) % 2 ^ 64⟩ c1 (utf8 "PublicStaging")
      rcases hcd : AFC.CreateDirectory ⟨(afc.packetNum + 1) % 2 ^ 64⟩ c1 (utf8 "PublicStaging")
        with ⟨o2, afc2, c2⟩
      rw [hcd] at hcw hcs
      simp only at hcw hcs
      have hiff : ([createDirectoryPacket (((afc.packetNum + 1) % 2 ^ 64 + 1) % 2 ^ 64)
          (utf8 "PublicStaging")] : List Bytes) ≠ [] ↔
          ((Outcome.ret ((none : Option GoMap), err) = .ret (none, none)) ∨
            (Outcome.ret ((none : Option GoMap), err) = .ret (none, some .ErrObjectNotFound))) := by
        rcases herr2 with h | h <;> simp [h]
      rcases o2 with e2 | r2
      · cases e2 with
        | some err2 =>
          refine ⟨_, [], ?_, Or.inr rfl, hiff, Or.inl rfl⟩
          simp only [hcw, hsw]
          simp
        | none =>
          simp only
          obtain ⟨wr, hw, hwr⟩ := upload_packets env codec file afc2 c2 proxyConn t lockdown b
            (hcs.2.trans (hu.trans hup))
          refine ⟨_, wr, ?_, Or.inr rfl, hiff, hwr⟩
          rw [hw, hcw, hsw]
          simp
      · refine ⟨_, [], ?_, Or.inr rfl, hiff, Or.inl rfl⟩
        simp only [hcw, hsw]
        simp

theorem staging_proxy (env : Env) (codec : PlistCodec) (file : LocalFile) (afc : AFC)
    (afcConn proxyConn : Conn) (t : List Msg) (lockdown : Lockdown) (b : String) :
    (Install.staging env codec file afc afcConn proxyConn t lockdown b).2.proxyConn =
      proxyConn ∨
    (Install.staging env codec file afc afcConn proxyConn t lockdown b).2.proxyConn =
      (InstallationProxy.InstallApplication codec proxyConn b (installationPath b)).2 := by
  unfold Install.staging
  simp only
  rcases afc.Stat afcConn (utf8 "PublicStaging") with ⟨⟨pathInfo, err⟩ | r, afc1, c1⟩
  swap
  · exact Or.inl rfl
  simp only
  split_ifs
  · exact Or.inl rfl
  · cases pathInfo with
    | some m => exact upload_proxy env codec file afc1 c1 proxyConn t lockdown b
    | none =>
      simp only [Install.makeStaging]
      rcases afc1.CreateDirectory c1 (utf8 "PublicStaging") with ⟨e2 | r2, afc2, c2⟩
      · cases e2 with
        | some err2 => exact Or.inl rfl
        | none => exact upload_proxy env codec file afc2 c2 proxyConn t lockdown b
      · exact Or.inl rfl

theorem staging_stat_error (env : Env) (codec : PlistCodec) (file : LocalFile) (afc : AFC)
    (afcConn proxyConn : Conn) (t : List Msg) (lockdown : Lockdown) (b : String)
    (hup : afcConn.up = true) (e : GoError)
    (hs : (afc.Stat afcConn (utf8 "PublicStaging")).1 = .ret (none, some e))
    (he : e ≠ .ErrObjectNotFound) :
    (Install.staging env codec file afc afcConn proxyConn t lockdown b).1 = .ret (some e) ∧
    (Install.staging env codec file afc afcConn proxyConn t lockdown b).2.afcConn.written =
      afcConn.written ++ [statPacket ((afc.packetNum + 1) % 2 ^ 64) (utf8 "PublicStaging")] ∧
    (Install.staging env codec file afc afcConn proxyConn t lockdown b).2.proxyConn =
      proxyConn := by
  unfold Install.staging
  simp only
  have hsw := Stat_written afc afcConn (utf8 "PublicStaging") hup
  rcases hst : afc.Stat afcConn (utf8 "PublicStaging") with ⟨o, afc1, c1⟩
  rw [hst] at hsw hs
  simp only at hsw hs
  subst hs
  simp only
  rw [if_pos ⟨by simp, by simpa using he⟩]
  exact ⟨rfl, hsw, rfl⟩

theorem statPacket_op (pn : Nat) (path : Bytes) :
    (afcOperationRequest.decode (statPacket pn path)).Operation = AfcOperationGetFileInfo := by
  unfold statPacket
  rw [afc_decode_encode _ _ afcMagicBytes_length]
  rfl

theorem openPacket_op (pn : Nat) (name : Bytes) (mode : Nat) :
    (afcOperationRequest.decode (openPacket pn name mode)).Operation = AfcOperationFileOpen := by
  unfold openPacket
  rw [afc_decode_encode _ _ afcMagicBytes_length]
  rfl

theorem writePacket_op (pn fd : Nat) (b : Bytes) :
    (afcOperationRequest.decode (writePacket pn fd b)).Operation = AfcOperationFileWrite := by
  unfold writePacket
  simp only [List.append_assoc]
  rw [afc_decode_encode _ _ afcMagicBytes_length]
  rfl

theorem createDirectoryPacket_op (pn : Nat) (name : Bytes) :
    (afcOperationRequest.decode (createDirectoryPacket pn name)).Operation =
      AfcOperationMakeDir := by
  unfold createDirectoryPacket
  rw [afc_decode_encode _ _ afcMagicBytes_length]
  rfl

theorem openPacket_data (pn : Nat) (name : Bytes) (mode : Nat) :
    (openPacket pn name mode).drop 40 = putUintLE 8 (mode % 2 ^ 32) ++ name := by
  unfold openPacket
  rw [afc_drop_encode _ _ afcMagicBytes_length]

theorem Install_reaches_staging (env : Env) (codec : PlistCodec) (file : LocalFile)
    (afcConn proxyConn : Conn) (t t1 t2 : List Msg) (device : Device)
    (info : List (String × PlistValue)) (b : String) (l1 l2 : Lockdown)
    (h1 : file.stat = none) (h2 : file.info = .ok info)
    (h3 : info.lookup "CFBundleIdentifier" = some (.string b))
    (h4 : LockdownService env t device = (.ok l1, t1))
    (h5 : Lockdown.startService env t1 l1 ServiceNameAFC = (.ok (), l2, t2)) :
    Install env codec file afcConn proxyConn t device =
      Install.staging env codec file ⟨0⟩ afcConn proxyConn t2 l2 b := by
  simp only [Install, h1, h2, h3, h4, h5]

set_option maxRecDepth 100000 in
/-- C16, counterexample: the device answers the stat of `PublicStaging` with a
Status response of code 0.  `Stat` yields neither a mapping nor the
object-not-found error, and `Install` still issues the MakeDir. -/
theorem makedir_without_not_found :
    ((AFC.mk 0).Stat (stagingStream 0) (utf8 "PublicStaging")).1 = .ret (none, none) ∧
    (Install plainEnv exampleCodec (exampleArchive "com.example.Hello") (stagingStream 0)
      proxyStream [] exampleDevice).1 = .ret none ∧
    packetOps (Install plainEnv exampleCodec (exampleArchive "com.example.Hello")
      (stagingStream 0) proxyStream [] exampleDevice).2.afcConn.written =
      [AfcOperationGetFileInfo, AfcOperationMakeDir, AfcOperationFileOpen,
       AfcOperationFileWrite] := by
  refine ⟨by decide, by decide, by decide⟩

/-- C16, amended: when `Install` ensures the staging directory over a working
stream, a MakeDir for `PublicStaging` follows the stat when `Stat` yields the
object-not-found error; no MakeDir is issued when `Stat` returns a mapping, empty
or not; and when `Stat` fails with any other error `Install` returns that error
with nothing but the stat request sent: no MakeDir, no upload, no install
command. -/
theorem staging_directory (env : Env) (codec : PlistCodec) (file : LocalFile) (afc : AFC)
    (afcConn proxyConn : Conn) (t : List Msg) (lockdown : Lockdown) (b : String)
    (hup : afcConn.up = true) :
    ((afc.Stat afcConn (utf8 "PublicStaging")).1 = .ret (none, some .ErrObjectNotFound) →
      ∃ wr, (Install.staging env codec file afc afcConn proxyConn t lockdown b).2.afcConn.written =
        afcConn.written ++
          statPacket ((afc.packetNum + 1) % 2 ^ 64) (utf8 "PublicStaging") ::
          createDirectoryPacket (((afc.packetNum + 1) % 2 ^ 64 + 1) % 2 ^ 64)
            (utf8 "PublicStaging") :: wr) ∧
    (∀ m, (afc.Stat afcConn (utf8 "PublicStaging")).1 = .ret (some m, none) →
      AfcOperationMakeDir ∉ packetOps
        ((Install.staging env codec file afc afcConn proxyConn t lockdown b).2.afcConn.written.drop
          afcConn.written.length)) ∧
    (∀ e, (afc.Stat afcConn (utf8 "PublicStaging")).1 = .ret (none, some e) →
      e ≠ .ErrObjectNotFound →
      (Install.staging env codec file afc afcConn proxyConn t lockdown b).1 = .ret (some e) ∧
      (Install.staging env codec file afc afcConn proxyConn t lockdown b).2.afcConn.written =
        afcConn.written ++ [statPacket ((afc.packetNum + 1) % 2 ^ 64) (utf8 "PublicStaging")] ∧
      (Install.staging env codec file afc afcConn proxyConn t lockdown b).2.proxyConn =
        proxyConn) := by
  obtain ⟨mk, wr, hw, hmk, hiff, hwr⟩ :=
    staging_packets env codec file afc afcConn proxyConn t lockdown b hup
  refine ⟨?_, ?_, fun e hs he =>
    staging_stat_error env codec file afc afcConn proxyConn t lockdown b hup e hs he⟩
  · intro hs
    have hne : mk ≠ [] := hiff.mpr (Or.inr hs)
    rcases hmk with h | h
    · exact absurd h hne
    · exact ⟨wr, by rw [hw, h]; rfl⟩
  · intro m hs
    have hmk0 : mk = [] := by
      by_contra hne
      rcases hiff.mp hne with h | h <;> rw [hs] at h <;> simp at h
    rw [hw, hmk0, List.drop_left, List.nil_append]
    rcases hwr with h | ⟨pn, tail, h, ht⟩
    · rw [h]
      simp [packetOps, statPacket_op, AfcOperationMakeDir, AfcOperationGetFileInfo]
    · rcases ht with ht | ⟨pn2, fd, bytes, ht⟩
      · rw [h, ht]
        simp [packetOps, statPacket_op, openPacket_op, AfcOperationMakeDir,
          AfcOperationGetFileInfo, AfcOperationFileOpen]
      · rw [h, ht]
        simp [packetOps, statPacket_op, openPacket_op, writePacket_op, AfcOperationMakeDir,
          AfcOperationGetFileInfo, AfcOperationFileOpen, AfcOperationFileWrite]

set_option maxRecDepth 100000 in
/-- C16, witness: the staging directory is missing (status code 8), so the
MakeDir follows the stat. -/
theorem staging_directory_witness :
    ∃ wr, (Install.staging plainEnv exampleCodec (exampleArchive "com.example.Hello") ⟨0⟩
        (stagingStream 8) proxyStream [] exampleLockdown "com.example.Hello").2.afcConn.written =
      (stagingStream 8).written ++
        statPacket ((0 + 1) % 2 ^ 64) (utf8 "PublicStaging") ::
        createDirectoryPacket (((0 + 1) % 2 ^ 64 + 1) % 2 ^ 64) (utf8 "PublicStaging") :: wr :=
  (staging_directory plainEnv exampleCodec (exampleArchive "com.example.Hello") ⟨0⟩
    (stagingStream 8) proxyStream [] exampleLockdown "com.example.Hello" rfl).1 (by decide)

theorem drain_written (codec : PlistCodec) :
    ∀ (fuel : Nat) (resp : installationProxyInstallResponse) (c : Conn)
      (r : Except GoError installationProxyInstallResponse) (c2 : Conn),
      drainResponses codec fuel resp c = some (r, c2) → c2.written = c.written := by
  intro fuel
  induction fuel with
  | zero => intro resp c r c2 h; simp [drainResponses] at h
  | succ n ih =>
    intro resp c r c2 h
    unfold drainResponses at h
    split_ifs at h with he
    · simp only [Option.some.injEq, Prod.mk.injEq] at h
      rw [← h.2]
    · have h1 := (ReadFull_written c 4).1
      rcases hr1 : c.ReadFull 4 with ⟨r1, c1⟩
      rw [hr1] at h h1
      simp only at h1
      cases r1 with
      | error e =>
        simp only [Option.some.injEq, Prod.mk.injEq] at h
        rw [← h.2, h1]
      | ok respHeader =>
        simp only at h
        have h2 := (ReadFull_written c1 (uintBE respHeader)).1
        rcases hr2 : c1.ReadFull (uintBE respHeader) with ⟨r2, c3⟩
        rw [hr2] at h h2
        simp only at h2
        cases r2 with
        | error e =>
          simp only [Option.some.injEq, Prod.mk.injEq] at h
          rw [← h.2, h2, h1]
        | ok respPayload =>
          simp only at h
          cases hp : codec.parseReply respPayload with
          | error e =>
            rw [hp] at h
            simp only [Option.some.injEq, Prod.mk.injEq] at h
            rw [← h.2, h2, h1]
          | ok d =>
            rw [hp] at h
            simp only at h
            split_ifs at h with hc
            · simp only [Option.some.injEq, Prod.mk.injEq] at h
              rw [← h.2, h2, h1]
            · rw [ih _ _ _ _ h, h2, h1]

theorem InstallApplication_written (codec : PlistCodec) (c : Conn) (b path : String)
    (hup : c.up = true) :
    (∀ payload, codec.marshalInstall (installRequest b path) = .ok payload →
      (InstallationProxy.InstallApplication codec c b path).2.written =
        c.written ++ [lengthPrefixed payload]) ∧
    (∀ e, codec.marshalInstall (installRequest b path) = .error e →
      InstallationProxy.InstallApplication codec c b path = (some e, c)) := by
  constructor
  · intro payload hm
    simp only [InstallationProxy.InstallApplication, hm, Write_up c _ hup]
    generalize hc1 :
      (⟨c.up, c.written ++ [lengthPrefixed payload], c.incoming⟩ : Conn) = c1
    have hw1 : c1.written = c.written ++ [lengthPrefixed payload] := by rw [← hc1]
    have hd := drain_written codec (c.incoming.length + 1) ⟨"", "", ""⟩ c1
    rcases hdr : drainResponses codec (c.incoming.length + 1) ⟨"", "", ""⟩ c1
      with _ | ⟨r, c2⟩
    · exact hw1
    · have := hd r c2 hdr
      cases r <;> simpa [this] using hw1
  · intro e hm
    simp only [InstallationProxy.InstallApplication, hm]

theorem WriteFile_done (a : AFC) (c : Conn) (name data : Bytes) (mode : Nat)
    (hup : c.up = true) (hok : (a.WriteFile c name data mode).1 = .ret none) :
    ∃ pn fd, (a.WriteFile c name data mode).2.2.written =
      c.written ++ [openPacket ((a.packetNum + 1) % 2 ^ 64) name mode, writePacket pn fd data] := by
  unfold AFC.WriteFile at hok ⊢
  have ho := open_written a c name mode hup
  have hs := (open_state a c name mode).2
  rcases hopen : a.open c name mode with ⟨o, a1, c1⟩
  rw [hopen] at ho hs hok
  simp only at ho hs
  rcases o with ⟨fo, eo⟩ | r
  · cases eo with
    | some err => simp at hok
    | none =>
      cases fo with
      | none => simp at hok
      | some f =>
        simp only
        have hw := fileWrite_written f c1 data (hs.trans hup)
        rcases hwr : f.Write c1 data with ⟨o2, f1, c2⟩
        rw [hwr] at hw
        simp only at hw
        refine ⟨(f.packetNum + 1) % 2 ^ 64, f.fd, ?_⟩
        rcases o2 with ⟨n, werr⟩ | r
        · simp only [Close_effect]
          rw [hw, ho]
          simp
        · simp only [Close_effect]
          rw [hw, ho]
          simp
  · simp at hok

theorem upload_done (env : Env) (codec : PlistCodec) (file : LocalFile) (afc : AFC)
    (afcConn proxyConn : Conn) (t : List Msg) (lockdown : Lockdown) (b : String)
    (hup : afcConn.up = true) (hpup : proxyConn.up = true)
    (hok : (Install.upload env codec file afc afcConn proxyConn t lockdown b).1 = .ret none) :
    ∃ bytes pn fd payload, file.content = .ok bytes ∧
      (Install.upload env codec file afc afcConn proxyConn t lockdown b).2.afcConn.written =
        afcConn.written ++
          [openPacket ((afc.packetNum + 1) % 2 ^ 64) (utf8 (installationPath b)) AfcFileModeWr,
            writePacket pn fd bytes] ∧
      codec.marshalInstall (installRequest b (installationPath b)) = .ok payload ∧
      (Install.upload env codec file afc afcConn proxyConn t lockdown b).2.proxyConn.written =
        proxyConn.written ++ [lengthPrefixed payload] := by
  unfold Install.upload at hok ⊢
  rcases hc : file.content with err | bytes
  · rw [hc] at hok
    simp at hok
  · rw [hc] at hok
    simp only at hok ⊢
    have hwd := WriteFile_done afc afcConn (utf8 (installationPath b)) bytes AfcFileModeWr hup
    rcases hwf : afc.WriteFile afcConn (utf8 (installationPath b)) bytes AfcFileModeWr
      with ⟨o, a3, c3⟩
    rw [hwf] at hok hwd
    rcases o with e | r
    · cases e with
      | some err => simp at hok
      | none =>
        obtain ⟨pn, fd, hw⟩ := hwd rfl
        simp only at hok hw ⊢
        rcases hss : Lockdown.startService env t lockdown ServiceNameInstallationProxy
          with ⟨r3 | ⟨⟩, l3, t3⟩
        · rw [hss] at hok
          simp at hok
        · rw [hss] at hok
          simp only at hok ⊢
          have hia := InstallApplication_written codec proxyConn b (installationPath b) hpup
          rcases hm : codec.marshalInstall (installRequest b (installationPath b))
            with e | payload
          · rw [hia.2 e hm] at hok
            simp at hok
          · exact ⟨bytes, pn, fd, payload, rfl, hw, rfl, hia.1 payload hm⟩
    · simp at hok

theorem staging_done (env : Env) (codec : PlistCodec) (file : LocalFile) (afc : AFC)
    (afcConn proxyConn : Conn) (t : List Msg) (lockdown : Lockdown) (b : String)
    (hup : afcConn.up = true) (hpup : proxyConn.up = true)
    (hok : (Install.staging env codec file afc afcConn proxyConn t lockdown b).1 = .ret none) :
    ∃ pre bytes pn pn2 fd payload, file.content = .ok bytes ∧
      (∀ p ∈ pre, (afcOperationRequest.decode p).Operation ≠ AfcOperationFileOpen) ∧
      (Install.staging env codec file afc afcConn proxyConn t lockdown b).2.afcConn.written =
        afcConn.written ++ pre ++
          [openPacket pn (utf8 (installationPath b)) AfcFileModeWr, writePacket pn2 fd bytes] ∧
      codec.marshalInstall (installRequest b (installationPath b)) = .ok payload ∧
      (Install.staging env codec file afc afcConn proxyConn t lockdown b).2.proxyConn.written =
        proxyConn.written ++ [lengthPrefixed payload] := by
  unfold Install.staging at hok ⊢
  simp only at hok ⊢
  have hsw := Stat_written afc afcConn (utf8 "PublicStaging") hup
  have hss := Stat_state afc afcConn (utf8 "PublicStaging")
  rcases hst : afc.Stat afcConn (utf8 "PublicStaging") with ⟨o, afc1, c1⟩
  rw [hst] at hsw hss hok
  simp only at hsw hss
  obtain ⟨ha, hu⟩ := hss
  rcases o with ⟨pathInfo, err⟩ | r
  swap
  · simp at hok
  simp only at hok ⊢
  by_cases herr : err ≠ none ∧ err ≠ some .ErrObjectNotFound
  · rw [if_pos herr] at hok
    simp only [Outcome.ret.injEq] at hok
    exact absurd hok herr.1
  · rw [if_neg herr] at hok ⊢
    have hst1 : ∀ p ∈ [statPacket ((afc.packetNum + 1) % 2 ^ 64) (utf8 "PublicStaging")],
        (afcOperationRequest.decode p).Operation ≠ AfcOperationFileOpen := by
      intro p hp
      rw [List.mem_singleton] at hp
      rw [hp, statPacket_op]
      decide
    cases pathInfo with
    | some m =>
      simp only [Install.makeStaging] at hok ⊢
      obtain ⟨bytes, pn, fd, payload, h1, h2, h3, h4⟩ :=
        upload_done env codec file afc1 c1 proxyConn t lockdown b (hu.trans hup) hpup hok
      refine ⟨[statPacket ((afc.packetNum + 1) % 2 ^ 64) (utf8 "PublicStaging")], bytes,
        (afc1.packetNum + 1) % 2 ^ 64, pn, fd, payload, h1, hst1, ?_, h3, h4⟩
      rw [h2, hsw]
    | none =>
      simp only [Install.makeStaging] at hok ⊢
      have hcw := CreateDirectory_written afc1 c1 (utf8 "PublicStaging") (hu.trans hup)
      have hcs := CreateDirectory_state afc1 c1 (utf8 "PublicStaging")
      rcases hcd : afc1.CreateDirectory c1 (utf8 "PublicStaging") with ⟨o2, afc2, c2⟩
      rw [hcd] at hcw hcs hok
      simp only at hcw hcs
      rcases o2 with e2 | r2
      · cases e2 with
        | some err2 => simp at hok
        | none =>
          simp only at hok ⊢
          obtain ⟨bytes, pn, fd, payload, h1, h2, h3, h4⟩ :=
            upload_done env codec file afc2 c2 proxyConn t lockdown b
              (hcs.2.trans (hu.trans hup)) hpup hok
          refine ⟨[statPacket ((afc.packetNum + 1) % 2 ^ 64) (utf8 "PublicStaging"),
            createDirectoryPacket ((afc1.packetNum + 1) % 2 ^ 64) (utf8 "PublicStaging")],
            bytes, (afc2.packetNum + 1) % 2 ^ 64, pn, fd, payload, h1, ?_, ?_, h3, h4⟩
          · intro p hp
            rw [List.mem_cons, List.mem_singleton] at hp
            rcases hp with hp | hp
            · rw [hp, statPacket_op]
              decide
            · rw [hp, createDirectoryPacket_op]
              decide
          · rw [h2, hcw, hsw]
            simp
      · simp at hok

theorem staging_open_data (env : Env) (codec : PlistCodec) (file : LocalFile) (afc : AFC)
    (afcConn proxyConn : Conn) (t : List Msg) (lockdown : Lockdown) (b : String)
    (hup : afcConn.up = true) :
    ∀ p ∈ (Install.staging env codec file afc afcConn proxyConn t lockdown
        b).2.afcConn.written.drop afcConn.written.length,
      (afcOperationRequest.decode p).Operation = AfcOperationFileOpen →
      p.drop 40 = putUintLE 8 AfcFileModeWr ++ utf8 (installationPath b) := by
  obtain ⟨mk, wr, hw, hmk, _, hwr⟩ :=
    staging_packets env codec file afc afcConn proxyConn t lockdown b hup
  intro p hp hop
  rw [hw, List.drop_left] at hp
  rw [List.mem_cons, List.mem_append] at hp
  rcases hp with h | h | h
  · rw [h, statPacket_op] at hop
    exact absurd hop (by decide)
  · rcases hmk with h0 | h0
    · rw [h0] at h; simp at h
    · rw [h0, List.mem_singleton] at h
      rw [h, createDirectoryPacket_op] at hop
      exact absurd hop (by decide)
  · rcases hwr with h0 | ⟨pn, tail, h0, ht⟩
    · rw [h0] at h; simp at h
    · rw [h0, List.mem_cons] at h
      rcases h with h | h
      · rw [h, openPacket_data]
        rfl
      · rcases ht with ht | ⟨pn2, fd, bytes, ht⟩
        · rw [ht] at h; simp at h
        · rw [ht, List.mem_singleton] at h
          rw [h, writePacket_op] at hop
          exact absurd hop (by decide)

theorem staging_proxy_written (env : Env) (codec : PlistCodec) (file : LocalFile) (afc : AFC)
    (afcConn proxyConn : Conn) (t : List Msg) (lockdown : Lockdown) (b : String)
    (hpup : proxyConn.up = true) :
    (Install.staging env codec file afc afcConn proxyConn t lockdown b).2.proxyConn.written =
        proxyConn.written ∨
    ∃ payload, codec.marshalInstall (installRequest b (installationPath b)) = .ok payload ∧
      (Install.staging env codec file afc afcConn proxyConn t lockdown b).2.proxyConn.written =
        proxyConn.written ++ [lengthPrefixed payload] := by
  have hia := InstallApplication_written codec proxyConn b (installationPath b) hpup
  rcases staging_proxy env codec file afc afcConn proxyConn t lockdown b with h | h
  · exact Or.inl (by rw [h])
  · rcases hm : codec.marshalInstall (installRequest b (installationPath b)) with e | payload
    · exact Or.inl (by rw [h, hia.2 e hm])
    · exact Or.inr ⟨payload, rfl, by rw [h]; exact hia.1 payload hm⟩

theorem Install_cases (env : Env) (codec : PlistCodec) (file : LocalFile)
    (afcConn proxyConn : Conn) (t : List Msg) (device : Device)
    (info : List (String × PlistValue)) (b : String)
    (hinfo : file.info = .ok info)
    (hid : info.lookup "CFBundleIdentifier" = some (.string b)) :
    (∃ e t1, Install env codec file afcConn proxyConn t device =
      (.ret (some e), ⟨t1, afcConn, proxyConn⟩)) ∨
    ∃ l2 t2, Install env codec file afcConn proxyConn t device =
      Install.staging env codec file ⟨0⟩ afcConn proxyConn t2 l2 b := by
  unfold Install
  cases file.stat with
  | some err => exact Or.inl ⟨_, _, rfl⟩
  | none =>
    simp only [hinfo, hid]
    rcases LockdownService env t device with ⟨e | l1, t1⟩
    · exact Or.inl ⟨_, _, rfl⟩
    · simp only
      rcases Lockdown.startService env t1 l1 ServiceNameAFC with ⟨e | ⟨⟩, l2, t2⟩
      · exact Or.inl ⟨_, _, rfl⟩
      · exact Or.inr ⟨l2, t2, rfl⟩

/-- C15, amended: the upload path is `path.Join("PublicStaging", b + ".ipa")`
(`installationPath b`) for every bundle identifier b read from the archive's
Info.plist.  On working streams, in every run of `Install` each FileOpen packet
sent carries the mode write-truncate (4) followed by that path, and the
installation stream receives nothing or one request: the marshalled install
command whose PackagePath is that path.  Whenever `Install` returns nil, the
packets sent on the file stream end with the FileOpen of that path followed by
the FileWrite of the archive bytes, no earlier packet is a FileOpen, and the
install command with that PackagePath was sent.  For b without a `/` the path is
exactly "PublicStaging/" followed by b followed by ".ipa". -/
theorem upload_path (env : Env) (codec : PlistCodec) (file : LocalFile)
    (afcConn proxyConn : Conn) (t : List Msg) (device : Device)
    (info : List (String × PlistValue)) (b : String)
    (hinfo : file.info = .ok info)
    (hid : info.lookup "CFBundleIdentifier" = some (.string b))
    (hup : afcConn.up = true) (hpup : proxyConn.up = true) :
    (∀ p ∈ (Install env codec file afcConn proxyConn t device).2.afcConn.written.drop
        afcConn.written.length,
      (afcOperationRequest.decode p).Operation = AfcOperationFileOpen →
      p.drop 40 = putUintLE 8 AfcFileModeWr ++ utf8 (installationPath b)) ∧
    ((Install env codec file afcConn proxyConn t device).2.proxyConn.written =
        proxyConn.written ∨
      ∃ payload, codec.marshalInstall (installRequest b (installationPath b)) = .ok payload ∧
        (Install env codec file afcConn proxyConn t device).2.proxyConn.written =
          proxyConn.written ++ [lengthPrefixed payload]) ∧
    ((Install env codec file afcConn proxyConn t device).1 = .ret none →
      ∃ pre bytes pn pn2 fd payload, file.content = .ok bytes ∧
        (∀ p ∈ pre, (afcOperationRequest.decode p).Operation ≠ AfcOperationFileOpen) ∧
        (Install env codec file afcConn proxyConn t device).2.afcConn.written =
          afcConn.written ++ pre ++
            [openPacket pn (utf8 (installationPath b)) AfcFileModeWr,
              writePacket pn2 fd bytes] ∧
        codec.marshalInstall (installRequest b (installationPath b)) = .ok payload ∧
        (Install env codec file afcConn proxyConn t device).2.proxyConn.written =
          proxyConn.written ++ [lengthPrefixed payload]) ∧
    (installRequest b (installationPath b)).PackagePath = installationPath b ∧
    ('/' ∉ b.data → installationPath b = "PublicStaging/" ++ b ++ ".ipa") := by
  rcases Install_cases env codec file afcConn proxyConn t device info b hinfo hid
    with ⟨e, t1, h⟩ | ⟨l2, t2, h⟩
  · rw [h]
    refine ⟨by simp, Or.inl rfl, fun hok => ?_, rfl, installationPath_plain b⟩
    simp at hok
  · rw [h]
    exact ⟨staging_open_data env codec file ⟨0⟩ afcConn proxyConn t2 l2 b hup,
      staging_proxy_written env codec file ⟨0⟩ afcConn proxyConn t2 l2 b hpup,
      staging_done env codec file ⟨0⟩ afcConn proxyConn t2 l2 b hup hpup,
      rfl, installationPath_plain b⟩

set_option maxRecDepth 100000 in
/-- C15, witness: the archive of scenario S1 is installed over streams on which
every step succeeds; the codec marshals the install command to its PackagePath,
so the request on the installation stream shows the path. -/
theorem upload_path_witness :
    (∃ pre bytes pn pn2 fd payload,
      (exampleArchive "com.example.Hello").content = .ok bytes ∧
      (∀ p ∈ pre, (afcOperationRequest.decode p).Operation ≠ AfcOperationFileOpen) ∧
      (Install plainEnv packagePathCodec (exampleArchive "com.example.Hello") stagedStream
          proxyStream [] exampleDevice).2.afcConn.written =
        stagedStream.written ++ pre ++
          [openPacket pn (utf8 (installationPath "com.example.Hello")) AfcFileModeWr,
            writePacket pn2 fd bytes] ∧
      packagePathCodec.marshalInstall
          (installRequest "com.example.Hello" (installationPath "com.example.Hello")) =
        .ok payload ∧
      (Install plainEnv packagePathCodec (exampleArchive "com.example.Hello") stagedStream
          proxyStream [] exampleDevice).2.proxyConn.written =
        proxyStream.written ++ [lengthPrefixed payload]) ∧
    installationPath "com.example.Hello" = "PublicStaging/" ++ "com.example.Hello" ++ ".ipa" :=
  let h := upload_path plainEnv packagePathCodec (exampleArchive "com.example.Hello")
    stagedStream proxyStream [] exampleDevice
    [("CFBundleIdentifier", .string "com.example.Hello")] "com.example.Hello" rfl rfl rfl rfl
  ⟨h.2.2.1 (by decide), h.2.2.2.2 (by decide)⟩

end Xcdevice